import Mathlib

/-! # Flappy Bird on the DE1-SoC: the game simulation of `main.c`

A shallow embedding of the game loop in `src/source code/main.c`.

* C `int` values are modelled by `Int`.  The arithmetic of the game stays far
  from the limits of a 32-bit `int` (signed overflow is undefined in C), so no
  wrap-around is modelled.
* The two `float` accumulators are modelled by rationals together with a
  rounding function `fl : ℚ → ℚ` that stands for the rounding of every `float`
  operation.  All general theorems hold for every `fl`; concrete evaluations
  use exact arithmetic (`fl = id`).
* `rand()` is an oracle: each tick receives a stream `rand : Nat → Nat` whose
  `k`-th element is the result of the `k`-th call made during that tick.
* `a % b` on `int` is `Int.tmod` (truncated, as in C99) and is undefined for
  `b = 0`, which the model reports as `none`.
* The globals of `main.c` together with the two `static` locals of
  `update_and_draw_pipes` form the record `Game`.
* The kernel module `src/source code/video.c` that executes the commands is
  embedded after the game, with its own conventions stated there.
-/

namespace FlappyBird

/-! ## Constants of `main.c` -/

abbrev BIRD_BODY_WIDTH : Int := 18
abbrev BIRD_BODY_HEIGHT : Int := 20
abbrev BIRD_HEAD_SIZE : Int := 15
abbrev BIRD_BEAK_SIZE : Int := 6
abbrev BIRD_COLOR : Int := 0xFFE0
abbrev PIPE_WIDTH : Int := 20
abbrev MAX_PIPES : Nat := 4
abbrev GAP_SIZE : Int := 60
abbrev MIN_PIPE_HEIGHT : Int := 100
abbrev MAX_PIPE_HEIGHT_DIFF : Int := 40
abbrev SCROLL_SPEED_MULTIPLIER : ℚ := 10
abbrev SCROLL_SPEED : ℚ := 11 / 2
abbrev GRAVITY_MULTIPLIER : ℚ := 10
abbrev GRAVITY_SPEED : ℚ := 5
abbrev BOTTOM_MARGIN : Int := 1
abbrev GAME_OVER_X : Int := 52
abbrev RESTART_X : Int := 30
abbrev GAME_OVER_Y : Int := 35
abbrev RESTART_Y : Int := 40

/-! ## Data model -/

/-- The C struct `Pipe`. -/
structure Pipe where
  x : Int
  top_height : Int
deriving DecidableEq, Repr

/-- The C struct `Bird`. -/
structure Bird where
  x : Int
  y : Int
  velocity : Int
  fall_accumulator : ℚ
deriving DecidableEq, Repr

/-- The commands `main.c` writes to `/dev/video`. -/
inductive Cmd where
  | clear
  | sync
  | swap
  | erase
  | text (x y : Int) (msg : String)
  | box (x1 y1 x2 y2 : Int) (color : Int)
deriving DecidableEq, Repr

/-- What the game emits: video commands, audio cues and HEX display writes. -/
inductive Event where
  | video (c : Cmd)
  | coin_sound
  | game_over_sound
  | hex (value : Int)
deriving DecidableEq, Repr

/-- The mutable globals of `main.c` and the static locals `game_over` and
`game_over_sound_played` of `update_and_draw_pipes`.  The field `out` is the
log of everything written so far to the video device, the HEX display and the
audio core; every write appends to it. -/
structure Game where
  screen_x : Int
  screen_y : Int
  bird : Bird
  pipes : Mathlib.Vector Pipe MAX_PIPES
  scroll_accumulator : ℚ
  score : Int
  passed_pipes : Mathlib.Vector Int MAX_PIPES
  high_score : Int
  game_over : Int
  game_over_sound_played : Int
  out : List Event
deriving DecidableEq

/-- What one tick receives from outside: the value `read_key_input` returns
and the results of the successive `rand()` calls. -/
structure Input where
  key_input : Nat
  rand : Nat → Nat

/-! ## C arithmetic helpers -/

/-- The C operator `a % b` on `int`: truncated remainder, undefined for `b = 0`. -/
def c_mod (a b : Int) : Option Int :=
  if b = 0 then none else some (Int.tmod a b)

/-- The C operator `a / b` on `int`: truncated quotient. -/
def c_div (a b : Int) : Int := Int.tdiv a b

/-- The C conversion of an `int` to `short int`: the low 16 bits, read as a
two's-complement halfword. -/
def c_short (c : Int) : Int := (c + 32768) % 65536 - 32768

/-- The number `%X` prints for an `int` argument: its 32-bit pattern read as unsigned. -/
def c_hex (c : Int) : Int := c % 4294967296

/-- The C conversion `(int)f` of a `float`: truncation toward zero. -/
def c_trunc (q : ℚ) : Int :=
  Int.tdiv q.num (q.den : Int)

/-! ## Collision -/

/-- The left edge `bird_left` of `check_collision`. -/
def bird_left (b : Bird) : Int := b.x

/-- The right edge `bird_right` of `check_collision`. -/
def bird_right (b : Bird) : Int :=
  b.x + BIRD_BODY_WIDTH + c_div BIRD_HEAD_SIZE 2 + BIRD_BEAK_SIZE

/-- The top edge `bird_top` of `check_collision`. -/
def bird_top (b : Bird) : Int :=
  b.y - c_div BIRD_BODY_HEIGHT 2 - c_div BIRD_HEAD_SIZE 2

/-- The bottom edge `bird_bottom` of `check_collision`. -/
def bird_bottom (b : Bird) : Int :=
  b.y + c_div BIRD_BODY_HEIGHT 2

/-- The `for` loop of `check_collision`, over the indices still to visit. -/
def check_collision_loop (g : Game) : List (Fin MAX_PIPES) → Int
  | [] => 0
  | i :: rest =>
    if ¬ (bird_right g.bird < (g.pipes.get i).x ∨ bird_left g.bird > (g.pipes.get i).x + PIPE_WIDTH) then
      if bird_top g.bird < (g.pipes.get i).top_height ∨
          bird_bottom g.bird > (g.pipes.get i).top_height + GAP_SIZE then
        1
      else check_collision_loop g rest
    else check_collision_loop g rest

/-- The function `check_collision`. -/
def check_collision (g : Game) : Int :=
  check_collision_loop g (List.finRange MAX_PIPES)

/-! ## Output -/

/-- Append one video command to the output log (a `write` to `/dev/video`). -/
def emit (c : Cmd) (g : Game) : Game :=
  { g with out := g.out ++ [Event.video c] }

/-- The function `clear_text`: writes the `erase` command. -/
def clear_text (g : Game) : Game := emit Cmd.erase g

/-- The function `display_on_hex`. -/
def display_on_hex (value : Int) (g : Game) : Game :=
  { g with out := g.out ++ [Event.hex value] }

/-- The function `safe_draw_box`: clamps and writes one `box` command.  The parameter
`color` is a `short int`, so the argument is converted on entry, and the command text
carries it as `0x%X` prints the promoted `int`: `0xFFE0` is written as `0xFFFFFFE0`. -/
def safe_draw_box (x1 y1 x2 y2 : Int) (color : Int) (g : Game) : Game :=
  let x1 := if x1 < 0 then 0 else x1
  let y1 := if y1 < 0 then 0 else y1
  let x2 := if x2 ≥ g.screen_x then g.screen_x - 1 else x2
  let y2 := if y2 ≥ g.screen_y then g.screen_y - 1 else y2
  emit (Cmd.box x1 y1 x2 y2 (c_hex (c_short color))) g

/-- The function `draw_bird`: body, head and beak. -/
def draw_bird (g : Game) : Game :=
  let g := safe_draw_box g.bird.x (g.bird.y - c_div BIRD_BODY_HEIGHT 2)
    (g.bird.x + BIRD_BODY_WIDTH) (g.bird.y + c_div BIRD_BODY_HEIGHT 2) BIRD_COLOR g
  let g := safe_draw_box (g.bird.x + BIRD_BODY_WIDTH - c_div BIRD_HEAD_SIZE 2)
    (g.bird.y - c_div BIRD_BODY_HEIGHT 2 - c_div BIRD_HEAD_SIZE 2)
    (g.bird.x + BIRD_BODY_WIDTH + c_div BIRD_HEAD_SIZE 2)
    (g.bird.y - c_div BIRD_BODY_HEIGHT 2 + c_div BIRD_HEAD_SIZE 2) BIRD_COLOR g
  safe_draw_box (g.bird.x + BIRD_BODY_WIDTH + c_div BIRD_HEAD_SIZE 2)
    (g.bird.y - c_div BIRD_BODY_HEIGHT 2 - c_div BIRD_BEAK_SIZE 2)
    (g.bird.x + BIRD_BODY_WIDTH + c_div BIRD_HEAD_SIZE 2 + BIRD_BEAK_SIZE)
    (g.bird.y - c_div BIRD_BODY_HEIGHT 2 + c_div BIRD_BEAK_SIZE 2) BIRD_COLOR g

/-- The function `draw_pipe`: top section, then bottom section when it starts
above the bottom of the screen. -/
def draw_pipe (pipe : Pipe) (g : Game) : Game :=
  let g := safe_draw_box pipe.x 0 (pipe.x + PIPE_WIDTH) pipe.top_height 0x07E0 g
  let bottom_y_start := pipe.top_height + GAP_SIZE
  if bottom_y_start < g.screen_y then
    safe_draw_box pipe.x bottom_y_start (pipe.x + PIPE_WIDTH) (g.screen_y - 1) 0x07E0 g
  else g

/-- The function `display_game_over`: raises the high score to the score when
the score is larger, then writes the three overlay texts. -/
def display_game_over (g : Game) : Game :=
  let g := if g.score > g.high_score then { g with high_score := g.score } else g
  let g := emit (Cmd.text GAME_OVER_X GAME_OVER_Y "GAME OVER") g
  let g := emit (Cmd.text RESTART_X RESTART_Y "PRESS KEY1 to restart") g
  emit (Cmd.text (RESTART_X - 12) (RESTART_Y + 5) ("Highscore: " ++ toString g.high_score)) g

/-! ## Actor -/

/-- The function `initialize_bird`. -/
def initialize_bird (g : Game) : Game :=
  { g with bird :=
      { x := c_div g.screen_x 3, y := c_div g.screen_y 2, velocity := 0, fall_accumulator := 0 } }

/-- The function `update_bird`, given the value read from the keys. -/
def update_bird (fl : ℚ → ℚ) (key_input : Nat) (g : Game) : Game :=
  let b := g.bird
  let b := if key_input &&& 1 ≠ 0 then { b with y := b.y - 6, fall_accumulator := 0 } else b
  let b := { b with
    fall_accumulator := fl (b.fall_accumulator + fl (fl GRAVITY_SPEED / GRAVITY_MULTIPLIER)) }
  let b :=
    if b.fall_accumulator ≥ 1 then
      let pixels_to_fall := c_trunc b.fall_accumulator
      let b := { b with fall_accumulator := fl (b.fall_accumulator - pixels_to_fall) }
      if b.y + c_div BIRD_BODY_HEIGHT 2 + pixels_to_fall < g.screen_y - BOTTOM_MARGIN then
        { b with y := b.y + pixels_to_fall }
      else b
    else b
  let b := if b.y - c_div BIRD_BODY_HEIGHT 2 < 0 then { b with y := c_div BIRD_BODY_HEIGHT 2 } else b
  { g with bird := b }

/-! ## Obstacle field -/

/-- The lower end `min_height` of the interval `initialize_pipes` draws from. -/
def spawn_min_height (previous_height : Int) : Int :=
  let min_height := previous_height - MAX_PIPE_HEIGHT_DIFF
  if min_height < MIN_PIPE_HEIGHT then MIN_PIPE_HEIGHT else min_height

/-- The upper end `max_height` of the interval `initialize_pipes` draws from. -/
def spawn_max_height (screen_y previous_height : Int) : Int :=
  let max_height := previous_height + MAX_PIPE_HEIGHT_DIFF
  if max_height > screen_y - GAP_SIZE then screen_y - GAP_SIZE else max_height

/-- One iteration of the loop of `initialize_pipes`; the loop state is the game
and `previous_height`.  Iteration `i` makes call number `i + 1` of `rand`. -/
def initialize_pipes_step (rand : Nat → Nat) (st : Game × Int) (i : Fin MAX_PIPES) :
    Option (Game × Int) :=
  let g := st.1
  let previous_height := st.2
  let min_height := spawn_min_height previous_height
  let max_height := spawn_max_height g.screen_y previous_height
  (c_mod (rand (i.val + 1)) (max_height - min_height + 1)).map fun r =>
    let top_height := min_height + r
    let pipe : Pipe :=
      { x := g.screen_x + (i.val : Int) * (PIPE_WIDTH + 60), top_height := top_height }
    ({ g with pipes := g.pipes.set i pipe }, top_height)

/-- The first `previous_height` of `initialize_pipes` (call number 0 of `rand`). -/
def initial_previous_height (rand : Nat → Nat) (screen_y : Int) : Option Int :=
  (c_mod (rand 0) (screen_y - GAP_SIZE - MIN_PIPE_HEIGHT)).map fun r => MIN_PIPE_HEIGHT + r

/-- The function `initialize_pipes`. -/
def initialize_pipes (rand : Nat → Nat) (g : Game) : Option Game :=
  (initial_previous_height rand g.screen_y).bind fun previous_height =>
    ((List.finRange MAX_PIPES).foldlM (initialize_pipes_step rand) (g, previous_height)).map
      fun st => st.1

/-- One iteration of the scroll loop of `update_and_draw_pipes`; the loop state
is the game and the number of `rand` calls made so far in this tick. -/
def scroll_step (rand : Nat → Nat) (pixels_to_move : Int) (st : Game × Nat)
    (i : Fin MAX_PIPES) : Option (Game × Nat) :=
  let g := st.1
  let calls := st.2
  let x := (g.pipes.get i).x - pixels_to_move
  if x + PIPE_WIDTH < 0 then
    (c_mod (rand calls) (g.screen_y - GAP_SIZE - MIN_PIPE_HEIGHT)).map fun r =>
      let pipe : Pipe := { x := g.screen_x, top_height := MIN_PIPE_HEIGHT + r }
      ({ g with pipes := g.pipes.set i pipe }, calls + 1)
  else
    some ({ g with pipes := g.pipes.set i { g.pipes.get i with x := x } }, calls)

/-- The value of `scroll_accumulator` after the addition that opens the
PLAYING branch of `update_and_draw_pipes`. -/
def scroll_accumulated (fl : ℚ → ℚ) (g : Game) : ℚ :=
  fl (g.scroll_accumulator + fl (fl SCROLL_SPEED / SCROLL_SPEED_MULTIPLIER))

/-- The scroll part of a PLAYING tick: advance the accumulator and, once it
holds a whole pixel, shift every pipe and respawn those that left the screen. -/
def scroll_pipes (fl : ℚ → ℚ) (rand : Nat → Nat) (g : Game) : Option Game :=
  let g := { g with scroll_accumulator := scroll_accumulated fl g }
  if g.scroll_accumulator ≥ 1 then
    let pixels_to_move := c_trunc g.scroll_accumulator
    let g := { g with scroll_accumulator := fl (g.scroll_accumulator - pixels_to_move) }
    ((List.finRange MAX_PIPES).foldlM (scroll_step rand pixels_to_move) (g, 0)).map fun st => st.1
  else some g

/-! ## Scoring -/

/-- One iteration of the loop of `update_score`. -/
def update_score_step (g : Game) (i : Fin MAX_PIPES) : Game :=
  let g :=
    if g.passed_pipes.get i = 0 ∧ g.bird.x > (g.pipes.get i).x + PIPE_WIDTH then
      { g with
        score := g.score + 1
        passed_pipes := g.passed_pipes.set i 1
        out := g.out ++ [Event.coin_sound] }
    else g
  if (g.pipes.get i).x ≥ g.screen_x then
    { g with passed_pipes := g.passed_pipes.set i 0 }
  else g

/-- The function `update_score`. -/
def update_score (g : Game) : Game :=
  (List.finRange MAX_PIPES).foldl update_score_step g

/-! ## Game loop -/

/-- The function `restart_game`. -/
def restart_game (rand : Nat → Nat) (g : Game) : Option Game :=
  (initialize_pipes rand (initialize_bird g)).map fun g =>
    let g := { g with scroll_accumulator := 0 }
    let g := { g with score := 0 }
    let g := (List.finRange MAX_PIPES).foldl
      (fun g i => { g with passed_pipes := g.passed_pipes.set i 0 }) g
    display_on_hex g.score g

/-- The GAME_OVER branch of `update_and_draw_pipes`, after the entry commands. -/
def game_over_tick (inp : Input) (g : Game) : Option Game :=
  let g := display_game_over g
  let g :=
    if g.game_over_sound_played = 0 then
      { g with out := g.out ++ [Event.game_over_sound], game_over_sound_played := 1 }
    else g
  let key_input := inp.key_input
  (if key_input &&& 2 ≠ 0 then
    restart_game inp.rand (clear_text { g with game_over := 0, game_over_sound_played := 0 })
  else some g).map fun g => emit Cmd.swap (emit Cmd.sync g)

/-- The PLAYING branch of `update_and_draw_pipes` up to and including
`update_bird`: the state on which `update_score` then runs. -/
def playing_mid (fl : ℚ → ℚ) (inp : Input) (g : Game) : Option Game :=
  (scroll_pipes fl inp.rand g).map fun g => update_bird fl inp.key_input g

/-- The PLAYING branch of `update_and_draw_pipes`, after the entry commands. -/
def playing_tick (fl : ℚ → ℚ) (inp : Input) (g : Game) : Option Game :=
  (playing_mid fl inp g).map fun g =>
    let g := update_score g
    if check_collision g ≠ 0 then
      let g := { g with game_over := 1 }
      let g := display_game_over g
      emit Cmd.swap (emit Cmd.sync g)
    else
      let g := (List.finRange MAX_PIPES).foldl (fun g i => draw_pipe (g.pipes.get i) g) g
      let g := draw_bird g
      emit Cmd.swap (emit Cmd.sync g)

/-- The function `update_and_draw_pipes`: one tick of the game.  The command
buffer flushed by `flush_draw_commands` is always empty (`draw_command_count`
is only ever assigned 0), so that call writes nothing. -/
def update_and_draw_pipes (fl : ℚ → ℚ) (inp : Input) (g : Game) : Option Game :=
  let g := emit Cmd.sync (emit Cmd.clear g)
  if g.game_over ≠ 0 then game_over_tick inp g else playing_tick fl inp g

/-- The start of `main` once the devices are open: the screen size reported by
the video driver, zeroed globals, the initial `clear` and `sync`, then
`initialize_pipes` and `initialize_bird`. -/
def game_start (screen_x screen_y : Int) (rand : Nat → Nat) : Option Game :=
  let g : Game :=
    { screen_x := screen_x, screen_y := screen_y,
      bird := { x := 0, y := 0, velocity := 0, fall_accumulator := 0 },
      pipes := Mathlib.Vector.replicate MAX_PIPES { x := 0, top_height := 0 },
      scroll_accumulator := 0, score := 0, passed_pipes := Mathlib.Vector.replicate MAX_PIPES 0,
      high_score := 0, game_over := 0, game_over_sound_played := 0, out := [] }
  (initialize_pipes rand (emit Cmd.sync (emit Cmd.clear g))).map initialize_bird

/-- One iteration of the loop of `main`: a tick, then the score on the HEX
display. -/
def main_loop_step (fl : ℚ → ℚ) (g : Game) (inp : Input) : Option Game :=
  (update_and_draw_pipes fl inp g).map fun g => display_on_hex g.score g

/-- Run the loop of `main` on a list of inputs, one input per iteration. -/
def run_ticks (fl : ℚ → ℚ) (g : Game) (inputs : List Input) : Option Game :=
  inputs.foldlM (main_loop_step fl) g

/-! ## The video driver `video.c`

* The two pixel buffers mapped by `start_video` are named by `BufId`; the pointers
  `pixel_buffer` (front) and `current_back_buffer` (back) hold such a name.  Both are
  non-null once `start_video` has succeeded, so the NULL branches of `clear_screen`
  and `clear_both_buffers` are not modelled.
* Pixel memory is read and written as aligned halfwords only.  It is kept as the list
  `pixels` of the stores made so far, most recent first: an entry `(b, a, c)` says that
  the `short` at byte offset `a` of buffer `b` holds `c`, and `read_pixel` finds the
  first entry for a given place.  A place without an entry holds 0, the value
  `start_video` leaves in both buffers.
* The character buffer is kept the same way as the list `chars` of entries
  `(offset, character)`; a place without an entry holds a space, the value
  `start_video` leaves there.
* The arguments of the drawing functions are C `int`s modelled by `Int`; the loops
  are folds over the list of values the loop counter takes, which is exact whenever
  the upper bounds are below `INT_MAX`, as every bound inside a screen is.
-/

abbrev BUF_LEN : Nat := 80
abbrev BUFFER_SIZE : Int := 0x0003FFFF
abbrev CHAR_WIDTH : Int := 80
abbrev CHAR_HEIGHT : Int := 60

/-- Modelled from the spec: the invalid-argument error code `EINVAL`; its value is that of
the Linux errno table, which is not part of the sources. -/
abbrev EINVAL : Int := 22

/-- Modelled from the spec: the bad-address error code `EFAULT` of the Linux errno table,
which is not part of the sources. -/
abbrev EFAULT : Int := 14

/-- The two pixel buffers `PIXEL_BUFFER_1` and `PIXEL_BUFFER_2`. -/
inductive BufId where
  | one
  | two
deriving DecidableEq, Repr

/-- The globals of `video.c` together with the memory they point to and the buffer the
display controller is showing. -/
structure Video where
  resolution_x : Int
  resolution_y : Int
  pixel_buffer : BufId
  current_back_buffer : BufId
  pixels : List (BufId × Int × Int)
  chars : List (Int × Char)
  displayed : BufId
  hidden : BufId
deriving DecidableEq, Repr

/-- The `short` at byte offset `a` of pixel buffer `b`. -/
def read_pixel : List (BufId × Int × Int) → BufId → Int → Int
  | [], _, _ => 0
  | e :: m, b, a => if e.1 = b ∧ e.2.1 = a then e.2.2 else read_pixel m b a

/-- The character at byte offset `a` of the character buffer. -/
def read_char : List (Int × Char) → Int → Char
  | [], _ => ' '
  | e :: m, a => if e.1 = a then e.2 else read_char m a

/-- The values `a, a + 1, ..., b` of a loop `for (i = a; i <= b; i++)`. -/
def int_range (a b : Int) : List Int :=
  (List.range (b + 1 - a).toNat).map fun (k : Nat) => a + (k : Int)

/-- The byte offset `(y * 0x400) + (x * 2)` of cell `(x, y)` in a pixel buffer. -/
def pixel_offset (x y : Int) : Int := y * 0x400 + x * 2

/-- The C function `plot_pixel`. -/
def plot_pixel (x y color : Int) (v : Video) : Video :=
  if x < 0 ∨ x ≥ v.resolution_x ∨ y < 0 ∨ y ≥ v.resolution_y then v
  else
    { v with pixels := (v.current_back_buffer, pixel_offset x y, color) :: v.pixels }

/-- The C function `draw_box`. -/
def draw_box (x1 y1 x2 y2 color : Int) (v : Video) : Video :=
  (int_range y1 y2).foldl
    (fun v y => (int_range x1 x2).foldl (fun v x => plot_pixel x y color v) v) v

/-- The state carried by the loop of `draw_line`: the video state, `y` and `error`. -/
structure LineState where
  video : Video
  y : Int
  error : Int

/-- One iteration of the loop of `draw_line`. -/
def draw_line_step (is_steep : Bool) (deltax deltay y_step color : Int)
    (s : LineState) (x : Int) : LineState :=
  let v := if is_steep then plot_pixel s.y x color s.video else plot_pixel x s.y color s.video
  let error := s.error + deltay
  if error ≥ 0 then ⟨v, s.y + y_step, error - deltax⟩ else ⟨v, s.y, error⟩

/-- The C function `draw_line` (Bresenham). -/
def draw_line (x0 y0 x1 y1 color : Int) (v : Video) : Video :=
  let is_steep : Bool := decide (|y1 - y0| > |x1 - x0|)
  let p : Int × Int × Int × Int := if is_steep then (y0, x0, y1, x1) else (x0, y0, x1, y1)
  let q : Int × Int × Int × Int :=
    if p.1 > p.2.2.1 then (p.2.2.1, p.2.2.2, p.1, p.2.1) else p
  let x0 := q.1
  let y0 := q.2.1
  let x1 := q.2.2.1
  let y1 := q.2.2.2
  let deltax := x1 - x0
  let deltay := |y1 - y0|
  let error := -(c_div deltax 2)
  let y := y0
  let y_step : Int := if y0 < y1 then 1 else -1
  ((int_range x0 x1).foldl (draw_line_step is_steep deltax deltay y_step color)
    ⟨v, y, error⟩).video

/-- The inner loop `for (i = 0; i < PIPE_WIDTH && (x + i) < resolution_x; i++)` of
`draw_pipe_direct`; `plot_pixel` leaves `resolution_x` alone, so the loop visits the
longest initial run of `i` with `x + i < resolution_x`. -/
def draw_pipe_row (x y color : Int) (v : Video) : Video :=
  ((int_range 0 (PIPE_WIDTH - 1)).takeWhile fun i => x + i < v.resolution_x).foldl
    (fun v i => plot_pixel (x + i) y color v) v

/-- The C function `draw_pipe_direct`. -/
def draw_pipe_direct (x top_height gap_size color : Int) (v : Video) : Video :=
  if x < 0 ∨ x + PIPE_WIDTH ≥ v.resolution_x ∨ top_height < 0 then v
  else
    let max_top := if top_height < v.resolution_y then top_height else v.resolution_y
    let v := (int_range 0 (max_top - 1)).foldl (fun v y => draw_pipe_row x y color v) v
    let bottom_y_start := top_height + gap_size
    if bottom_y_start < v.resolution_y then
      (int_range bottom_y_start (v.resolution_y - 1)).foldl
        (fun v y => draw_pipe_row x y color v) v
    else v

/-- The loop of `draw_text`: `text` holds the bytes at the pointer, the end of the list
standing for the terminator.  A store below the start of `char_buffer` is out of bounds
and reported as `none`. -/
def draw_text_loop : List Char → Int → Video → Option Video
  | [], _, v => some v
  | c :: text, offset, v =>
    if c ≠ Char.ofNat 0 ∧ offset < CHAR_WIDTH * CHAR_HEIGHT then
      if offset < 0 then none
      else
        draw_text_loop text (offset + 1) { v with chars := (offset, c) :: v.chars }
    else some v

/-- The C function `draw_text`. -/
def draw_text (x y : Int) (text : List Char) (v : Video) : Option Video :=
  if x ≥ CHAR_WIDTH ∨ y ≥ CHAR_HEIGHT then some v
  else draw_text_loop text (y * CHAR_WIDTH + x) v

/-- The C function `clear_text_buffer`. -/
def clear_text_buffer (v : Video) : Video :=
  (int_range 0 (CHAR_HEIGHT - 1)).foldl
    (fun v j => (int_range 0 (CHAR_WIDTH - 1)).foldl
      (fun v i => { v with chars := (j * CHAR_WIDTH + i, ' ') :: v.chars }) v) v

/-- Modelled from the spec: the display controller, which is hardware and not part of the
sources, exchanges the buffer it displays and the one it hides each time the trigger
value is written to its buffer register. -/
def buffer_register_write (v : Video) : Video :=
  { v with displayed := v.hidden, hidden := v.displayed }

/-- The C function `swap_buffers`: trigger the controller, wait, exchange the pointers. -/
def swap_buffers (v : Video) : Video :=
  let v := buffer_register_write v
  let temp := v.pixel_buffer
  { v with pixel_buffer := v.current_back_buffer, current_back_buffer := temp }

/-- The C function `sync_vga`: trigger the controller and wait. -/
def sync_vga (v : Video) : Video :=
  buffer_register_write v

/-- The effect of `memset_io(buffer, 0, BUFFER_SIZE)` on the halfword at byte offset `a`
holding `c`: a halfword wholly inside the first `BUFFER_SIZE` bytes becomes 0, the
halfword whose low byte is the last byte cleared keeps its high byte. -/
def memset_zero (a c : Int) : Int :=
  if 0 ≤ a ∧ a + 1 < BUFFER_SIZE then 0
  else if a + 1 = BUFFER_SIZE then c - c % 256
  else c

/-- The effect of `memset_io(b, 0, BUFFER_SIZE)` on the list of stores: the entries of the
cleared halfwords of buffer `b` are dropped, the others adjusted by `memset_zero`. -/
def memset_io (b : BufId) (m : List (BufId × Int × Int)) : List (BufId × Int × Int) :=
  m.filterMap fun e =>
    if e.1 = b then
      if 0 ≤ e.2.1 ∧ e.2.1 + 1 < BUFFER_SIZE then none
      else some (e.1, e.2.1, memset_zero e.2.1 e.2.2)
    else some e

/-- The C function `clear_screen`. -/
def clear_screen (v : Video) : Video :=
  { v with pixels := memset_io v.current_back_buffer v.pixels }

/-- The C function `clear_both_buffers`. -/
def clear_both_buffers (v : Video) : Video :=
  let v : Video := { v with pixels := memset_io v.pixel_buffer v.pixels }
  { v with pixels := memset_io v.current_back_buffer v.pixels }

/-- The conversion `(short int)color` of an `unsigned int`: the low 16 bits, read as a
two's-complement halfword. -/
def to_short (color : Nat) : Int :=
  if color % 65536 < 32768 then (color % 65536 : Nat) else (color % 65536 : Nat) - 65536

/-- The results of the four `sscanf` calls of `device_write`, as functions of the scanned
string: `some` of the converted values when the call returns the number of conversions
the code compares it with, `none` otherwise.  `sscanf` is a library function, so it is a
parameter of the model. -/
structure Scanner where
  pipe : List Char → Option (Int × Int × Int × Nat)
  position : List Char → Option (Int × Int)
  line : List Char → Option (Int × Int × Int × Int × Nat)
  box : List Char → Option (Int × Int × Int × Int × Nat)

/-- The items of a `sscanf` format: a literal character, white space, `%d` and `%x`. -/
inductive Conv where
  | lit (c : Char)
  | space
  | dec
  | hex
deriving DecidableEq, Repr

/-- The value of a hexadecimal digit, if the character is one. -/
def hex_digit (c : Char) : Option Nat :=
  if c.isDigit then some (c.toNat - '0'.toNat)
  else if 'a'.toNat ≤ c.toNat ∧ c.toNat ≤ 'f'.toNat then some (c.toNat - 'a'.toNat + 10)
  else if 'A'.toNat ≤ c.toNat ∧ c.toNat ≤ 'F'.toNat then some (c.toNat - 'A'.toNat + 10)
  else none

/-- The value of a digit in the given base, if the character is one. -/
def digit_value (base : Nat) (c : Char) : Option Nat :=
  (hex_digit c).bind fun d => if d < base then some d else none

/-- Read the longest run of digits, accumulating the number they denote. -/
def scan_digits (base : Nat) : List Char → Nat → Nat × List Char
  | [], acc => (acc, [])
  | c :: s, acc =>
    match digit_value base c with
    | some d => scan_digits base s (acc * base + d)
    | none => (acc, c :: s)

/-- A number in the given base: at least one digit. -/
def scan_number (base : Nat) (s : List Char) : Option (Nat × List Char) :=
  match s with
  | [] => none
  | c :: _ => if (digit_value base c).isSome then some (scan_digits base s 0) else none

/-- The conversion `%d`: skip white space, an optional minus sign, decimal digits. -/
def scan_dec (s : List Char) : Option (Int × List Char) :=
  match s.dropWhile Char.isWhitespace with
  | '-' :: r => (scan_number 10 r).map fun p => (-(p.1 : Int), p.2)
  | r => (scan_number 10 r).map fun p => ((p.1 : Int), p.2)

/-- The conversion `%x`: skip white space, an optional `0x`, hexadecimal digits. -/
def scan_hex (s : List Char) : Option (Nat × List Char) :=
  match s.dropWhile Char.isWhitespace with
  | '0' :: x :: c :: r =>
    if (x = 'x' ∨ x = 'X') ∧ (digit_value 16 c).isSome then scan_number 16 (c :: r)
    else scan_number 16 ('0' :: x :: c :: r)
  | r => scan_number 16 r

/-- A reference model of `sscanf` for formats made of literals, white space, `%d` and
`%x`: the list of the values converted before the first mismatch. -/
def sscanf : List Conv → List Char → List Int
  | [], _ => []
  | Conv.lit c :: fmt, s =>
    match s with
    | d :: r => if c = d then sscanf fmt r else []
    | [] => []
  | Conv.space :: fmt, s => sscanf fmt (s.dropWhile Char.isWhitespace)
  | Conv.dec :: fmt, s =>
    match scan_dec s with
    | some (n, r) => n :: sscanf fmt r
    | none => []
  | Conv.hex :: fmt, s =>
    match scan_hex s with
    | some (n, r) => (n : Int) :: sscanf fmt r
    | none => []

/-- The literal characters of a format. -/
def lits (s : String) : List Conv := s.toList.map Conv.lit

/-- The format `"pipe %d,%d,%d %x"`. -/
def pipe_format : List Conv :=
  lits "pipe" ++ [Conv.space, Conv.dec, Conv.lit ',', Conv.dec, Conv.lit ',', Conv.dec,
    Conv.space, Conv.hex]

/-- The format `"%d,%d"`. -/
def position_format : List Conv := [Conv.dec, Conv.lit ',', Conv.dec]

/-- The format `"line %d,%d %d,%d %x"`. -/
def line_format : List Conv :=
  lits "line" ++ [Conv.space, Conv.dec, Conv.lit ',', Conv.dec, Conv.space, Conv.dec,
    Conv.lit ',', Conv.dec, Conv.space, Conv.hex]

/-- The format `"box %d,%d %d,%d %x"`. -/
def box_format : List Conv :=
  lits "box" ++ [Conv.space, Conv.dec, Conv.lit ',', Conv.dec, Conv.space, Conv.dec,
    Conv.lit ',', Conv.dec, Conv.space, Conv.hex]

/-- The four `sscanf` calls of `device_write` under the reference model. -/
def c_scanner : Scanner where
  pipe s :=
    match sscanf pipe_format s with
    | [x, top, gap, color] => some (x, top, gap, color.toNat)
    | _ => none
  position s :=
    match sscanf position_format s with
    | [x, y] => some (x, y)
    | _ => none
  line s :=
    match sscanf line_format s with
    | [x1, y1, x2, y2, color] => some (x1, y1, x2, y2, color.toNat)
    | _ => none
  box s :=
    match sscanf box_format s with
    | [x1, y1, x2, y2, color] => some (x1, y1, x2, y2, color.toNat)
    | _ => none

/-- The removal of one trailing `'\n'` or `'\r'` from the text of a `text` command. -/
def strip_newline (text : List Char) : List Char :=
  match text.getLast? with
  | some c => if c = '\n' ∨ c = '\r' then text.dropLast else text
  | none => text

/-- The `text` branch of `device_write`, `rest` being the string at `cmd + 5`. -/
def device_write_text (sc : Scanner) (length : Nat) (rest : List Char) (v : Video) :
    Option (Int × Video) :=
  if ',' ∈ rest ∧ ' ' ∈ rest ∧ rest.indexOf ',' < rest.indexOf ' ' then
    let pos_len := rest.indexOf ' '
    let position_part := rest.take pos_len
    let text_str := strip_newline (rest.drop (pos_len + 1))
    match sc.position position_part with
    | some (x, y) => (draw_text x y text_str v).map fun v => ((length : Int), v)
    | none => some (-EINVAL, v)
  else some (-EINVAL, v)

/-- The commands of `device_write` that follow the `text` branch. -/
def device_write_draw (sc : Scanner) (length : Nat) (cmd : List Char) (v : Video) :
    Int × Video :=
  if cmd.take 10 = "clear_both".toList then ((length : Int), clear_both_buffers v)
  else if cmd.take 4 = "sync".toList then ((length : Int), sync_vga v)
  else if cmd.take 4 = "swap".toList then ((length : Int), swap_buffers v)
  else if cmd.take 5 = "clear".toList then ((length : Int), clear_screen v)
  else
    match sc.line cmd with
    | some (x1, y1, x2, y2, color) => ((length : Int), draw_line x1 y1 x2 y2 (to_short color) v)
    | none =>
      match sc.box cmd with
      | some (x1, y1, x2, y2, color) => ((length : Int), draw_box x1 y1 x2 y2 (to_short color) v)
      | none => (-EINVAL, v)

/-- The C function `device_write`.  `prior` is the string found in the local array `cmd`
when the function is entered (the array is not initialised), `buffer` the `length` bytes
at the user pointer, `copy_fails` whether `copy_from_user` reports uncopied bytes.  The
result is the returned value and the state; `none` stands for the store `cmd[length]`
past the end of the array when `length` is `BUF_LEN`, and for an out-of-bounds store of
`draw_text`. -/
def device_write (sc : Scanner) (prior buffer : List Char) (copy_fails : Bool) (v : Video) :
    Option (Int × Video) :=
  let length := buffer.length
  match sc.pipe prior with
  | some (pipe_x, pipe_top, pipe_gap, color) =>
    some ((length : Int), draw_pipe_direct pipe_x pipe_top pipe_gap (to_short color) v)
  | none =>
    if length > BUF_LEN then some (-EINVAL, v)
    else if copy_fails then some (-EFAULT, v)
    else if length = BUF_LEN then none
    else
      let cmd := buffer.takeWhile fun c => c ≠ Char.ofNat 0
      if cmd.take 5 = "erase".toList then some ((length : Int), clear_text_buffer v)
      else if cmd.take 5 = "text ".toList then device_write_text sc length (cmd.drop 5) v
      else some (device_write_draw sc length cmd v)

/-! ## Notions used to state the properties -/

/-- Pipe `i` horizontally overlaps the bird: the outer test of the loop of
`check_collision`. -/
def overlaps (g : Game) (i : Fin MAX_PIPES) : Prop :=
  ¬ (bird_right g.bird < (g.pipes.get i).x ∨ bird_left g.bird > (g.pipes.get i).x + PIPE_WIDTH)

instance (g : Game) (i : Fin MAX_PIPES) : Decidable (overlaps g i) := by
  unfold overlaps; infer_instance

/-- A 320x240 game in its PLAYING state with the given bird height, pipes and
passed flags; the bird is at its start column `320 / 3 = 106`. -/
def sample_game (bird_y : Int) (pipes : Mathlib.Vector Pipe MAX_PIPES)
    (passed_pipes : Mathlib.Vector Int MAX_PIPES) : Game :=
  { screen_x := 320, screen_y := 240,
    bird := { x := 106, y := bird_y, velocity := 0, fall_accumulator := 0 },
    pipes := pipes, scroll_accumulator := 0, score := 0, passed_pipes := passed_pipes,
    high_score := 0, game_over := 0, game_over_sound_played := 0, out := [] }

/-- The bird under pipe 0 (columns 100 to 120, top section of height 100), the
other pipes further right. -/
def boundary_game (bird_y : Int) : Game :=
  sample_game bird_y ⟨[⟨100, 100⟩, ⟨180, 100⟩, ⟨260, 100⟩, ⟨340, 100⟩], rfl⟩
    (Mathlib.Vector.replicate MAX_PIPES 0)

/-- The scoring test of `update_score` for pipe `i`. -/
def passes (g : Game) (i : Fin MAX_PIPES) : Prop :=
  g.passed_pipes.get i = 0 ∧ g.bird.x > (g.pipes.get i).x + PIPE_WIDTH

instance (g : Game) (i : Fin MAX_PIPES) : Decidable (passes g i) := by
  unfold passes; infer_instance

/-- The passed flag of pipe `i` once iteration `i` of `update_score` is over. -/
def flag_after (g : Game) (i : Fin MAX_PIPES) : Int :=
  if (g.pipes.get i).x ≥ g.screen_x then 0
  else if passes g i then 1 else g.passed_pipes.get i

/-- Pipe `i` is off the left edge once shifted by `p`: the respawn test of the
scroll loop. -/
def leaves (g : Game) (p : Int) (i : Fin MAX_PIPES) : Prop :=
  (g.pipes.get i).x - p + PIPE_WIDTH < 0

instance (g : Game) (p : Int) (i : Fin MAX_PIPES) : Decidable (leaves g p i) := by
  unfold leaves; infer_instance

/-- What the scroll loop leaves in slot `i`, written `q`, given the game `g`
before the loop: a respawned pipe or the old pipe shifted by `p`. -/
def scrolled (rand : Nat → Nat) (g : Game) (p : Int) (i : Fin MAX_PIPES) (q : Pipe) : Prop :=
  if leaves g p i then
    q.x = g.screen_x ∧
      ∃ k r, c_mod (rand k) (g.screen_y - GAP_SIZE - MIN_PIPE_HEIGHT) = some r ∧
        q.top_height = MIN_PIPE_HEIGHT + r
  else q = { g.pipes.get i with x := (g.pipes.get i).x - p }

/-- Every pipe's `top_height` lies in `[MIN_PIPE_HEIGHT, screen_y - GAP_SIZE]`. -/
def heights_in_range (g : Game) : Prop :=
  ∀ i : Fin MAX_PIPES,
    MIN_PIPE_HEIGHT ≤ (g.pipes.get i).top_height ∧
    (g.pipes.get i).top_height ≤ g.screen_y - GAP_SIZE

/-- Pipe `i` is respawned by the PLAYING tick that starts in `g`: the tick
shifts the pipes and the respawn test of the scroll loop holds for pipe `i`. -/
def respawned_by_tick (fl : ℚ → ℚ) (g : Game) (i : Fin MAX_PIPES) : Prop :=
  scroll_accumulated fl g ≥ 1 ∧ leaves g (c_trunc (scroll_accumulated fl g)) i

instance (fl : ℚ → ℚ) (g : Game) (i : Fin MAX_PIPES) : Decidable (respawned_by_tick fl g i) := by
  unfold respawned_by_tick; infer_instance

/-- The PLAYING tick that starts in `g` increments the score on account of
pipe `i`: the scoring test of `update_score` holds for pipe `i` in the state
`update_score` runs on. -/
def scored_by_tick (fl : ℚ → ℚ) (inp : Input) (g : Game) (i : Fin MAX_PIPES) : Bool :=
  match playing_mid fl inp (emit Cmd.sync (emit Cmd.clear g)) with
  | some m => decide (passes m i)
  | none => false

/-- Run PLAYING ticks of the main loop during one life of pipe `i`: the result
is the final game and the number of ticks that scored pipe `i`, and there is no
result when a tick starts in GAME_OVER, respawns pipe `i`, or divides by zero. -/
def life_run (fl : ℚ → ℚ) (i : Fin MAX_PIPES) : Game → List Input → Option (Game × Nat)
  | g, [] => some (g, 0)
  | g, inp :: rest =>
    if g.game_over ≠ 0 ∨ respawned_by_tick fl g i then none
    else
      (main_loop_step fl g inp).bind fun g' =>
        (life_run fl i g' rest).map fun r =>
          (r.1, r.2 + if scored_by_tick fl inp g i then 1 else 0)

/-- The bird is at its start column, the screen has positive width, and every
pipe whose passed flag is set lies wholly to the left of the bird. -/
def passed_behind (g : Game) : Prop :=
  g.bird.x = c_div g.screen_x 3 ∧ 0 < g.screen_x ∧
    ∀ i : Fin MAX_PIPES, g.passed_pipes.get i ≠ 0 → (g.pipes.get i).x + PIPE_WIDTH < g.bird.x

/-- No key pressed; every `rand()` call returns 0. -/
def idle_input : Input := ⟨0, fun _ => 0⟩

/-- KEY0 pressed (jump); every `rand()` call returns 0. -/
def jump_input : Input := ⟨1, fun _ => 0⟩

/-- Thirty idle ticks, then `n` rounds of one jump followed by eleven idle
ticks: on a 320x240 screen this keeps the bird between heights 129 and 135. -/
def hover_inputs (n : Nat) : List Input :=
  List.replicate 30 idle_input ++
    (List.replicate n (jump_input :: List.replicate 11 idle_input)).flatten

/-- No key pressed; every `rand()` call returns 79. -/
def respawn_input : Input := ⟨0, fun _ => 79⟩

/-- A PLAYING 320x240 game one scroll step before pipe 0 leaves the screen:
pipe 0 is at `x = -20` with its passed flag set and the scroll accumulator
holds 0.45. -/
def respawn_game : Game :=
  { sample_game 135 ⟨[⟨-20, 100⟩, ⟨60, 100⟩, ⟨140, 100⟩, ⟨220, 100⟩], rfl⟩
      ⟨[1, 0, 0, 0], rfl⟩ with
    scroll_accumulator := 9 / 20 }

/-- A PLAYING 320x240 game in which pipe 0 has just passed behind the bird
and is not yet counted. -/
def passing_game : Game :=
  sample_game 135 ⟨[⟨85, 100⟩, ⟨165, 100⟩, ⟨245, 100⟩, ⟨325, 100⟩], rfl⟩
    (Mathlib.Vector.replicate MAX_PIPES 0)

/-- A PLAYING 320x240 game with score 2 and high score 1 in which the bird is
inside the top section of pipe 0. -/
def crash_game : Game :=
  { sample_game 100 ⟨[⟨100, 100⟩, ⟨180, 100⟩, ⟨260, 100⟩, ⟨340, 100⟩], rfl⟩
      (Mathlib.Vector.replicate MAX_PIPES 0) with
    score := 2, high_score := 1 }

/-- A lost game: the crash state with the GAME_OVER flag set and the sound already played. -/
def lost_game : Game := { crash_game with game_over := 1, game_over_sound_played := 1 }

/-- Input of a tick with KEY1 (bit 1) held. -/
def restart_input : Input := ⟨2, fun _ => 0⟩

/-- The rectangle `draw_bird` passes to `safe_draw_box` for the body, as
`(x1, y1, x2, y2)`. -/
def bird_body_box (b : Bird) : Int × Int × Int × Int :=
  (b.x, b.y - c_div BIRD_BODY_HEIGHT 2, b.x + BIRD_BODY_WIDTH, b.y + c_div BIRD_BODY_HEIGHT 2)

/-- The rectangle `draw_bird` passes to `safe_draw_box` for the head. -/
def bird_head_box (b : Bird) : Int × Int × Int × Int :=
  (b.x + BIRD_BODY_WIDTH - c_div BIRD_HEAD_SIZE 2,
   b.y - c_div BIRD_BODY_HEIGHT 2 - c_div BIRD_HEAD_SIZE 2,
   b.x + BIRD_BODY_WIDTH + c_div BIRD_HEAD_SIZE 2,
   b.y - c_div BIRD_BODY_HEIGHT 2 + c_div BIRD_HEAD_SIZE 2)

/-- The rectangle `draw_bird` passes to `safe_draw_box` for the beak. -/
def bird_beak_box (b : Bird) : Int × Int × Int × Int :=
  (b.x + BIRD_BODY_WIDTH + c_div BIRD_HEAD_SIZE 2,
   b.y - c_div BIRD_BODY_HEIGHT 2 - c_div BIRD_BEAK_SIZE 2,
   b.x + BIRD_BODY_WIDTH + c_div BIRD_HEAD_SIZE 2 + BIRD_BEAK_SIZE,
   b.y - c_div BIRD_BODY_HEIGHT 2 + c_div BIRD_BEAK_SIZE 2)

/-- The bounding box `(left, top, right, bottom)` of three rectangles. -/
def bounding_box (r s t : Int × Int × Int × Int) : Int × Int × Int × Int :=
  (min r.1 (min s.1 t.1), min r.2.1 (min s.2.1 t.2.1),
   max r.2.2.1 (max s.2.2.1 t.2.2.1), max r.2.2.2 (max s.2.2.2 t.2.2.2))

/-- Pass a rectangle to `safe_draw_box`. -/
def safe_draw_rect (r : Int × Int × Int × Int) (color : Int) (g : Game) : Game :=
  safe_draw_box r.1 r.2.1 r.2.2.1 r.2.2.2 color g

/-- The video commands among the events of an output log, in order. -/
def video_commands (out : List Event) : List Cmd :=
  out.filterMap fun e =>
    match e with
    | Event.video c => some c
    | _ => none

/-- The three overlay texts of `display_game_over` for a given high score. -/
def game_over_texts (high_score : Int) : List Cmd :=
  [Cmd.text GAME_OVER_X GAME_OVER_Y "GAME OVER",
   Cmd.text RESTART_X RESTART_Y "PRESS KEY1 to restart",
   Cmd.text (RESTART_X - 12) (RESTART_Y + 5) ("Highscore: " ++ toString high_score)]

/-- The event is a `box` command. -/
def is_box : Event → Bool
  | Event.video (Cmd.box _ _ _ _ _) => true
  | _ => false

/-- The value of `bird.y` after the jump test that opens `update_bird`. -/
def jumped_y (key_input : Nat) (g : Game) : Int :=
  if key_input &&& 1 ≠ 0 then g.bird.y - 6 else g.bird.y

/-- The value of `bird.fall_accumulator` after the gravity increment of `update_bird`. -/
def fall_accumulated (fl : ℚ → ℚ) (key_input : Nat) (g : Game) : ℚ :=
  fl ((if key_input &&& 1 ≠ 0 then 0 else g.bird.fall_accumulator) +
    fl (fl GRAVITY_SPEED / GRAVITY_MULTIPLIER))

/-- The last step of `update_bird`: a bird above the top of the screen is put back. -/
def top_clamp (y : Int) : Int :=
  if y - c_div BIRD_BODY_HEIGHT 2 < 0 then c_div BIRD_BODY_HEIGHT 2 else y

/-- A bird one pixel above the floor of a 320x240 screen, half a pixel accumulated. -/
def floor_game : Game :=
  { sample_game 228 (Mathlib.Vector.replicate MAX_PIPES ⟨400, 120⟩)
      (Mathlib.Vector.replicate MAX_PIPES 0) with
    bird := { x := 106, y := 228, velocity := 0, fall_accumulator := 1 / 2 } }

/-- A bird at rest in the middle of a 320x240 screen. -/
def middle_game : Game :=
  sample_game 120 (Mathlib.Vector.replicate MAX_PIPES ⟨400, 120⟩)
    (Mathlib.Vector.replicate MAX_PIPES 0)

/-! ## Notions used to state the properties of the video driver -/

/-- Cell `(x, y)` lies inside the screen of `v`. -/
def in_screen (v : Video) (x y : Int) : Prop :=
  0 ≤ x ∧ x < v.resolution_x ∧ 0 ≤ y ∧ y < v.resolution_y

instance (v : Video) (x y : Int) : Decidable (in_screen v x y) := by
  unfold in_screen; infer_instance

/-- The colour of cell `(x, y)` of pixel buffer `b`. -/
def cell (v : Video) (b : BufId) (x y : Int) : Int :=
  read_pixel v.pixels b (pixel_offset x y)

/-- The cells a loop nest `for y in y1..y2, for x in x1..x2` visits, in order. -/
def box_cells (x1 y1 x2 y2 : Int) : List (Int × Int) :=
  (int_range y1 y2).flatMap fun y => (int_range x1 x2).map fun x => (x, y)

/-- Plot a list of cells in order. -/
def plot_cells (cells : List (Int × Int)) (color : Int) (v : Video) : Video :=
  cells.foldl (fun v p => plot_pixel p.1 p.2 color v) v

/-- A video state right after `start_video` on a 320x240 screen: both buffers zeroed,
buffer one in front and displayed. -/
def blank_video : Video :=
  { resolution_x := 320, resolution_y := 240, pixel_buffer := BufId.one,
    current_back_buffer := BufId.two, pixels := [], chars := [],
    displayed := BufId.one, hidden := BufId.two }

/-- The character in column `col` of row `row` of the character plane. -/
def char_cell (v : Video) (col row : Int) : Char :=
  read_char v.chars (row * CHAR_WIDTH + col)

/-- The string at `cmd + 5` of a `text` command has a comma before its first space and a
position that scans as `%d,%d`. -/
def text_well_formed (sc : Scanner) (rest : List Char) : Prop :=
  (',' ∈ rest ∧ ' ' ∈ rest ∧ rest.indexOf ',' < rest.indexOf ' ') ∧
    (sc.position (rest.take (rest.indexOf ' '))).isSome

instance (sc : Scanner) (rest : List Char) : Decidable (text_well_formed sc rest) := by
  unfold text_well_formed; infer_instance

/-- The command text is one `device_write` is meant to act on: it begins with one of the
command words `erase`, `clear_both`, `sync`, `swap`, `clear`, or is a `text` command with
a position, or scans as a `line`, `box` or `pipe` command. -/
def accepted (sc : Scanner) (cmd : List Char) : Prop :=
  cmd.take 5 = "erase".toList ∨
  (cmd.take 5 = "text ".toList ∧ text_well_formed sc (cmd.drop 5)) ∨
  cmd.take 10 = "clear_both".toList ∨
  cmd.take 4 = "sync".toList ∨
  cmd.take 4 = "swap".toList ∨
  cmd.take 5 = "clear".toList ∨
  (sc.line cmd).isSome ∨ (sc.box cmd).isSome ∨ (sc.pipe cmd).isSome

instance (sc : Scanner) (cmd : List Char) : Decidable (accepted sc cmd) := by
  unfold accepted; infer_instance

/-- A 512x256 screen whose last cell (511, 255) of the back buffer holds 0x0100. -/
def wide_video : Video :=
  { resolution_x := 512, resolution_y := 256, pixel_buffer := BufId.one,
    current_back_buffer := BufId.two, pixels := [(BufId.two, pixel_offset 511 255, 256)],
    chars := [], displayed := BufId.one, hidden := BufId.two }

/-! # Properties -/

/-! ## Arithmetic of the constants -/

theorem c_div_body : c_div BIRD_BODY_HEIGHT 2 = 10 := by decide

theorem c_div_head : c_div BIRD_HEAD_SIZE 2 = 7 := by decide

theorem c_div_two_bounds (a : Int) (h : 0 ≤ a) :
    2 * c_div a 2 ≤ a ∧ a < 2 * c_div a 2 + 2 := by
  unfold c_div
  rw [Int.tdiv_eq_ediv h (by decide)]
  omega

/-! ## Collision -/

theorem check_collision_loop_cases (g : Game) (l : List (Fin MAX_PIPES)) :
    check_collision_loop g l = 0 ∨ check_collision_loop g l = 1 := by
  induction l with
  | nil => left; rfl
  | cons i rest ih =>
    unfold check_collision_loop
    split_ifs <;> simp [ih]

theorem check_collision_loop_eq_one (g : Game) (l : List (Fin MAX_PIPES)) :
    check_collision_loop g l = 1 ↔
      ∃ i ∈ l, overlaps g i ∧
        (bird_top g.bird < (g.pipes.get i).top_height ∨
          bird_bottom g.bird > (g.pipes.get i).top_height + GAP_SIZE) := by
  induction l with
  | nil => simp [check_collision_loop]
  | cons i rest ih =>
    unfold check_collision_loop
    by_cases h1 : overlaps g i
    · by_cases h2 : (bird_top g.bird < (g.pipes.get i).top_height ∨
          bird_bottom g.bird > (g.pipes.get i).top_height + GAP_SIZE)
      · have h1' := h1
        unfold overlaps at h1'
        rw [if_pos h1', if_pos h2]
        simp only [List.mem_cons, true_iff]
        exact ⟨i, Or.inl rfl, h1, h2⟩
      · have h1' := h1
        unfold overlaps at h1'
        rw [if_pos h1', if_neg h2, ih]
        constructor
        · rintro ⟨j, hj, hj'⟩
          exact ⟨j, List.mem_cons_of_mem _ hj, hj'⟩
        · rintro ⟨j, hj, hj'⟩
          rcases List.mem_cons.mp hj with rfl | hj
          · exact absurd hj'.2 h2
          · exact ⟨j, hj, hj'⟩
    · have h1' := h1
      unfold overlaps at h1'
      rw [if_neg h1', ih]
      constructor
      · rintro ⟨j, hj, hj'⟩
        exact ⟨j, List.mem_cons_of_mem _ hj, hj'⟩
      · rintro ⟨j, hj, hj'⟩
        rcases List.mem_cons.mp hj with rfl | hj
        · exact absurd hj'.1 h1
        · exact ⟨j, hj, hj'⟩

theorem check_collision_eq_one (g : Game) :
    check_collision g = 1 ↔
      ∃ i : Fin MAX_PIPES, overlaps g i ∧
        (bird_top g.bird < (g.pipes.get i).top_height ∨
          bird_bottom g.bird > (g.pipes.get i).top_height + GAP_SIZE) := by
  unfold check_collision
  rw [check_collision_loop_eq_one]
  simp only [List.mem_finRange, true_and]

theorem check_collision_eq_zero (g : Game) :
    check_collision g = 0 ↔ ¬ check_collision g = 1 := by
  rcases check_collision_loop_cases g (List.finRange MAX_PIPES) with hc | hc <;>
    simp [check_collision, hc]

/-- C1: `check_collision` returns 1 exactly when some pipe `i` horizontally
overlaps the bird (not (`bird_right < pipes[i].x` or
`bird_left > pipes[i].x + PIPE_WIDTH`)) and the bird's top edge is above that
pipe's top-section height or its bottom edge is below `top_height + GAP_SIZE`;
otherwise it returns 0.  The function only reads the game: in the embedding it
is a function from the game to the returned `int`. -/
theorem check_collision_spec (g : Game) :
    (check_collision g = 1 ↔
      ∃ i : Fin MAX_PIPES,
        ¬ (g.bird.x + BIRD_BODY_WIDTH + c_div BIRD_HEAD_SIZE 2 + BIRD_BEAK_SIZE
              < (g.pipes.get i).x ∨
            g.bird.x > (g.pipes.get i).x + PIPE_WIDTH) ∧
        (g.bird.y - c_div BIRD_BODY_HEIGHT 2 - c_div BIRD_HEAD_SIZE 2
              < (g.pipes.get i).top_height ∨
          g.bird.y + c_div BIRD_BODY_HEIGHT 2 > (g.pipes.get i).top_height + GAP_SIZE)) ∧
    (check_collision g = 0 ↔
      ¬ ∃ i : Fin MAX_PIPES,
        ¬ (g.bird.x + BIRD_BODY_WIDTH + c_div BIRD_HEAD_SIZE 2 + BIRD_BEAK_SIZE
              < (g.pipes.get i).x ∨
            g.bird.x > (g.pipes.get i).x + PIPE_WIDTH) ∧
        (g.bird.y - c_div BIRD_BODY_HEIGHT 2 - c_div BIRD_HEAD_SIZE 2
              < (g.pipes.get i).top_height ∨
          g.bird.y + c_div BIRD_BODY_HEIGHT 2 > (g.pipes.get i).top_height + GAP_SIZE)) := by
  have h := check_collision_eq_one g
  simp only [overlaps, bird_right, bird_left, bird_top, bird_bottom] at h
  refine ⟨h, ?_⟩
  rw [← h]
  exact check_collision_eq_zero g

/-- C2 (as stated, refuted): in `boundary_game 150` the bird overlaps pipe 0
only, its top edge is not above the top section, its bottom edge is exactly
`top_height + GAP_SIZE`, and `check_collision` reports no collision. -/
theorem collision_bottom_boundary_counterexample :
    overlaps (boundary_game 150) 0 ∧
    (∀ j : Fin MAX_PIPES, j ≠ 0 → ¬ overlaps (boundary_game 150) j) ∧
    ¬ bird_top (boundary_game 150).bird < ((boundary_game 150).pipes.get 0).top_height ∧
    bird_bottom (boundary_game 150).bird
      = ((boundary_game 150).pipes.get 0).top_height + GAP_SIZE ∧
    check_collision (boundary_game 150) ≠ 1 := by
  decide

/-- C2 (amended): for a bird that horizontally overlaps exactly one pipe and
whose top edge is not above that pipe's top-section height, `check_collision`
reports a collision exactly when `bird_bottom > top_height + GAP_SIZE`: none at
`top_height + GAP_SIZE - 1`, none at `top_height + GAP_SIZE`, and one at
`top_height + GAP_SIZE + 1`. -/
theorem collision_bottom_boundary (g : Game) (i : Fin MAX_PIPES)
    (hov : overlaps g i) (hone : ∀ j : Fin MAX_PIPES, j ≠ i → ¬ overlaps g j)
    (htop : ¬ bird_top g.bird < (g.pipes.get i).top_height) :
    (check_collision g = 1 ↔ bird_bottom g.bird > (g.pipes.get i).top_height + GAP_SIZE) ∧
    (check_collision g = 0 ↔ bird_bottom g.bird ≤ (g.pipes.get i).top_height + GAP_SIZE) ∧
    (bird_bottom g.bird = (g.pipes.get i).top_height + GAP_SIZE - 1 → check_collision g = 0) ∧
    (bird_bottom g.bird = (g.pipes.get i).top_height + GAP_SIZE → check_collision g = 0) ∧
    (bird_bottom g.bird = (g.pipes.get i).top_height + GAP_SIZE + 1 → check_collision g = 1) := by
  have h1 : check_collision g = 1 ↔
      bird_bottom g.bird > (g.pipes.get i).top_height + GAP_SIZE := by
    rw [check_collision_eq_one]
    constructor
    · rintro ⟨j, hj, hhit⟩
      have hji : j = i := by
        by_contra hne
        exact hone j hne hj
      subst hji
      rcases hhit with hhit | hhit
      · exact absurd hhit htop
      · exact hhit
    · intro hb
      exact ⟨i, hov, Or.inr hb⟩
  have h0 : check_collision g = 0 ↔
      bird_bottom g.bird ≤ (g.pipes.get i).top_height + GAP_SIZE := by
    rw [check_collision_eq_zero, h1]
    omega
  refine ⟨h1, h0, ?_, ?_, ?_⟩
  · intro hb
    exact h0.mpr (by omega)
  · intro hb
    exact h0.mpr (by omega)
  · intro hb
    exact h1.mpr (by omega)

/-- C2 (amended), applied to `boundary_game 150`, where the bird's bottom edge
is exactly at `top_height + GAP_SIZE`. -/
theorem collision_bottom_boundary_witness :
    bird_bottom (boundary_game 150).bird
      = ((boundary_game 150).pipes.get 0).top_height + GAP_SIZE ∧
    check_collision (boundary_game 150) = 0 :=
  ⟨by decide,
   (collision_bottom_boundary (boundary_game 150) 0 (by decide) (by decide) (by decide)).2.2.2.1
     (by decide)⟩

/-! ## Actor -/

theorem update_bird_screen_y (fl : ℚ → ℚ) (k : Nat) (g : Game) :
    (update_bird fl k g).screen_y = g.screen_y := rfl

theorem update_bird_bounds (fl : ℚ → ℚ) (k : Nat) (g : Game) (hs : 21 ≤ g.screen_y)
    (h : g.bird.y + 10 ≤ g.screen_y - 1) :
    0 ≤ (update_bird fl k g).bird.y - 10 ∧
      (update_bird fl k g).bird.y + 10 ≤ g.screen_y - 1 := by
  unfold update_bird
  simp only [c_div_body, BOTTOM_MARGIN]
  split_ifs <;> dsimp only at * <;> omega

theorem update_bird_run_bounds (fl : ℚ → ℚ) (keys : List Nat) (g : Game)
    (hs : 21 ≤ g.screen_y) (h : g.bird.y + 10 ≤ g.screen_y - 1) (h0 : 0 ≤ g.bird.y - 10) :
    (keys.foldl (fun g k => update_bird fl k g) g).screen_y = g.screen_y ∧
    0 ≤ (keys.foldl (fun g k => update_bird fl k g) g).bird.y - 10 ∧
      (keys.foldl (fun g k => update_bird fl k g) g).bird.y + 10 ≤ g.screen_y - 1 := by
  induction keys generalizing g with
  | nil => exact ⟨rfl, h0, h⟩
  | cons k rest ih =>
    have hb := update_bird_bounds fl k g hs h
    have := ih (update_bird fl k g) (by rw [update_bird_screen_y]; exact hs)
      (by rw [update_bird_screen_y]; exact hb.2) hb.1
    simpa [update_bird_screen_y] using this

/-- C6: starting from `initialize_bird` on a screen with `screen_y >= 22`, for
every rounding of the float operations and every sequence of key inputs, after
every `update_bird` the bird's lower bound `bird.y + BIRD_BODY_HEIGHT/2` is at
most `screen_y - BOTTOM_MARGIN` and its upper bound `bird.y - BIRD_BODY_HEIGHT/2`
is at least 0. -/
theorem actor_stays_on_screen (fl : ℚ → ℚ) (g : Game) (keys : List Nat)
    (hs : 22 ≤ g.screen_y) :
    (keys.foldl (fun g k => update_bird fl k g) (initialize_bird g)).bird.y
        + c_div BIRD_BODY_HEIGHT 2 ≤ g.screen_y - BOTTOM_MARGIN ∧
    (keys.foldl (fun g k => update_bird fl k g) (initialize_bird g)).bird.y
        - c_div BIRD_BODY_HEIGHT 2 ≥ 0 := by
  have hd := c_div_two_bounds g.screen_y (by omega)
  have hy : (initialize_bird g).bird.y = c_div g.screen_y 2 := rfl
  have hsy : (initialize_bird g).screen_y = g.screen_y := rfl
  have := update_bird_run_bounds fl keys (initialize_bird g) (by rw [hsy]; omega)
    (by rw [hsy, hy]; omega) (by rw [hy]; omega)
  rw [hsy] at this
  rw [c_div_body]
  simp only [BOTTOM_MARGIN]
  omega

/-- C6 on a 320x240 screen with the key sequence jump, idle, idle, jump. -/
theorem actor_stays_on_screen_witness :
    22 ≤ (boundary_game 150).screen_y ∧
    ([1, 0, 0, 1].foldl (fun g k => update_bird id k g)
        (initialize_bird (boundary_game 150))).bird.y
        + c_div BIRD_BODY_HEIGHT 2 ≤ (boundary_game 150).screen_y - BOTTOM_MARGIN ∧
    ([1, 0, 0, 1].foldl (fun g k => update_bird id k g)
        (initialize_bird (boundary_game 150))).bird.y
        - c_div BIRD_BODY_HEIGHT 2 ≥ 0 :=
  ⟨by decide, actor_stays_on_screen id (boundary_game 150) [1, 0, 0, 1] (by decide)⟩

/-! ## Fixed-size arrays and the C remainder -/


theorem finRange_max_pipes : List.finRange MAX_PIPES = [0, 1, 2, 3] := by decide

theorem vector_set_all {α : Type} (v : Mathlib.Vector α MAX_PIPES) (a b c d : α) :
    (((v.set 0 a).set 1 b).set 2 c).set 3 d = ⟨[a, b, c, d], rfl⟩ := by
  obtain ⟨l, hl⟩ := v
  rcases l with _ | ⟨x0, _ | ⟨x1, _ | ⟨x2, _ | ⟨x3, _ | ⟨x4, l⟩⟩⟩⟩⟩ <;>
    simp [MAX_PIPES] at hl
  rfl

theorem c_mod_pos (r : Nat) (m : Int) (hm : 0 < m) :
    ∃ v, c_mod (r : Int) m = some v ∧ 0 ≤ v ∧ v < m := by
  refine ⟨Int.tmod (r : Int) m, ?_, ?_, ?_⟩
  · unfold c_mod
    rw [if_neg (by omega)]
  · rw [Int.tmod_eq_emod (by omega) (by omega)]
    exact Int.emod_nonneg _ (by omega)
  · rw [Int.tmod_eq_emod (by omega) (by omega)]
    exact Int.emod_lt_of_pos _ hm

theorem vector_get_set {α : Type} {n : Nat} (v : Mathlib.Vector α n) (a m : Fin n) (x : α) :
    (v.set a x).get m = if m = a then x else v.get m := by
  rw [Mathlib.Vector.get_set_eq_if]
  by_cases h : a = m
  · subst h; simp
  · have h' : ¬ m = a := fun e => h e.symm
    simp [h, h']

theorem vector_set_set {α : Type} {n : Nat} (v : Mathlib.Vector α n) (a : Fin n) (x y : α) :
    (v.set a x).set a y = v.set a y := by
  apply Mathlib.Vector.ext
  intro m
  simp only [vector_get_set]
  split_ifs <;> rfl

theorem vector_set_get {α : Type} {n : Nat} (v : Mathlib.Vector α n) (a : Fin n) :
    v.set a (v.get a) = v := by
  apply Mathlib.Vector.ext
  intro m
  simp only [vector_get_set]
  split_ifs with h
  · rw [h]
  · rfl

/-! ## Initial obstacle field -/

theorem spawn_interval (screen_y prev : Int) (hlo : MIN_PIPE_HEIGHT ≤ prev)
    (hhi : prev ≤ screen_y - GAP_SIZE) :
    spawn_min_height prev ≤ prev ∧ prev ≤ spawn_max_height screen_y prev ∧
    MIN_PIPE_HEIGHT ≤ spawn_min_height prev ∧ spawn_max_height screen_y prev ≤ screen_y - GAP_SIZE ∧
    prev - MAX_PIPE_HEIGHT_DIFF ≤ spawn_min_height prev ∧
    spawn_max_height screen_y prev ≤ prev + MAX_PIPE_HEIGHT_DIFF := by
  unfold spawn_min_height spawn_max_height
  simp only [MIN_PIPE_HEIGHT, GAP_SIZE, MAX_PIPE_HEIGHT_DIFF] at *
  split_ifs <;> omega

theorem initial_previous_height_spec (rand : Nat → Nat) (screen_y : Int)
    (h : screen_y - GAP_SIZE - MIN_PIPE_HEIGHT > 0) :
    ∃ p, initial_previous_height rand screen_y = some p ∧
      MIN_PIPE_HEIGHT ≤ p ∧ p ≤ screen_y - GAP_SIZE := by
  obtain ⟨v, hv, hv0, hv1⟩ := c_mod_pos (rand 0) (screen_y - GAP_SIZE - MIN_PIPE_HEIGHT) h
  refine ⟨MIN_PIPE_HEIGHT + v, ?_, by omega, by omega⟩
  unfold initial_previous_height
  simp only [hv, Option.map_some']

theorem spawn_draw (rand : Nat → Nat) (k : Nat) (screen_y prev : Int)
    (hlo : MIN_PIPE_HEIGHT ≤ prev) (hhi : prev ≤ screen_y - GAP_SIZE) :
    ∃ v, c_mod (rand k) (spawn_max_height screen_y prev - spawn_min_height prev + 1) = some v ∧
      spawn_min_height prev ≤ spawn_min_height prev + v ∧
      spawn_min_height prev + v ≤ spawn_max_height screen_y prev ∧
      MIN_PIPE_HEIGHT ≤ spawn_min_height prev + v ∧
      spawn_min_height prev + v ≤ screen_y - GAP_SIZE := by
  have hb := spawn_interval screen_y prev hlo hhi
  obtain ⟨v, hv, hv0, hv1⟩ := c_mod_pos (rand k)
    (spawn_max_height screen_y prev - spawn_min_height prev + 1) (by omega)
  exact ⟨v, hv, by omega, by omega, by omega, by omega⟩

theorem initialize_pipes_spec (rand : Nat → Nat) (g : Game)
    (h : g.screen_y - GAP_SIZE - MIN_PIPE_HEIGHT > 0) :
    ∃ p t0 t1 t2 t3 : Int,
      initial_previous_height rand g.screen_y = some p ∧
      (MIN_PIPE_HEIGHT ≤ p ∧ p ≤ g.screen_y - GAP_SIZE) ∧
      (spawn_min_height p ≤ t0 ∧ t0 ≤ spawn_max_height g.screen_y p) ∧
      (spawn_min_height t0 ≤ t1 ∧ t1 ≤ spawn_max_height g.screen_y t0) ∧
      (spawn_min_height t1 ≤ t2 ∧ t2 ≤ spawn_max_height g.screen_y t1) ∧
      (spawn_min_height t2 ≤ t3 ∧ t3 ≤ spawn_max_height g.screen_y t2) ∧
      initialize_pipes rand g = some { g with pipes :=
        ⟨[⟨g.screen_x, t0⟩, ⟨g.screen_x + 80, t1⟩, ⟨g.screen_x + 160, t2⟩,
          ⟨g.screen_x + 240, t3⟩], rfl⟩ } := by
  obtain ⟨p, hp, hp0, hp1⟩ := initial_previous_height_spec rand g.screen_y h
  obtain ⟨v0, e0, a0, b0, c0, d0⟩ := spawn_draw rand 1 g.screen_y p hp0 hp1
  obtain ⟨v1, e1, a1, b1, c1, d1⟩ := spawn_draw rand 2 g.screen_y _ c0 d0
  obtain ⟨v2, e2, a2, b2, c2, d2⟩ := spawn_draw rand 3 g.screen_y _ c1 d1
  obtain ⟨v3, e3, a3, b3, c3, d3⟩ := spawn_draw rand 4 g.screen_y _ c2 d2
  refine ⟨p, _, _, _, _, hp, ⟨hp0, hp1⟩, ⟨a0, b0⟩, ⟨a1, b1⟩, ⟨a2, b2⟩, ⟨a3, b3⟩, ?_⟩
  have h3 : ((3 : Fin MAX_PIPES) : Nat) = 3 := rfl
  unfold initialize_pipes
  rw [hp, finRange_max_pipes]
  simp only [Option.some_bind, List.foldlM_cons, List.foldlM_nil, initialize_pipes_step,
    Fin.val_zero, Fin.val_one, Fin.val_two, h3, zero_add, e0, e1, e2, e3, Option.map_some',
    Option.some_bind, Option.bind_eq_bind, vector_set_all, Nat.reduceAdd]
  norm_num [PIPE_WIDTH]


theorem initialize_pipes_heights (rand : Nat → Nat) (g : Game)
    (h : g.screen_y - GAP_SIZE - MIN_PIPE_HEIGHT > 0) :
    ∃ g' p, initialize_pipes rand g = some g' ∧
      initial_previous_height rand g.screen_y = some p ∧
      g'.screen_y = g.screen_y ∧
      (MIN_PIPE_HEIGHT ≤ p ∧ p ≤ g.screen_y - GAP_SIZE) ∧
      (∀ i : Fin MAX_PIPES, MIN_PIPE_HEIGHT ≤ (g'.pipes.get i).top_height ∧
        (g'.pipes.get i).top_height ≤ g.screen_y - GAP_SIZE) ∧
      (spawn_min_height p ≤ (g'.pipes.get 0).top_height ∧
        (g'.pipes.get 0).top_height ≤ spawn_max_height g.screen_y p) ∧
      (∀ i j : Fin MAX_PIPES, i.val = j.val + 1 →
        spawn_min_height (g'.pipes.get j).top_height ≤ (g'.pipes.get i).top_height ∧
        (g'.pipes.get i).top_height ≤ spawn_max_height g.screen_y (g'.pipes.get j).top_height) := by
  obtain ⟨p, t0, t1, t2, t3, hp, hpr, h0, h1, h2, h3, hg⟩ := initialize_pipes_spec rand g h
  have b0 := spawn_interval g.screen_y p hpr.1 hpr.2
  have b1 := spawn_interval g.screen_y t0 (by omega) (by omega)
  have b2 := spawn_interval g.screen_y t1 (by omega) (by omega)
  have b3 := spawn_interval g.screen_y t2 (by omega) (by omega)
  refine ⟨_, p, hg, hp, rfl, hpr, ?_, h0, ?_⟩
  · intro i
    fin_cases i
    · exact ⟨by show MIN_PIPE_HEIGHT ≤ t0; omega, by show t0 ≤ _; omega⟩
    · exact ⟨by show MIN_PIPE_HEIGHT ≤ t1; omega, by show t1 ≤ _; omega⟩
    · exact ⟨by show MIN_PIPE_HEIGHT ≤ t2; omega, by show t2 ≤ _; omega⟩
    · exact ⟨by show MIN_PIPE_HEIGHT ≤ t3; omega, by show t3 ≤ _; omega⟩
  · intro i j hij
    fin_cases i <;> fin_cases j <;> simp at hij
    · exact h1
    · exact h2
    · exact h3

/-- C5: when `screen_y - GAP_SIZE - MIN_PIPE_HEIGHT > 0`, for every outcome of
the random source `initialize_pipes` returns, and each pipe after the first
differs in `top_height` from the pipe before it by at most
`MAX_PIPE_HEIGHT_DIFF`; the clamped interval it is drawn from is never empty.
The same holds for pipe 0 against the first `previous_height`. -/
theorem initial_spawn_bounded_delta (rand : Nat → Nat) (g : Game)
    (h : g.screen_y - GAP_SIZE - MIN_PIPE_HEIGHT > 0) :
    ∃ g', initialize_pipes rand g = some g' ∧
      (∀ i j : Fin MAX_PIPES, i.val = j.val + 1 →
        |(g'.pipes.get i).top_height - (g'.pipes.get j).top_height| ≤ MAX_PIPE_HEIGHT_DIFF ∧
        spawn_min_height (g'.pipes.get j).top_height
          ≤ spawn_max_height g.screen_y (g'.pipes.get j).top_height) ∧
      (∃ p, initial_previous_height rand g.screen_y = some p ∧
        |(g'.pipes.get 0).top_height - p| ≤ MAX_PIPE_HEIGHT_DIFF ∧
        spawn_min_height p ≤ spawn_max_height g.screen_y p) := by
  obtain ⟨g', p, hg, hp, -, hpr, hr, h0, hch⟩ := initialize_pipes_heights rand g h
  refine ⟨g', hg, ?_, p, hp, ?_, ?_⟩
  · intro i j hij
    have hc := hch i j hij
    have hb := spawn_interval g.screen_y _ (hr j).1 (hr j).2
    refine ⟨abs_le.mpr ⟨by omega, by omega⟩, by omega⟩
  · have hb := spawn_interval g.screen_y p hpr.1 hpr.2
    exact abs_le.mpr ⟨by omega, by omega⟩
  · have hb := spawn_interval g.screen_y p hpr.1 hpr.2
    omega

/-- C5 on a 320x240 screen with a random source that always returns 0. -/
theorem initial_spawn_bounded_delta_witness :
    (boundary_game 150).screen_y - GAP_SIZE - MIN_PIPE_HEIGHT > 0 ∧
    ∃ g', initialize_pipes (fun _ => 0) (boundary_game 150) = some g' ∧
      ∀ i j : Fin MAX_PIPES, i.val = j.val + 1 →
        |(g'.pipes.get i).top_height - (g'.pipes.get j).top_height| ≤ MAX_PIPE_HEIGHT_DIFF := by
  refine ⟨by decide, ?_⟩
  obtain ⟨g', hg', hd, -⟩ := initial_spawn_bounded_delta (fun _ => 0) (boundary_game 150)
    (by decide)
  exact ⟨g', hg', fun i j hij => (hd i j hij).1⟩

/-! ## Scoring loop -/

theorem update_score_step_spec (g : Game) (a : Fin MAX_PIPES) :
    update_score_step g a =
      { g with
        score := g.score + (if passes g a then 1 else 0)
        passed_pipes := g.passed_pipes.set a (flag_after g a)
        out := g.out ++ (if passes g a then [Event.coin_sound] else []) } := by
  unfold update_score_step flag_after passes
  by_cases h1 : g.passed_pipes.get a = 0 ∧ g.bird.x > (g.pipes.get a).x + PIPE_WIDTH
  · by_cases h2 : (g.pipes.get a).x ≥ g.screen_x
    · simp [h1, h2, vector_set_set]
    · simp [h1, h2]
  · by_cases h2 : (g.pipes.get a).x ≥ g.screen_x
    · simp [h1, h2]
    · simp [h1, h2, vector_set_get]

theorem passes_congr (g g' : Game) (i : Fin MAX_PIPES)
    (hb : g'.bird = g.bird) (hp : g'.pipes = g.pipes)
    (hf : g'.passed_pipes.get i = g.passed_pipes.get i) : passes g' i ↔ passes g i := by
  unfold passes
  rw [hb, hp, hf]

theorem flag_after_congr (g g' : Game) (i : Fin MAX_PIPES)
    (hs : g'.screen_x = g.screen_x) (hb : g'.bird = g.bird) (hp : g'.pipes = g.pipes)
    (hf : g'.passed_pipes.get i = g.passed_pipes.get i) : flag_after g' i = flag_after g i := by
  unfold flag_after passes
  simp only [hb, hp, hf, hs]

theorem update_score_fold (l : List (Fin MAX_PIPES)) (hl : l.Nodup) (g : Game) :
    l.foldl update_score_step g =
        { g with
          score := (l.foldl update_score_step g).score
          passed_pipes := (l.foldl update_score_step g).passed_pipes
          out := (l.foldl update_score_step g).out } ∧
    (l.foldl update_score_step g).score
      = g.score + ((l.filter fun i => decide (passes g i)).length : Int) ∧
    ∀ i, (l.foldl update_score_step g).passed_pipes.get i
      = if i ∈ l then flag_after g i else g.passed_pipes.get i := by
  induction l generalizing g with
  | nil => simp
  | cons a rest ih =>
    have hna : a ∉ rest := (List.nodup_cons.mp hl).1
    obtain ⟨hf, hs, hp⟩ := ih (List.nodup_cons.mp hl).2 (update_score_step g a)
    have hstep := update_score_step_spec g a
    simp only [List.foldl_cons]
    refine ⟨?_, ?_, ?_⟩
    · rw [hf]
      rw [hstep]
    · rw [hs]
      have hfilt : (rest.filter fun i => decide (passes (update_score_step g a) i))
          = rest.filter fun i => decide (passes g i) := by
        apply List.filter_congr
        intro i hi
        have hia : i ≠ a := fun e => hna (e ▸ hi)
        have : passes (update_score_step g a) i ↔ passes g i := by
          apply passes_congr
          · rw [hstep]
          · rw [hstep]
          · rw [hstep]; simp [vector_get_set, hia]
        simp [this]
      rw [hfilt, hstep]
      by_cases hpa : passes g a
      · simp [List.filter_cons, hpa]; ring
      · simp [List.filter_cons, hpa]
    · intro i
      rw [hp i]
      by_cases hia : i = a
      · subst hia
        simp [hna, hstep, vector_get_set]
      · by_cases hir : i ∈ rest
        · simp only [hir, List.mem_cons, or_true, if_true]
          apply flag_after_congr
          · rw [hstep]
          · rw [hstep]
          · rw [hstep]
          · rw [hstep]; simp [vector_get_set, hia]
        · simp [hir, hia, hstep, vector_get_set]

theorem nodup_finRange_max_pipes : (List.finRange MAX_PIPES).Nodup := List.nodup_finRange _

/-! ## Scroll loop -/

theorem scroll_step_spec (rand : Nat → Nat) (p : Int) (g : Game) (k : Nat)
    (i : Fin MAX_PIPES) (st' : Game × Nat)
    (h : scroll_step rand p (g, k) i = some st') :
    st'.1 = { g with pipes := st'.1.pipes } ∧
    scrolled rand g p i (st'.1.pipes.get i) ∧
    ∀ j, j ≠ i → st'.1.pipes.get j = g.pipes.get j := by
  unfold scroll_step at h
  unfold scrolled leaves
  by_cases hl : (g.pipes.get i).x - p + PIPE_WIDTH < 0
  · simp only [hl, if_true, Option.map_eq_some'] at h
    obtain ⟨r, hr, rfl⟩ := h
    refine ⟨rfl, ?_, ?_⟩
    · rw [if_pos hl, vector_get_set, if_pos rfl]
      exact ⟨rfl, k, r, hr, rfl⟩
    · intro j hj
      simp [vector_get_set, hj]
  · simp only [hl, if_false, Option.some.injEq] at h
    subst h
    refine ⟨rfl, ?_, ?_⟩
    · simp [hl, vector_get_set]
    · intro j hj
      simp [vector_get_set, hj]

theorem scroll_step_total (rand : Nat → Nat) (p : Int) (st : Game × Nat)
    (i : Fin MAX_PIPES) (hm : st.1.screen_y - GAP_SIZE - MIN_PIPE_HEIGHT ≠ 0) :
    ∃ st', scroll_step rand p st i = some st' := by
  unfold scroll_step c_mod
  simp only [hm, if_false]
  split_ifs <;> simp

theorem scrolled_congr (rand : Nat → Nat) (g g' : Game) (p : Int) (i : Fin MAX_PIPES) (q : Pipe)
    (hx : g'.screen_x = g.screen_x) (hy : g'.screen_y = g.screen_y)
    (hp : g'.pipes.get i = g.pipes.get i) (h : scrolled rand g' p i q) :
    scrolled rand g p i q := by
  unfold scrolled leaves at h ⊢
  simpa only [hx, hy, hp] using h

theorem scroll_fold (rand : Nat → Nat) (p : Int) (l : List (Fin MAX_PIPES)) (hl : l.Nodup)
    (st st' : Game × Nat) (h : l.foldlM (scroll_step rand p) st = some st') :
    st'.1 = { st.1 with pipes := st'.1.pipes } ∧
    ∀ i, (i ∈ l → scrolled rand st.1 p i (st'.1.pipes.get i)) ∧
      (i ∉ l → st'.1.pipes.get i = st.1.pipes.get i) := by
  induction l generalizing st with
  | nil =>
    simp only [List.foldlM_nil, Option.pure_def, Option.some.injEq] at h
    subst h
    simp
  | cons a rest ih =>
    have hna : a ∉ rest := (List.nodup_cons.mp hl).1
    simp only [List.foldlM_cons, Option.bind_eq_bind, Option.bind_eq_some] at h
    obtain ⟨s1, hs1, hrest⟩ := h
    obtain ⟨hf, hp⟩ := ih (List.nodup_cons.mp hl).2 s1 hrest
    obtain ⟨hf1, hsc1, hoth1⟩ := scroll_step_spec rand p st.1 st.2 a s1 hs1
    refine ⟨?_, ?_⟩
    · rw [hf, hf1]
    · intro i
      by_cases hia : i = a
      · subst hia
        refine ⟨fun _ => ?_, fun hn => absurd (List.mem_cons_self _ _) hn⟩
        rw [(hp i).2 hna]
        exact hsc1
      · refine ⟨fun hi => ?_, fun hn => ?_⟩
        · have hir : i ∈ rest := by
            rcases List.mem_cons.mp hi with e | e
            · exact absurd e hia
            · exact e
          apply scrolled_congr rand st.1 s1.1 p i _ _ _ _ ((hp i).1 hir)
          · rw [hf1]
          · rw [hf1]
          · exact hoth1 i hia
        · have hir : i ∉ rest := fun e => hn (List.mem_cons_of_mem _ e)
          rw [(hp i).2 hir]
          exact hoth1 i hia

theorem scroll_fold_total (rand : Nat → Nat) (p : Int) (l : List (Fin MAX_PIPES))
    (st : Game × Nat) (hm : st.1.screen_y - GAP_SIZE - MIN_PIPE_HEIGHT ≠ 0) :
    ∃ st', l.foldlM (scroll_step rand p) st = some st' := by
  induction l generalizing st with
  | nil => exact ⟨st, rfl⟩
  | cons a rest ih =>
    obtain ⟨s1, hs1⟩ := scroll_step_total rand p st a hm
    have hsy : s1.1.screen_y = st.1.screen_y := by
      have := (scroll_step_spec rand p st.1 st.2 a s1 hs1).1
      rw [this]
    obtain ⟨s2, hs2⟩ := ih s1 (by rw [hsy]; exact hm)
    refine ⟨s2, ?_⟩
    simp only [List.foldlM_cons, Option.bind_eq_bind, hs1, Option.some_bind, hs2]

/-! ## Frames: what each step leaves untouched -/

theorem safe_draw_box_frame (x1 y1 x2 y2 color : Int) (g : Game) :
    safe_draw_box x1 y1 x2 y2 color g
      = { g with out := (safe_draw_box x1 y1 x2 y2 color g).out } := rfl

theorem draw_bird_frame (g : Game) : draw_bird g = { g with out := (draw_bird g).out } := rfl

theorem draw_pipe_frame (pipe : Pipe) (g : Game) :
    draw_pipe pipe g = { g with out := (draw_pipe pipe g).out } := by
  unfold draw_pipe
  dsimp only
  split_ifs <;> rfl

theorem draw_pipes_frame (l : List (Fin MAX_PIPES)) (g : Game) :
    l.foldl (fun g i => draw_pipe (g.pipes.get i) g) g
      = { g with out := (l.foldl (fun g i => draw_pipe (g.pipes.get i) g) g).out } := by
  induction l generalizing g with
  | nil => rfl
  | cons a rest ih =>
    simp only [List.foldl_cons]
    rw [ih, draw_pipe_frame]

theorem display_game_over_frame (g : Game) :
    display_game_over g
      = { g with
          high_score := if g.score > g.high_score then g.score else g.high_score
          out := (display_game_over g).out } := by
  unfold display_game_over
  dsimp only
  split_ifs <;> rfl

theorem update_bird_frame (fl : ℚ → ℚ) (k : Nat) (g : Game) :
    update_bird fl k g = { g with bird := (update_bird fl k g).bird } := rfl

theorem update_bird_x (fl : ℚ → ℚ) (k : Nat) (g : Game) :
    (update_bird fl k g).bird.x = g.bird.x := by
  unfold update_bird
  dsimp only
  split_ifs <;> rfl

theorem update_score_spec (g : Game) :
    update_score g =
        { g with
          score := (update_score g).score
          passed_pipes := (update_score g).passed_pipes
          out := (update_score g).out } ∧
    (update_score g).score
      = g.score + (((List.finRange MAX_PIPES).filter fun i => decide (passes g i)).length : Int) ∧
    ∀ i, (update_score g).passed_pipes.get i = flag_after g i := by
  obtain ⟨h1, h2, h3⟩ := update_score_fold (List.finRange MAX_PIPES) nodup_finRange_max_pipes g
  refine ⟨h1, h2, fun i => ?_⟩
  have := h3 i
  simpa only [List.mem_finRange, if_true] using this

/-! ## Scroll step of the tick -/

theorem scroll_pipes_total (fl : ℚ → ℚ) (rand : Nat → Nat) (g : Game)
    (hm : g.screen_y - GAP_SIZE - MIN_PIPE_HEIGHT ≠ 0) :
    ∃ g1, scroll_pipes fl rand g = some g1 := by
  unfold scroll_pipes
  dsimp only
  split_ifs with h
  · have key := scroll_fold_total rand (c_trunc (scroll_accumulated fl g))
      (List.finRange MAX_PIPES)
    obtain ⟨st', hst⟩ := key ⟨{ g with scroll_accumulator := fl (scroll_accumulated fl g - c_trunc (scroll_accumulated fl g)) }, 0⟩ hm
    exact ⟨st'.1, by rw [hst]; rfl⟩
  · exact ⟨_, rfl⟩

theorem scroll_pipes_spec (fl : ℚ → ℚ) (rand : Nat → Nat) (g g1 : Game)
    (h : scroll_pipes fl rand g = some g1) :
    g1 = { g with pipes := g1.pipes, scroll_accumulator := g1.scroll_accumulator } ∧
    (scroll_accumulated fl g ≥ 1 →
      ∀ i, scrolled rand g (c_trunc (scroll_accumulated fl g)) i (g1.pipes.get i)) ∧
    (¬ scroll_accumulated fl g ≥ 1 → g1.pipes = g.pipes) := by
  unfold scroll_pipes at h
  dsimp only at h
  by_cases hacc : scroll_accumulated fl g ≥ 1
  · rw [if_pos hacc] at h
    simp only [Option.map_eq_some'] at h
    obtain ⟨st', hst, rfl⟩ := h
    obtain ⟨hf, hp⟩ := scroll_fold rand _ _ nodup_finRange_max_pipes _ _ hst
    refine ⟨?_, fun _ i => ?_, fun hn => absurd hacc hn⟩
    · rw [hf]
    · have := (hp i).1 (List.mem_finRange i)
      exact scrolled_congr rand g _ _ i _ rfl rfl rfl this
  · rw [if_neg hacc] at h
    simp only [Option.some.injEq] at h
    subst h
    exact ⟨rfl, fun hp => absurd hp hacc, fun _ => rfl⟩


/-! ## One tick -/

theorem playing_tick_spec (fl : ℚ → ℚ) (inp : Input) (g g' : Game)
    (h : playing_tick fl inp g = some g') :
    ∃ m, playing_mid fl inp g = some m ∧
      g' = { update_score m with
        game_over := if check_collision (update_score m) ≠ 0 then 1
          else (update_score m).game_over
        high_score :=
          if check_collision (update_score m) ≠ 0 then
            (if (update_score m).score > (update_score m).high_score then (update_score m).score
              else (update_score m).high_score)
          else (update_score m).high_score
        out := g'.out } := by
  unfold playing_tick at h
  simp only [Option.map_eq_some'] at h
  obtain ⟨m, hm, hg⟩ := h
  refine ⟨m, hm, ?_⟩
  generalize update_score m = s at hg ⊢
  by_cases hc : check_collision s ≠ 0
  · rw [if_pos hc] at hg
    rw [if_pos hc, if_pos hc]
    have e := display_game_over_frame { s with game_over := 1 }
    generalize display_game_over { s with game_over := 1 } = d at hg e
    subst hg
    rw [e]
    rfl
  · rw [if_neg hc] at hg
    rw [if_neg hc, if_neg hc]
    have e := draw_pipes_frame (List.finRange MAX_PIPES) s
    generalize (List.finRange MAX_PIPES).foldl (fun g i => draw_pipe (g.pipes.get i) g) s = d
      at hg e
    subst hg
    rw [e]
    rfl

theorem playing_tick_total (fl : ℚ → ℚ) (inp : Input) (g : Game)
    (hm : g.screen_y - GAP_SIZE - MIN_PIPE_HEIGHT ≠ 0) :
    ∃ g', playing_tick fl inp g = some g' := by
  obtain ⟨g1, hg1⟩ := scroll_pipes_total fl inp.rand g hm
  unfold playing_tick playing_mid
  rw [hg1]
  exact ⟨_, rfl⟩

theorem restart_game_spec (rand : Nat → Nat) (g g' : Game)
    (h : restart_game rand g = some g') :
    ∃ g1, initialize_pipes rand (initialize_bird g) = some g1 ∧
      g' = { g1 with
        scroll_accumulator := 0
        score := 0
        passed_pipes := ⟨[0, 0, 0, 0], rfl⟩
        out := g1.out ++ [Event.hex 0] } := by
  unfold restart_game at h
  simp only [Option.map_eq_some'] at h
  obtain ⟨g1, hg1, hg⟩ := h
  refine ⟨g1, hg1, ?_⟩
  rw [← hg, finRange_max_pipes]
  simp only [List.foldl_cons, List.foldl_nil, vector_set_all, display_on_hex]


theorem initialize_pipes_frame (rand : Nat → Nat) (g g1 : Game)
    (h : initialize_pipes rand g = some g1) : g1 = { g with pipes := g1.pipes } := by
  unfold initialize_pipes at h
  simp only [Option.bind_eq_some, Option.map_eq_some'] at h
  obtain ⟨p, -, st, hst, rfl⟩ := h
  rw [finRange_max_pipes] at hst
  simp only [List.foldlM_cons, List.foldlM_nil, initialize_pipes_step, Option.bind_eq_bind,
    Option.bind_eq_some, Option.map_eq_some', Option.pure_def, Option.some.injEq] at hst
  obtain ⟨s0, ⟨r0, -, rfl⟩, s1, ⟨r1, -, rfl⟩, s2, ⟨r2, -, rfl⟩, s3, ⟨r3, -, rfl⟩, rfl⟩ := hst
  rfl

theorem game_over_tick_spec (inp : Input) (g g' : Game) (h : game_over_tick inp g = some g') :
    g'.screen_x = g.screen_x ∧ g'.screen_y = g.screen_y ∧
    g'.high_score = (if g.score > g.high_score then g.score else g.high_score) ∧
    (inp.key_input &&& 2 = 0 →
      g'.bird = g.bird ∧ g'.pipes = g.pipes ∧ g'.score = g.score ∧
      g'.passed_pipes = g.passed_pipes ∧ g'.scroll_accumulator = g.scroll_accumulator ∧
      g'.game_over = g.game_over) ∧
    (inp.key_input &&& 2 ≠ 0 →
      (∃ G g1, G.screen_x = g.screen_x ∧ G.screen_y = g.screen_y ∧
        initialize_pipes inp.rand G = some g1 ∧ g'.pipes = g1.pipes) ∧
      g'.bird = (initialize_bird g).bird ∧ g'.score = 0 ∧
      g'.passed_pipes = ⟨[0, 0, 0, 0], rfl⟩ ∧ g'.scroll_accumulator = 0 ∧
      g'.game_over = 0 ∧ g'.game_over_sound_played = 0) := by
  unfold game_over_tick at h
  dsimp only at h
  have e := display_game_over_frame g
  generalize display_game_over g = d at h e
  by_cases hk : inp.key_input &&& 2 = 0
  · have hk' : ¬ inp.key_input &&& 2 ≠ 0 := fun hn => hn hk
    rw [if_neg hk'] at h
    simp only [Option.map_some', Option.some.injEq] at h
    subst h
    rw [e]
    refine ⟨?_, ?_, ?_, fun _ => ?_, fun hn => absurd hk hn⟩
    · split_ifs <;> rfl
    · split_ifs <;> rfl
    · split_ifs <;> rfl
    · split_ifs <;> exact ⟨rfl, rfl, rfl, rfl, rfl, rfl⟩
  · have hk' : inp.key_input &&& 2 ≠ 0 := hk
    rw [if_pos hk'] at h
    simp only [Option.map_eq_some'] at h
    obtain ⟨r, hr, rfl⟩ := h
    obtain ⟨g1, hg1, rfl⟩ := restart_game_spec _ _ _ hr
    have hf := initialize_pipes_frame _ _ _ hg1
    refine ⟨?_, ?_, ?_, fun hn => absurd hn hk, fun _ => ⟨⟨_, g1, ?_, ?_, hg1, rfl⟩, ?_, rfl, rfl,
      rfl, ?_, ?_⟩⟩
    · show g1.screen_x = _
      rw [hf, e]; split_ifs <;> rfl
    · show g1.screen_y = _
      rw [hf, e]; split_ifs <;> rfl
    · show g1.high_score = _
      rw [hf, e]; split_ifs <;> rfl
    · rw [e]; split_ifs <;> rfl
    · rw [e]; split_ifs <;> rfl
    · show g1.bird = _
      rw [hf, e]; split_ifs <;> rfl
    · show g1.game_over = _
      rw [hf]; split_ifs <;> rfl
    · show g1.game_over_sound_played = _
      rw [hf]; split_ifs <;> rfl


theorem update_playing (fl : ℚ → ℚ) (inp : Input) (g : Game) (hgo : g.game_over = 0) :
    update_and_draw_pipes fl inp g = playing_tick fl inp (emit Cmd.sync (emit Cmd.clear g)) := by
  unfold update_and_draw_pipes
  have : ¬ (emit Cmd.sync (emit Cmd.clear g)).game_over ≠ 0 := fun hn => hn hgo
  dsimp only
  rw [if_neg this]

theorem update_game_over (fl : ℚ → ℚ) (inp : Input) (g : Game) (hgo : g.game_over ≠ 0) :
    update_and_draw_pipes fl inp g = game_over_tick inp (emit Cmd.sync (emit Cmd.clear g)) := by
  unfold update_and_draw_pipes
  have : (emit Cmd.sync (emit Cmd.clear g)).game_over ≠ 0 := hgo
  dsimp only
  rw [if_pos this]

theorem passes_count_nonneg (m : Game) :
    (0 : Int) ≤ (((List.finRange MAX_PIPES).filter fun i => decide (passes m i)).length : Int) :=
  Int.natCast_nonneg _

theorem playing_step (fl : ℚ → ℚ) (inp : Input) (g g' : Game) (hgo : g.game_over = 0)
    (h : update_and_draw_pipes fl inp g = some g') :
    ∃ m, playing_mid fl inp (emit Cmd.sync (emit Cmd.clear g)) = some m ∧
      (m.screen_x = g.screen_x ∧ m.screen_y = g.screen_y ∧ m.bird.x = g.bird.x ∧
        m.passed_pipes = g.passed_pipes ∧ m.score = g.score ∧ m.high_score = g.high_score) ∧
      (scroll_accumulated fl g ≥ 1 →
        ∀ i, scrolled inp.rand g (c_trunc (scroll_accumulated fl g)) i (m.pipes.get i)) ∧
      (¬ scroll_accumulated fl g ≥ 1 → m.pipes = g.pipes) ∧
      (g'.screen_x = g.screen_x ∧ g'.screen_y = g.screen_y ∧ g'.bird = m.bird ∧
        g'.pipes = m.pipes) ∧
      g'.score = g.score
        + (((List.finRange MAX_PIPES).filter fun i => decide (passes m i)).length : Int) ∧
      (∀ i, g'.passed_pipes.get i = flag_after m i) ∧
      g'.game_over = (if check_collision (update_score m) ≠ 0 then 1 else 0) ∧
      g'.high_score =
        (if check_collision (update_score m) ≠ 0 then
          (if g'.score > g.high_score then g'.score else g.high_score)
        else g.high_score) := by
  rw [update_playing fl inp g hgo] at h
  obtain ⟨m, hm, hg'⟩ := playing_tick_spec fl inp _ g' h
  have hm' := hm
  unfold playing_mid at hm'
  simp only [Option.map_eq_some'] at hm'
  obtain ⟨g1, hg1, hmg⟩ := hm'
  obtain ⟨hf1, hsc, hns⟩ := scroll_pipes_spec fl inp.rand _ g1 hg1
  obtain ⟨hfs, hscore, hflags⟩ := update_score_spec m
  have hbx := update_bird_x fl inp.key_input g1
  have hbf := update_bird_frame fl inp.key_input g1
  rw [hmg] at hbx hbf
  clear hmg
  generalize hs : update_score m = s at hg' hfs hscore hflags
  have m_sx : m.screen_x = g.screen_x := by
    have e0 := congrArg Game.screen_x hbf
    have e1 := congrArg Game.screen_x hf1
    exact e0.trans e1
  have m_sy : m.screen_y = g.screen_y := by
    have e0 := congrArg Game.screen_y hbf
    have e1 := congrArg Game.screen_y hf1
    exact e0.trans e1
  have m_bx : m.bird.x = g.bird.x := by
    have e1 := congrArg (fun q => q.bird.x) hf1
    exact hbx.trans e1
  have m_pp : m.passed_pipes = g.passed_pipes := by
    have e0 := congrArg Game.passed_pipes hbf
    have e1 := congrArg Game.passed_pipes hf1
    exact e0.trans e1
  have m_sc : m.score = g.score := by
    have e0 := congrArg Game.score hbf
    have e1 := congrArg Game.score hf1
    exact e0.trans e1
  have m_hs : m.high_score = g.high_score := by
    have e0 := congrArg Game.high_score hbf
    have e1 := congrArg Game.high_score hf1
    exact e0.trans e1
  have m_go : m.game_over = g.game_over := by
    have e0 := congrArg Game.game_over hbf
    have e1 := congrArg Game.game_over hf1
    exact e0.trans e1
  have m_pi : m.pipes = g1.pipes := by
    have e0 := congrArg Game.pipes hbf
    exact e0
  have s_sx : s.screen_x = m.screen_x := by
    have e0 := congrArg Game.screen_x hfs
    exact e0
  have s_sy : s.screen_y = m.screen_y := by
    have e0 := congrArg Game.screen_y hfs
    exact e0
  have s_b : s.bird = m.bird := by
    have e0 := congrArg Game.bird hfs
    exact e0
  have s_pi : s.pipes = m.pipes := by
    have e0 := congrArg Game.pipes hfs
    exact e0
  have s_hs : s.high_score = m.high_score := by
    have e0 := congrArg Game.high_score hfs
    exact e0
  have s_go : s.game_over = m.game_over := by
    have e0 := congrArg Game.game_over hfs
    exact e0
  have g_sc : g'.score = s.score := by
    have e0 := congrArg Game.score hg'
    exact e0
  have g_pp : g'.passed_pipes = s.passed_pipes := by
    have e0 := congrArg Game.passed_pipes hg'
    exact e0
  refine ⟨m, hm, ⟨m_sx, m_sy, m_bx, m_pp, m_sc, m_hs⟩, ?_, ?_, ⟨?_, ?_, ?_, ?_⟩, ?_, ?_, ?_, ?_⟩
  · intro hacc i
    rw [m_pi]
    exact scrolled_congr inp.rand g _ _ i _ rfl rfl rfl (hsc hacc i)
  · intro hacc
    rw [m_pi, hns hacc]
    rfl
  · have e0 := congrArg Game.screen_x hg'
    exact e0.trans (s_sx.trans m_sx)
  · have e0 := congrArg Game.screen_y hg'
    exact e0.trans (s_sy.trans m_sy)
  · have e0 := congrArg Game.bird hg'
    exact e0.trans s_b
  · have e0 := congrArg Game.pipes hg'
    exact e0.trans s_pi
  · rw [g_sc, hscore, m_sc]
  · intro i
    rw [g_pp]
    exact hflags i
  · have := congrArg Game.game_over hg'
    rw [this, hs]
    show (if check_collision s ≠ 0 then 1 else s.game_over) = _
    rw [s_go, m_go, hgo]
  · have := congrArg Game.high_score hg'
    rw [this, g_sc, hs]
    show (if check_collision s ≠ 0 then
        (if s.score > s.high_score then s.score
          else s.high_score)
      else s.high_score) = _
    rw [s_hs, m_hs]

theorem update_total (fl : ℚ → ℚ) (inp : Input) (g : Game)
    (hm : g.screen_y - GAP_SIZE - MIN_PIPE_HEIGHT > 0) :
    ∃ g', update_and_draw_pipes fl inp g = some g' := by
  by_cases hgo : g.game_over = 0
  · rw [update_playing fl inp g hgo]
    exact playing_tick_total fl inp _ (by show g.screen_y - _ - _ ≠ 0; omega)
  · rw [update_game_over fl inp g hgo]
    unfold game_over_tick
    dsimp only
    by_cases hk : inp.key_input &&& 2 ≠ 0
    · rw [if_pos hk]
      unfold restart_game
      have e := display_game_over_frame (emit Cmd.sync (emit Cmd.clear g))
      generalize display_game_over (emit Cmd.sync (emit Cmd.clear g)) = d at e
      have hd : d.screen_y = g.screen_y := by
        have e0 := congrArg Game.screen_y e
        exact e0
      have key : ∀ G : Game, G.screen_y = g.screen_y →
          ∃ g1, initialize_pipes inp.rand G = some g1 := by
        intro G hG
        obtain ⟨g1, -, hg1, -⟩ := initialize_pipes_heights inp.rand G (by rw [hG]; exact hm)
        exact ⟨g1, hg1⟩
      obtain ⟨g1, hg1⟩ := key (initialize_bird (clear_text
          { (if d.game_over_sound_played = 0 then
              { d with out := d.out ++ [Event.game_over_sound], game_over_sound_played := 1 }
            else d) with game_over := 0, game_over_sound_played := 0 }))
        (by
          show (if d.game_over_sound_played = 0 then _ else d).screen_y = _
          split_ifs
          · exact hd
          · exact hd)
      rw [hg1]
      exact ⟨_, rfl⟩
    · rw [if_neg hk]
      exact ⟨_, rfl⟩

/-! ## Claims about one tick -/

theorem c_trunc_pos (q : ℚ) (h : q ≥ 1) : 1 ≤ c_trunc q := by
  have hd : (0 : ℚ) < (q.den : ℚ) := by exact_mod_cast q.den_pos
  have hq : (q.num : ℚ) / (q.den : ℚ) = q := Rat.num_div_den q
  have h1 : (1 : ℚ) ≤ (q.num : ℚ) / (q.den : ℚ) := by rw [hq]; exact h
  rw [one_le_div hd] at h1
  have h2 : (q.den : Int) ≤ q.num := by exact_mod_cast h1
  have hdi : (0 : Int) < (q.den : Int) := by exact_mod_cast q.den_pos
  unfold c_trunc
  rw [Int.tdiv_eq_ediv (by omega) (by omega)]
  rw [Int.le_ediv_iff_mul_le hdi]
  omega

theorem c_mod_range (r : Nat) (m v : Int) (hm : 0 < m) (h : c_mod (r : Int) m = some v) :
    0 ≤ v ∧ v < m := by
  obtain ⟨w, hw, h0, h1⟩ := c_mod_pos r m hm
  rw [hw] at h
  cases h
  exact ⟨h0, h1⟩

theorem update_playing_total (fl : ℚ → ℚ) (inp : Input) (g : Game) (hgo : g.game_over = 0)
    (hm : g.screen_y - GAP_SIZE - MIN_PIPE_HEIGHT ≠ 0) :
    ∃ g', update_and_draw_pipes fl inp g = some g' := by
  rw [update_playing fl inp g hgo]
  exact playing_tick_total fl inp _ hm

/-- C9: in a PLAYING tick that shifts the pipes by `p >= 1` whole pixels
(`p` is the integer part of the scroll accumulator), the tick returns, every
pipe with `x - p + PIPE_WIDTH < 0` ends the tick at `x = screen_x` with its
passed flag equal to 0, and every other pipe ends the tick at `x - p` with its
`top_height` unchanged. -/
theorem respawn_relocation (fl : ℚ → ℚ) (inp : Input) (g : Game) (hgo : g.game_over = 0)
    (hacc : scroll_accumulated fl g ≥ 1)
    (hm : g.screen_y - GAP_SIZE - MIN_PIPE_HEIGHT ≠ 0) :
    ∃ g', update_and_draw_pipes fl inp g = some g' ∧
      1 ≤ c_trunc (scroll_accumulated fl g) ∧
      ∀ i : Fin MAX_PIPES,
        ((g.pipes.get i).x - c_trunc (scroll_accumulated fl g) + PIPE_WIDTH < 0 →
          (g'.pipes.get i).x = g.screen_x ∧ g'.passed_pipes.get i = 0) ∧
        (¬ (g.pipes.get i).x - c_trunc (scroll_accumulated fl g) + PIPE_WIDTH < 0 →
          (g'.pipes.get i).x = (g.pipes.get i).x - c_trunc (scroll_accumulated fl g) ∧
          (g'.pipes.get i).top_height = (g.pipes.get i).top_height) := by
  obtain ⟨g', h⟩ := update_playing_total fl inp g hgo hm
  obtain ⟨m, -, ⟨m_sx, -, -, -, -, -⟩, hsc, -, ⟨-, -, -, g_pi⟩, -, hfl, -, -⟩ :=
    playing_step fl inp g g' hgo h
  refine ⟨g', h, c_trunc_pos _ hacc, fun i => ⟨fun hl => ?_, fun hl => ?_⟩⟩
  · have hi := hsc hacc i
    unfold scrolled leaves at hi
    rw [if_pos hl] at hi
    refine ⟨by rw [g_pi]; exact hi.1, ?_⟩
    rw [hfl i]
    unfold flag_after
    rw [if_pos (by rw [hi.1, m_sx])]
  · have hi := hsc hacc i
    unfold scrolled leaves at hi
    rw [if_neg hl] at hi
    rw [g_pi, hi]
    exact ⟨rfl, rfl⟩


/-- C9 on a 320x240 screen: pipe 0 at `x = -20` is shifted by one pixel, so
its right edge is at -1, and it is relocated to `x = 320` with its passed flag
cleared. -/
theorem respawn_relocation_witness :
    ∃ g', update_and_draw_pipes id idle_input respawn_game = some g' ∧
      (g'.pipes.get 0).x = 320 ∧ g'.passed_pipes.get 0 = 0 := by
  obtain ⟨g', h, -, hi⟩ := respawn_relocation id idle_input respawn_game (by decide!)
    (by decide!) (by decide!)
  exact ⟨g', h, (hi 0).1 (by decide!)⟩

theorem main_loop_step_spec (fl : ℚ → ℚ) (g : Game) (inp : Input) (g' : Game)
    (h : main_loop_step fl g inp = some g') :
    ∃ t, update_and_draw_pipes fl inp g = some t ∧ g' = { t with out := g'.out } := by
  unfold main_loop_step at h
  simp only [Option.map_eq_some'] at h
  obtain ⟨t, ht, rfl⟩ := h
  exact ⟨t, ht, rfl⟩

theorem tick_high_score (fl : ℚ → ℚ) (inp : Input) (g g' : Game)
    (h : update_and_draw_pipes fl inp g = some g') :
    g.high_score ≤ g'.high_score ∧
    (g.game_over = 0 → g'.game_over ≠ 0 → g'.high_score = max g.high_score g'.score) := by
  by_cases hgo : g.game_over = 0
  · obtain ⟨m, -, -, -, -, -, -, -, g_go, g_hs⟩ := playing_step fl inp g g' hgo h
    constructor
    · rw [g_hs]
      split_ifs <;> omega
    · intro _ hne
      rw [g_go] at hne
      have hc : check_collision (update_score m) ≠ 0 := by
        intro hc
        rw [if_neg (fun hn => hn hc)] at hne
        exact hne rfl
      rw [if_pos hc] at g_hs
      rw [g_hs]
      split_ifs <;> omega
  · rw [update_game_over fl inp g hgo] at h
    obtain ⟨-, -, hhs, -, -⟩ := game_over_tick_spec inp _ g' h
    constructor
    · rw [hhs]
      show g.high_score ≤ if g.score > g.high_score then g.score else g.high_score
      split_ifs <;> omega
    · intro h0
      exact absurd h0 hgo

theorem run_high_score (fl : ℚ → ℚ) (inputs : List Input) (g g' : Game)
    (h : run_ticks fl g inputs = some g') : g.high_score ≤ g'.high_score := by
  induction inputs generalizing g with
  | nil =>
    unfold run_ticks at h
    simp only [List.foldlM_nil, Option.pure_def, Option.some.injEq] at h
    rw [h]
  | cons inp rest ih =>
    unfold run_ticks at h
    simp only [List.foldlM_cons, Option.bind_eq_bind, Option.bind_eq_some] at h
    obtain ⟨g1, hg1, hrest⟩ := h
    obtain ⟨t, ht, hg1t⟩ := main_loop_step_spec fl g inp g1 hg1
    have h1 := (tick_high_score fl inp g t ht).1
    have h2 : g1.high_score = t.high_score := by
      have e0 := congrArg Game.high_score hg1t
      exact e0
    have h3 := ih g1 hrest
    omega

/-- C10: `high_score` never decreases under any tick, under `restart_game`
(which leaves it unchanged) or under any run of the main loop, and at the end
of a tick that starts PLAYING and ends in GAME_OVER it equals the larger of the
previous `high_score` and the score. -/
theorem high_score_never_decreases (fl : ℚ → ℚ) :
    (∀ (inp : Input) (g g' : Game), update_and_draw_pipes fl inp g = some g' →
      g.high_score ≤ g'.high_score ∧
      (g.game_over = 0 → g'.game_over ≠ 0 → g'.high_score = max g.high_score g'.score)) ∧
    (∀ (rand : Nat → Nat) (g g' : Game), restart_game rand g = some g' →
      g'.high_score = g.high_score) ∧
    (∀ (inputs : List Input) (g g' : Game), run_ticks fl g inputs = some g' →
      g.high_score ≤ g'.high_score) := by
  refine ⟨fun inp g g' h => tick_high_score fl inp g g' h, fun rand g g' h => ?_,
    fun inputs g g' h => run_high_score fl inputs g g' h⟩
  obtain ⟨g1, hg1, rfl⟩ := restart_game_spec rand g g' h
  have hf := initialize_pipes_frame _ _ _ hg1
  show g1.high_score = _
  have e0 := congrArg Game.high_score hf
  exact e0


/-- C10 on `crash_game` (score 2, high score 1): the tick detects the collision
and leaves the high score at 2. -/
theorem high_score_never_decreases_witness :
    ∃ g', update_and_draw_pipes id idle_input crash_game = some g' ∧
      g'.game_over ≠ 0 ∧ g'.high_score = max crash_game.high_score g'.score ∧
      g'.score = 2 := by
  have h : (update_and_draw_pipes id idle_input crash_game).map
      (fun g' => decide (g'.game_over ≠ 0 ∧ g'.score = 2)) = some true := by decide!
  obtain ⟨g', hg', hp⟩ := Option.map_eq_some'.mp h
  have hp' := of_decide_eq_true hp
  exact ⟨g', hg', hp'.1,
    ((high_score_never_decreases id).1 idle_input crash_game g' hg').2 (by decide) hp'.1,
    hp'.2⟩

/-! ## Height range -/

theorem tick_heights (fl : ℚ → ℚ) (inp : Input) (g : Game)
    (hm : g.screen_y - GAP_SIZE - MIN_PIPE_HEIGHT > 0) (hr : heights_in_range g) :
    ∃ g', update_and_draw_pipes fl inp g = some g' ∧ g'.screen_y = g.screen_y ∧
      heights_in_range g' := by
  obtain ⟨g', h⟩ := update_total fl inp g hm
  refine ⟨g', h, ?_⟩
  by_cases hgo : g.game_over = 0
  · obtain ⟨m, -, -, hsc, hns, ⟨-, g_sy, -, g_pi⟩, -, -, -, -⟩ := playing_step fl inp g g' hgo h
    refine ⟨g_sy, fun i => ?_⟩
    rw [g_sy, g_pi]
    by_cases hacc : scroll_accumulated fl g ≥ 1
    · have hi := hsc hacc i
      unfold scrolled at hi
      split_ifs at hi with hl
      · obtain ⟨-, k, r, hr1, hr2⟩ := hi
        obtain ⟨r0, r1⟩ := c_mod_range _ _ _ hm hr1
        rw [hr2]
        constructor <;> omega
      · rw [hi]
        exact hr i
    · rw [hns hacc]
      exact hr i
  · rw [update_game_over fl inp g hgo] at h
    obtain ⟨-, hsy, -, hno, hre⟩ := game_over_tick_spec inp _ g' h
    have hsy' : g'.screen_y = g.screen_y := hsy
    refine ⟨hsy', fun i => ?_⟩
    rw [hsy']
    by_cases hk : inp.key_input &&& 2 = 0
    · obtain ⟨-, hp, -⟩ := hno hk
      rw [hp]
      exact hr i
    · obtain ⟨⟨G, g1, -, hGy, hG, hp⟩, -⟩ := hre hk
      have hGy' : G.screen_y = g.screen_y := hGy
      obtain ⟨g1', p, hg1', -, -, -, hrange, -⟩ :=
        initialize_pipes_heights inp.rand G (by rw [hGy']; exact hm)
      rw [hG] at hg1'
      cases hg1'
      rw [hp, ← hGy']
      exact hrange i

theorem run_heights (fl : ℚ → ℚ) (inputs : List Input) (g : Game)
    (hm : g.screen_y - GAP_SIZE - MIN_PIPE_HEIGHT > 0) (hr : heights_in_range g) :
    ∃ g', run_ticks fl g inputs = some g' ∧ g'.screen_y = g.screen_y ∧
      heights_in_range g' := by
  induction inputs generalizing g with
  | nil => exact ⟨g, rfl, rfl, hr⟩
  | cons inp rest ih =>
    obtain ⟨t, ht, t_sy, t_r⟩ := tick_heights fl inp g hm hr
    have hstep : main_loop_step fl g inp = some (display_on_hex t.score t) := by
      unfold main_loop_step
      rw [ht]
      rfl
    obtain ⟨g', hg', g_sy, g_r⟩ := ih (display_on_hex t.score t)
      (by show t.screen_y - _ - _ > 0; rw [t_sy]; exact hm) t_r
    refine ⟨g', ?_, g_sy.trans t_sy, g_r⟩
    unfold run_ticks at hg' ⊢
    simp only [List.foldlM_cons, Option.bind_eq_bind, hstep, Option.some_bind]
    exact hg'

theorem game_start_heights (screen_x screen_y : Int) (rand : Nat → Nat)
    (hm : screen_y - GAP_SIZE - MIN_PIPE_HEIGHT > 0) :
    ∃ g0, game_start screen_x screen_y rand = some g0 ∧ g0.screen_x = screen_x ∧
      g0.screen_y = screen_y ∧ heights_in_range g0 := by
  unfold game_start
  dsimp only
  generalize hG : (emit Cmd.sync (emit Cmd.clear
    { screen_x := screen_x, screen_y := screen_y,
      bird := { x := 0, y := 0, velocity := 0, fall_accumulator := 0 },
      pipes := Mathlib.Vector.replicate MAX_PIPES { x := 0, top_height := 0 },
      scroll_accumulator := 0, score := 0,
      passed_pipes := Mathlib.Vector.replicate MAX_PIPES 0,
      high_score := 0, game_over := 0, game_over_sound_played := 0, out := [] })) = G
  have hGx : G.screen_x = screen_x := by rw [← hG]; rfl
  have hGy : G.screen_y = screen_y := by rw [← hG]; rfl
  obtain ⟨g1, p, hg1, -, g1_sy, -, hrange, -⟩ :=
    initialize_pipes_heights rand G (by rw [hGy]; exact hm)
  have hf := initialize_pipes_frame _ _ _ hg1
  have g1_sx : g1.screen_x = G.screen_x := by
    have e0 := congrArg Game.screen_x hf
    exact e0
  rw [hg1]
  refine ⟨initialize_bird g1, rfl, g1_sx.trans hGx, g1_sy.trans hGy, fun i => ?_⟩
  have := hrange i
  rw [hGy] at this
  show _ ≤ (g1.pipes.get i).top_height ∧ (g1.pipes.get i).top_height ≤ g1.screen_y - _
  rw [g1_sy, hGy]
  exact this

/-- C4: when `screen_y - GAP_SIZE - MIN_PIPE_HEIGHT > 0`, for every outcome of
the random source, every rounding of the float operations and every sequence
of inputs, the start of `main` and the run of the main loop return, and every
pipe's `top_height` lies in `[MIN_PIPE_HEIGHT, screen_y - GAP_SIZE]` after
`initialize_pipes` (empty run) and after every later tick, respawns and
restarts included.  The modulus of the first generator and of the respawn
generator is the positive `screen_y - GAP_SIZE - MIN_PIPE_HEIGHT`, and the
modulus `max_height - min_height + 1` of the second generator is positive for
every previous height in that range. -/
theorem height_range_invariant (fl : ℚ → ℚ) (screen_x screen_y : Int) (rand : Nat → Nat)
    (inputs : List Input) (hm : screen_y - GAP_SIZE - MIN_PIPE_HEIGHT > 0) :
    (∃ g0 g, game_start screen_x screen_y rand = some g0 ∧
      run_ticks fl g0 inputs = some g ∧
      ∀ i : Fin MAX_PIPES,
        MIN_PIPE_HEIGHT ≤ (g.pipes.get i).top_height ∧
        (g.pipes.get i).top_height ≤ screen_y - GAP_SIZE) ∧
    (∀ previous_height : Int, MIN_PIPE_HEIGHT ≤ previous_height →
      previous_height ≤ screen_y - GAP_SIZE →
      0 < spawn_max_height screen_y previous_height - spawn_min_height previous_height + 1) := by
  constructor
  · obtain ⟨g0, hg0, -, g0_sy, g0_r⟩ := game_start_heights screen_x screen_y rand hm
    obtain ⟨g, hg, g_sy, g_r⟩ := run_heights fl inputs g0 (by rw [g0_sy]; exact hm) g0_r
    refine ⟨g0, g, hg0, hg, fun i => ?_⟩
    have := g_r i
    rw [g_sy, g0_sy] at this
    exact this
  · intro prev hlo hhi
    have := spawn_interval screen_y prev hlo hhi
    omega

/-- C4 on a 320x240 screen with an idle tick and a jump tick. -/
theorem height_range_invariant_witness :
    (240 : Int) - GAP_SIZE - MIN_PIPE_HEIGHT > 0 ∧
    ∃ g0 g, game_start 320 240 (fun _ => 0) = some g0 ∧
      run_ticks id g0 [idle_input, jump_input] = some g ∧
      ∀ i : Fin MAX_PIPES,
        MIN_PIPE_HEIGHT ≤ (g.pipes.get i).top_height ∧
        (g.pipes.get i).top_height ≤ 240 - GAP_SIZE :=
  ⟨by decide,
    (height_range_invariant id 320 240 (fun _ => 0) [idle_input, jump_input] (by decide)).1⟩

/-! ## Scoring once per life -/

theorem start_column_lt (screen_x : Int) (h : 0 < screen_x) : c_div screen_x 3 < screen_x := by
  unfold c_div
  rw [Int.tdiv_eq_ediv (by omega) (by decide)]
  omega

theorem playing_passed (fl : ℚ → ℚ) (inp : Input) (g g' : Game) (i : Fin MAX_PIPES)
    (hinv : passed_behind g) (hgo : g.game_over = 0)
    (h : update_and_draw_pipes fl inp g = some g') :
    (g'.bird.x = g.bird.x ∧ g'.screen_x = g.screen_x) ∧
    (g'.passed_pipes.get i ≠ 0 → (g'.pipes.get i).x + PIPE_WIDTH < g'.bird.x) ∧
    (respawned_by_tick fl g i → scored_by_tick fl inp g i = false) ∧
    (¬ respawned_by_tick fl g i → g.passed_pipes.get i ≠ 0 →
      scored_by_tick fl inp g i = false ∧ g'.passed_pipes.get i = g.passed_pipes.get i) ∧
    (¬ respawned_by_tick fl g i → scored_by_tick fl inp g i = true →
      g'.passed_pipes.get i ≠ 0) := by
  obtain ⟨hbx, hsx, hbehind⟩ := hinv
  have hlt := start_column_lt g.screen_x hsx
  obtain ⟨m, hm, ⟨m_sx, -, m_bx, m_pp, -, -⟩, hsc, hns, ⟨g_sx, -, g_b, g_pi⟩, -, hfl, -, -⟩ :=
    playing_step fl inp g g' hgo h
  have g_bx : g'.bird.x = g.bird.x := by rw [g_b, m_bx]
  have hscored : scored_by_tick fl inp g i = decide (passes m i) := by
    unfold scored_by_tick
    rw [hm]
  have hflag := hfl i
  unfold flag_after passes at hflag
  simp only [m_sx, m_bx, m_pp] at hflag
  have hpass : passes m i ↔
      g.passed_pipes.get i = 0 ∧ g.bird.x > (m.pipes.get i).x + PIPE_WIDTH := by
    unfold passes
    rw [m_bx, m_pp]
  -- the position of pipe `i` after the scroll step
  have hpos : (respawned_by_tick fl g i → (m.pipes.get i).x = g.screen_x) ∧
      (¬ respawned_by_tick fl g i → (m.pipes.get i).x ≤ (g.pipes.get i).x) := by
    unfold respawned_by_tick
    by_cases hacc : scroll_accumulated fl g ≥ 1
    · have hi := hsc hacc i
      have hp := c_trunc_pos _ hacc
      unfold scrolled at hi
      constructor
      · rintro ⟨-, hl⟩
        rw [if_pos hl] at hi
        exact hi.1
      · intro hn
        have hl : ¬ leaves g (c_trunc (scroll_accumulated fl g)) i := fun hl => hn ⟨hacc, hl⟩
        rw [if_neg hl] at hi
        rw [hi]
        show (g.pipes.get i).x - _ ≤ _
        omega
    · constructor
      · rintro ⟨ha, -⟩
        exact absurd ha hacc
      · intro _
        rw [hns hacc]
  simp only [PIPE_WIDTH] at *
  refine ⟨⟨g_bx, g_sx⟩, ?_, ?_, ?_, ?_⟩
  · intro hne
    rw [g_pi, g_bx]
    rw [hflag] at hne
    by_cases hr : respawned_by_tick fl g i
    · have := hpos.1 hr
      rw [if_pos (by omega)] at hne
      exact absurd rfl hne
    · have hle := hpos.2 hr
      split_ifs at hne with h1 h2
      · exact absurd rfl hne
      · omega
      · have := hbehind i hne
        omega
  · intro hr
    rw [hscored, decide_eq_false_iff_not, hpass]
    have := hpos.1 hr
    omega
  · intro hr hne
    have hle := hpos.2 hr
    have hb := hbehind i hne
    refine ⟨?_, ?_⟩
    · rw [hscored, decide_eq_false_iff_not, hpass]
      omega
    · rw [hflag, if_neg (by omega), if_neg (by omega)]
  · intro hr hs
    rw [hscored, decide_eq_true_iff, hpass] at hs
    rw [hflag, if_neg (by omega), if_pos hs]
    decide


theorem tick_passed_behind (fl : ℚ → ℚ) (inp : Input) (g g' : Game)
    (hinv : passed_behind g) (h : update_and_draw_pipes fl inp g = some g') :
    passed_behind g' := by
  by_cases hgo : g.game_over = 0
  · have h0 := (playing_passed fl inp g g' 0 hinv hgo h).1
    refine ⟨?_, ?_, fun i => ?_⟩
    · rw [h0.1, h0.2]; exact hinv.1
    · rw [h0.2]; exact hinv.2.1
    · exact (playing_passed fl inp g g' i hinv hgo h).2.1
  · rw [update_game_over fl inp g hgo] at h
    obtain ⟨hsx, -, -, hno, hre⟩ := game_over_tick_spec inp _ g' h
    have hsx' : g'.screen_x = g.screen_x := hsx
    by_cases hk : inp.key_input &&& 2 = 0
    · obtain ⟨hb, hp, -, hpp, -, -⟩ := hno hk
      have hb' : g'.bird = g.bird := hb
      have hp' : g'.pipes = g.pipes := hp
      have hpp' : g'.passed_pipes = g.passed_pipes := hpp
      refine ⟨?_, ?_, fun i => ?_⟩
      · rw [hb', hsx']; exact hinv.1
      · rw [hsx']; exact hinv.2.1
      · rw [hb', hp', hpp']; exact hinv.2.2 i
    · obtain ⟨-, hb, -, hpp, -, -, -⟩ := hre hk
      refine ⟨?_, ?_, fun i hne => ?_⟩
      · rw [hb, hsx']; rfl
      · rw [hsx']; exact hinv.2.1
      · rw [hpp] at hne
        exact absurd (by fin_cases i <;> rfl) hne

theorem main_loop_passed_behind (fl : ℚ → ℚ) (inp : Input) (g g' : Game)
    (hinv : passed_behind g) (h : main_loop_step fl g inp = some g') :
    passed_behind g' := by
  obtain ⟨t, ht, hg't⟩ := main_loop_step_spec fl g inp g' h
  have := tick_passed_behind fl inp g t hinv ht
  rw [hg't]
  exact this

theorem run_passed_behind (fl : ℚ → ℚ) (inputs : List Input) (g g' : Game)
    (hinv : passed_behind g) (h : run_ticks fl g inputs = some g') :
    passed_behind g' := by
  induction inputs generalizing g with
  | nil =>
    unfold run_ticks at h
    simp only [List.foldlM_nil, Option.pure_def, Option.some.injEq] at h
    rw [← h]
    exact hinv
  | cons inp rest ih =>
    unfold run_ticks at h
    simp only [List.foldlM_cons, Option.bind_eq_bind, Option.bind_eq_some] at h
    obtain ⟨g1, hg1, hrest⟩ := h
    exact ih g1 (main_loop_passed_behind fl inp g g1 hinv hg1) hrest

theorem game_start_passed_behind (screen_x screen_y : Int) (rand : Nat → Nat) (g0 : Game)
    (hsx : 0 < screen_x) (h : game_start screen_x screen_y rand = some g0) :
    passed_behind g0 := by
  unfold game_start at h
  simp only [Option.map_eq_some'] at h
  obtain ⟨g1, hg1, rfl⟩ := h
  have hf := initialize_pipes_frame _ _ _ hg1
  have g1_sx : g1.screen_x = screen_x := by
    have e0 := congrArg Game.screen_x hf
    exact e0
  have g1_pp : g1.passed_pipes = Mathlib.Vector.replicate MAX_PIPES 0 := by
    have e0 := congrArg Game.passed_pipes hf
    exact e0
  refine ⟨rfl, ?_, fun i hne => ?_⟩
  · show 0 < g1.screen_x
    rw [g1_sx]; exact hsx
  · have : (initialize_bird g1).passed_pipes.get i = 0 := by
      show g1.passed_pipes.get i = 0
      rw [g1_pp]
      exact Mathlib.Vector.get_replicate _ _
    exact absurd this hne

/-- C7: for every state `update_score` leaves `score' >= score`; precisely it adds
exactly 1 for each pipe `i` whose passed flag was 0 and for which
`bird.x > pipes[i].x + PIPE_WIDTH`, and nothing for any other pipe; the flag of such a
pipe is 1 afterwards in every state with `bird.x <= screen_x + PIPE_WIDTH` (in general it
is 1 unless `pipes[i].x >= screen_x`).  No other step of a PLAYING tick changes the
score: the state `update_score` runs on still has the score, the bird column and the
screen width of the start of the tick, and the tick ends with the score `update_score`
returned.  Every state a game reaches from `game_start` on a screen of positive width
has the bird at its start column `screen_x / 3`, hence `bird.x <= screen_x + PIPE_WIDTH`,
so in every state of a game a scored pipe has its flag set to 1. -/
theorem score_update_exact :
    (∀ g : Game,
      (update_score g).score = g.score +
        (((List.finRange MAX_PIPES).filter fun i =>
          decide (g.passed_pipes.get i = 0 ∧ g.bird.x > (g.pipes.get i).x + PIPE_WIDTH)).length
            : Int) ∧
      g.score ≤ (update_score g).score ∧
      (∀ i : Fin MAX_PIPES,
        g.passed_pipes.get i = 0 ∧ g.bird.x > (g.pipes.get i).x + PIPE_WIDTH →
          (update_score g).passed_pipes.get i
            = if (g.pipes.get i).x ≥ g.screen_x then 0 else 1) ∧
      (g.bird.x ≤ g.screen_x + PIPE_WIDTH →
        ∀ i : Fin MAX_PIPES,
          g.passed_pipes.get i = 0 ∧ g.bird.x > (g.pipes.get i).x + PIPE_WIDTH →
            (update_score g).passed_pipes.get i = 1)) ∧
    (∀ (fl : ℚ → ℚ) (inp : Input) (g g' : Game), g.game_over = 0 →
      update_and_draw_pipes fl inp g = some g' →
      ∃ m, playing_mid fl inp (emit Cmd.sync (emit Cmd.clear g)) = some m ∧
        m.score = g.score ∧ g'.score = (update_score m).score ∧
        m.bird.x = g.bird.x ∧ m.screen_x = g.screen_x) ∧
    (∀ (fl : ℚ → ℚ) (screen_x screen_y : Int) (rand : Nat → Nat) (inputs : List Input)
        (g0 g : Game), 0 < screen_x → game_start screen_x screen_y rand = some g0 →
      run_ticks fl g0 inputs = some g →
      g.bird.x = c_div g.screen_x 3 ∧ 0 < g.screen_x ∧ g.bird.x ≤ g.screen_x + PIPE_WIDTH) := by
  refine ⟨?_, ?_, ?_⟩
  · intro g
    obtain ⟨-, hscore, hflags⟩ := update_score_spec g
    have hflag : ∀ i : Fin MAX_PIPES,
        g.passed_pipes.get i = 0 ∧ g.bird.x > (g.pipes.get i).x + PIPE_WIDTH →
          (update_score g).passed_pipes.get i
            = if (g.pipes.get i).x ≥ g.screen_x then 0 else 1 := by
      intro i hi
      rw [hflags i]
      unfold flag_after
      have hp : passes g i := hi
      simp only [hp, if_true]
    refine ⟨hscore, ?_, hflag, ?_⟩
    · rw [hscore]
      have := passes_count_nonneg g
      omega
    · intro hb i hi
      rw [hflag i hi, if_neg]
      simp only [PIPE_WIDTH] at hb hi
      omega
  · intro fl inp g g' hgo h
    obtain ⟨m, hm, ⟨m_sx, -, m_bx, -, m_sc, -⟩, -, -, -, g_sc, -, -, -⟩ :=
      playing_step fl inp g g' hgo h
    refine ⟨m, hm, m_sc, ?_, m_bx, m_sx⟩
    rw [g_sc, (update_score_spec m).2.1, m_sc]
  · intro fl screen_x screen_y rand inputs g0 g hsx h0 hrun
    obtain ⟨hbx, hpos, -⟩ := run_passed_behind fl inputs g0 g
      (game_start_passed_behind screen_x screen_y rand g0 hsx h0) hrun
    refine ⟨hbx, hpos, ?_⟩
    have := start_column_lt g.screen_x hpos
    rw [hbx]
    simp only [PIPE_WIDTH]
    omega

/-- C7 on `passing_game`: pipe 0 (right edge at 105) is behind the
bird (left edge at 106), so it is scored and its flag is 1 afterwards. -/
theorem score_update_exact_witness :
    (update_score passing_game).score = passing_game.score + 1 ∧
    (update_score passing_game).passed_pipes.get 0 = 1 :=
  ⟨by decide, (score_update_exact.1 passing_game).2.2.2 (by decide) 0 (by decide)⟩

theorem life_step (fl : ℚ → ℚ) (inp : Input) (g g' : Game) (i : Fin MAX_PIPES)
    (hinv : passed_behind g) (hgo : g.game_over = 0) (hnr : ¬ respawned_by_tick fl g i)
    (h : main_loop_step fl g inp = some g') :
    passed_behind g' ∧
    (g.passed_pipes.get i ≠ 0 →
      scored_by_tick fl inp g i = false ∧ g'.passed_pipes.get i = g.passed_pipes.get i) ∧
    (scored_by_tick fl inp g i = true → g'.passed_pipes.get i ≠ 0) := by
  obtain ⟨t, ht, hg't⟩ := main_loop_step_spec fl g inp g' h
  obtain ⟨-, -, -, hkeep, hset⟩ := playing_passed fl inp g t i hinv hgo ht
  have hpp : g'.passed_pipes = t.passed_pipes := by
    have e0 := congrArg Game.passed_pipes hg't
    exact e0
  refine ⟨main_loop_passed_behind fl inp g g' hinv h, fun hne => ?_, fun hs => ?_⟩
  · rw [hpp]
    exact hkeep hnr hne
  · rw [hpp]
    exact hset hnr hs

theorem life_run_cons (fl : ℚ → ℚ) (i : Fin MAX_PIPES) (g : Game) (inp : Input)
    (rest : List Input) (g' : Game) (n : Nat)
    (h : life_run fl i g (inp :: rest) = some (g', n)) :
    g.game_over = 0 ∧ ¬ respawned_by_tick fl g i ∧
    ∃ g1 k, main_loop_step fl g inp = some g1 ∧ life_run fl i g1 rest = some (g', k) ∧
      n = k + if scored_by_tick fl inp g i then 1 else 0 := by
  unfold life_run at h
  by_cases hc : g.game_over ≠ 0 ∨ respawned_by_tick fl g i
  · rw [if_pos hc] at h
    cases h
  · rw [if_neg hc] at h
    simp only [Option.bind_eq_some, Option.map_eq_some', Prod.mk.injEq] at h
    obtain ⟨g1, hg1, r, hr, hr1, hr2⟩ := h
    refine ⟨?_, fun hn => hc (Or.inr hn), g1, r.2, hg1, ?_, hr2.symm⟩
    · by_contra hne
      exact hc (Or.inl hne)
    · rw [hr, ← hr1]

theorem life_run_flag_set (fl : ℚ → ℚ) (i : Fin MAX_PIPES) (life : List Input) (g g' : Game)
    (n : Nat) (hinv : passed_behind g) (hne : g.passed_pipes.get i ≠ 0)
    (h : life_run fl i g life = some (g', n)) :
    n = 0 ∧ g'.passed_pipes.get i = g.passed_pipes.get i := by
  induction life generalizing g n with
  | nil =>
    unfold life_run at h
    simp only [Option.some.injEq, Prod.mk.injEq] at h
    exact ⟨h.2.symm, by rw [h.1]⟩
  | cons inp rest ih =>
    obtain ⟨hgo, hnr, g1, k, hg1, hk, hn⟩ := life_run_cons fl i g inp rest g' n h
    obtain ⟨hinv1, hkeep, -⟩ := life_step fl inp g g1 i hinv hgo hnr hg1
    obtain ⟨hs, hflag⟩ := hkeep hne
    obtain ⟨hk0, hflag'⟩ := ih g1 k hinv1 (by rw [hflag]; exact hne) hk
    refine ⟨?_, by rw [hflag', hflag]⟩
    rw [hn, hk0, hs]
    rfl

theorem life_run_count (fl : ℚ → ℚ) (i : Fin MAX_PIPES) (life : List Input) (g g' : Game)
    (n : Nat) (hinv : passed_behind g) (h : life_run fl i g life = some (g', n)) :
    n ≤ 1 := by
  induction life generalizing g n with
  | nil =>
    unfold life_run at h
    simp only [Option.some.injEq, Prod.mk.injEq] at h
    omega
  | cons inp rest ih =>
    obtain ⟨hgo, hnr, g1, k, hg1, hk, hn⟩ := life_run_cons fl i g inp rest g' n h
    obtain ⟨hinv1, -, hset⟩ := life_step fl inp g g1 i hinv hgo hnr hg1
    by_cases hs : scored_by_tick fl inp g i = true
    · obtain ⟨hk0, -⟩ := life_run_flag_set fl i rest g1 g' k hinv1 (hset hs) hk
      rw [hn, hk0, hs]
      decide
    · have := ih g1 k hinv1 hk
      rw [hn]
      simp only [hs]
      simpa using this

theorem tick_score_events (fl : ℚ → ℚ) (inp : Input) (g t : Game) (hgo : g.game_over = 0)
    (h : update_and_draw_pipes fl inp g = some t) :
    t.score = g.score +
      (((List.finRange MAX_PIPES).filter fun j => scored_by_tick fl inp g j).length : Int) := by
  obtain ⟨m, hm, -, -, -, -, hscore, -, -, -⟩ := playing_step fl inp g t hgo h
  have hfun : (fun j => scored_by_tick fl inp g j) = fun j => decide (passes m j) := by
    funext j
    unfold scored_by_tick
    rw [hm]
  rw [hscore, hfun]

/-- C8: let `g` be any state the game reaches from its start on a screen of
positive width (so `bird.x = screen_x / 3`), and run PLAYING ticks from `g`
none of which respawns pipe `i` (`life_run`).  Then the score is incremented
on account of pipe `i` in at most one of these ticks, and if the passed flag
of pipe `i` is set in `g` it is incremented in none and the flag keeps its
value.  A tick that respawns pipe `i` never scores it.  The ticks counted are
exactly the score increments: a PLAYING tick adds to the score the number of
pipes it scores. -/
theorem scored_once_per_life (fl : ℚ → ℚ) (screen_x screen_y : Int) (rand : Nat → Nat)
    (before life : List Input) (g0 g g' : Game) (i : Fin MAX_PIPES) (n : Nat)
    (hsx : 0 < screen_x) (hstart : game_start screen_x screen_y rand = some g0)
    (hrun : run_ticks fl g0 before = some g)
    (hlife : life_run fl i g life = some (g', n)) :
    n ≤ 1 ∧
    (g.passed_pipes.get i ≠ 0 → n = 0 ∧ g'.passed_pipes.get i = g.passed_pipes.get i) ∧
    (∀ (inp : Input) (t : Game), g.game_over = 0 → respawned_by_tick fl g i →
      update_and_draw_pipes fl inp g = some t → scored_by_tick fl inp g i = false) ∧
    (∀ (inp : Input) (t : Game), g.game_over = 0 →
      update_and_draw_pipes fl inp g = some t →
      t.score = g.score +
        (((List.finRange MAX_PIPES).filter fun j => scored_by_tick fl inp g j).length : Int)) := by
  have hinv0 := game_start_passed_behind screen_x screen_y rand g0 hsx hstart
  have hinv := run_passed_behind fl before g0 g hinv0 hrun
  exact ⟨life_run_count fl i life g g' n hinv hlife,
    fun hne => life_run_flag_set fl i life g g' n hinv hne hlife,
    fun inp t hgo hr ht => (playing_passed fl inp g t i hinv hgo ht).2.2.1 hr,
    fun inp t hgo ht => tick_score_events fl inp g t hgo ht⟩


/-- C8 on a 320x240 screen: after 426 ticks of hovering pipe 0 is about to pass
behind the bird; in the next five ticks it is scored exactly once. -/
theorem scored_once_per_life_witness :
    ∃ g0 g g', game_start 320 240 (fun _ => 0) = some g0 ∧
      run_ticks id g0 (hover_inputs 33) = some g ∧
      life_run id 0 g (List.replicate 5 idle_input) = some (g', 1) ∧ 1 ≤ 1 := by
  have h : ((game_start 320 240 (fun _ => 0)).bind fun g0 =>
      (run_ticks id g0 (hover_inputs 33)).bind fun g =>
        (life_run id 0 g (List.replicate 5 idle_input)).map fun r => decide (r.2 = 1))
      = some true := by decide!
  obtain ⟨g0, h0, h⟩ := Option.bind_eq_some.mp h
  obtain ⟨g, h1, h⟩ := Option.bind_eq_some.mp h
  obtain ⟨r, hr, hr1⟩ := Option.map_eq_some'.mp h
  have hr' : life_run id 0 g (List.replicate 5 idle_input) = some (r.1, 1) := by
    rw [hr, ← of_decide_eq_true hr1]
  exact ⟨g0, g, r.1, h0, h1, hr',
    (scored_once_per_life id 320 240 (fun _ => 0) (hover_inputs 33)
      (List.replicate 5 idle_input) g0 g r.1 0 1 (by decide) h0 h1 hr').1⟩

theorem respawn_after_hover :
    ((game_start 320 240 (fun _ => 0)).bind fun g0 =>
      (run_ticks id g0 (hover_inputs 49 ++ [idle_input])).bind fun g =>
        (update_and_draw_pipes id respawn_input g).map fun g' =>
          decide (g.game_over = 0 ∧ respawned_by_tick id g 0 ∧
            (g.pipes.get 0).x = -20 ∧ (g.pipes.get 1).top_height = 100 ∧
            (g'.pipes.get 0).x = 320 ∧ (g'.pipes.get 0).top_height = 179 ∧
            (g'.pipes.get 1).top_height = 100 ∧
            |(g'.pipes.get 0).top_height - (g'.pipes.get 1).top_height| > MAX_PIPE_HEIGHT_DIFF ∧
            g'.game_over = 0))
      = some true := by
  decide!

theorem respawn_from_state :
    respawn_game.game_over = 0 ∧ respawned_by_tick id respawn_game 0 ∧
    (update_and_draw_pipes id respawn_input respawn_game).map (fun g' =>
      decide ((g'.pipes.get 0).x = 320 ∧ (g'.pipes.get 0).top_height = 179 ∧
        (g'.pipes.get 1).top_height = 100 ∧
        |(g'.pipes.get 0).top_height - (g'.pipes.get 1).top_height| > MAX_PIPE_HEIGHT_DIFF ∧
        g'.game_over = 0))
      = some true := by
  refine ⟨?_, ?_, ?_⟩
  · decide
  · decide!
  · decide!

/-- C3 (the code breaks the claim): on a 320x240 screen, start the game with
all pipes at height 100 and hover for 619 ticks; the game is still PLAYING and
the next tick respawns pipe 0.  With `rand()` returning 79 the respawned pipe
gets `top_height = 179` at `x = 320` while its neighbour, pipe 1, still has
`top_height = 100`: they differ by 79, more than `MAX_PIPE_HEIGHT_DIFF = 40`.
The same tick from `respawn_game`, which holds the pipes and the accumulator of
that moment, gives the same heights. -/
theorem respawn_ignores_neighbour :
    ((game_start 320 240 (fun _ => 0)).bind fun g0 =>
      (run_ticks id g0 (hover_inputs 49 ++ [idle_input])).bind fun g =>
        (update_and_draw_pipes id respawn_input g).map fun g' =>
          decide (g.game_over = 0 ∧ respawned_by_tick id g 0 ∧
            (g.pipes.get 0).x = -20 ∧ (g.pipes.get 1).top_height = 100 ∧
            (g'.pipes.get 0).x = 320 ∧ (g'.pipes.get 0).top_height = 179 ∧
            (g'.pipes.get 1).top_height = 100 ∧
            |(g'.pipes.get 0).top_height - (g'.pipes.get 1).top_height| > MAX_PIPE_HEIGHT_DIFF ∧
            g'.game_over = 0))
      = some true ∧
    respawn_game.game_over = 0 ∧ respawned_by_tick id respawn_game 0 ∧
    (update_and_draw_pipes id respawn_input respawn_game).map (fun g' =>
      decide ((g'.pipes.get 0).x = 320 ∧ (g'.pipes.get 0).top_height = 179 ∧
        (g'.pipes.get 1).top_height = 100 ∧
        |(g'.pipes.get 0).top_height - (g'.pipes.get 1).top_height| > MAX_PIPE_HEIGHT_DIFF ∧
        g'.game_over = 0))
      = some true :=
  ⟨respawn_after_hover, respawn_from_state⟩

theorem initialize_pipes_congr (rand : Nat → Nat) (G g G1 : Game)
    (hx : G.screen_x = g.screen_x) (hy : G.screen_y = g.screen_y)
    (h : initialize_pipes rand G = some G1) :
    initialize_pipes rand g = some { g with pipes := G1.pipes } := by
  unfold initialize_pipes at h ⊢
  rw [hy] at h
  simp only [Option.bind_eq_some, Option.map_eq_some'] at h
  obtain ⟨p, hp, st, hst, rfl⟩ := h
  rw [hp]
  rw [finRange_max_pipes] at hst ⊢
  simp only [List.foldlM_cons, List.foldlM_nil, initialize_pipes_step, Option.bind_eq_bind,
    Option.bind_eq_some, Option.map_eq_some', Option.pure_def, Option.some.injEq, hx, hy] at hst
  obtain ⟨s0, ⟨r0, e0, rfl⟩, s1, ⟨r1, e1, rfl⟩, s2, ⟨r2, e2, rfl⟩, s3, ⟨r3, e3, rfl⟩, rfl⟩ := hst
  simp only [Option.some_bind, List.foldlM_cons, List.foldlM_nil, initialize_pipes_step,
    Option.bind_eq_bind, e0, e1, e2, e3, Option.map_some', Option.pure_def, vector_set_all]

theorem display_game_over_out (g : Game) :
    (display_game_over g).out = g.out ++
      [Event.video (Cmd.text GAME_OVER_X GAME_OVER_Y "GAME OVER"),
       Event.video (Cmd.text RESTART_X RESTART_Y "PRESS KEY1 to restart"),
       Event.video (Cmd.text (RESTART_X - 12) (RESTART_Y + 5)
         ("Highscore: " ++ toString (if g.score > g.high_score then g.score else g.high_score)))] := by
  unfold display_game_over emit
  dsimp only
  split_ifs <;> simp


theorem game_over_tick_out (inp : Input) (g g' : Game) (h : game_over_tick inp g = some g') :
    g'.out = (display_game_over g).out ++
      (if g.game_over_sound_played = 0 then [Event.game_over_sound] else []) ++
      (if inp.key_input &&& 2 ≠ 0 then [Event.video Cmd.erase, Event.hex 0] else []) ++
      [Event.video Cmd.sync, Event.video Cmd.swap] := by
  unfold game_over_tick at h
  dsimp only at h
  have e := display_game_over_frame g
  have hsp : (display_game_over g).game_over_sound_played = g.game_over_sound_played := by
    have e0 := congrArg Game.game_over_sound_played e
    exact e0
  generalize display_game_over g = d at h e hsp ⊢
  rw [hsp] at h
  by_cases hk : inp.key_input &&& 2 ≠ 0
  · rw [if_pos hk] at h
    rw [if_pos hk]
    simp only [Option.map_eq_some'] at h
    obtain ⟨r, hr, rfl⟩ := h
    obtain ⟨g1, hg1, rfl⟩ := restart_game_spec _ _ _ hr
    have hf := initialize_pipes_frame _ _ _ hg1
    have ho : g1.out = (if g.game_over_sound_played = 0 then d.out ++ [Event.game_over_sound]
        else d.out) ++ [Event.video Cmd.erase] := by
      have e0 := congrArg Game.out hf
      rw [e0]
      show (clear_text _).out = _
      unfold clear_text emit
      dsimp only
      split_ifs <;> rfl
    show (g1.out ++ [Event.hex 0]) ++ [Event.video Cmd.sync] ++ [Event.video Cmd.swap] = _
    rw [ho]
    split_ifs <;> simp
  · rw [if_neg hk] at h
    rw [if_neg hk]
    simp only [Option.map_some', Option.some.injEq] at h
    subst h
    unfold emit
    dsimp only
    split_ifs <;> simp

/-- C11: a GAME_OVER tick whose key value has bit 1 clear returns and leaves the state
GAME_OVER with the bird, the pipes, the passed flags, the score and the scroll accumulator
(the bird record holds the fall accumulator) unchanged; a GAME_OVER tick whose key value has
bit 1 set returns whenever the random heights can be drawn and ends in PLAYING with score 0,
every passed flag 0, the bird at (screen_x / 3, screen_y / 2) with fall accumulator 0, scroll
accumulator 0, the pipes those of a fresh initialize_pipes, and the erase command among the
tick's outputs; and a PLAYING tick ends in GAME_OVER only when its check_collision call
returned 1. -/
theorem restart_transition (fl : ℚ → ℚ) (inp : Input) :
    (∀ g : Game, g.game_over ≠ 0 → inp.key_input &&& 2 = 0 →
      ∃ g', update_and_draw_pipes fl inp g = some g' ∧
        g'.game_over = g.game_over ∧ g'.bird = g.bird ∧ g'.pipes = g.pipes ∧
        g'.passed_pipes = g.passed_pipes ∧ g'.score = g.score ∧
        g'.scroll_accumulator = g.scroll_accumulator) ∧
    (∀ g : Game, g.game_over ≠ 0 → inp.key_input &&& 2 ≠ 0 →
      (g.screen_y - GAP_SIZE - MIN_PIPE_HEIGHT > 0 →
        ∃ g', update_and_draw_pipes fl inp g = some g') ∧
      ∀ g', update_and_draw_pipes fl inp g = some g' →
        g'.game_over = 0 ∧ g'.score = 0 ∧
        (∀ i : Fin MAX_PIPES, g'.passed_pipes.get i = 0) ∧
        g'.bird.x = c_div g.screen_x 3 ∧ g'.bird.y = c_div g.screen_y 2 ∧
        g'.bird.fall_accumulator = 0 ∧ g'.scroll_accumulator = 0 ∧
        (∃ g1, initialize_pipes inp.rand g = some g1 ∧ g'.pipes = g1.pipes) ∧
        (∃ before after, g'.out = g.out ++ before ++ [Event.video Cmd.erase] ++ after)) ∧
    (∀ g g' : Game, g.game_over = 0 → update_and_draw_pipes fl inp g = some g' →
      g'.game_over ≠ 0 →
      ∃ m, playing_mid fl inp (emit Cmd.sync (emit Cmd.clear g)) = some m ∧
        check_collision (update_score m) = 1) := by
  refine ⟨fun g hgo hk => ?_, fun g hgo hk => ⟨fun hm => update_total fl inp g hm,
    fun g' h => ?_⟩, fun g g' hgo h hne => ?_⟩
  · have hk' : ¬ inp.key_input &&& 2 ≠ 0 := fun hn => hn hk
    have hsome : ∃ g', update_and_draw_pipes fl inp g = some g' := by
      rw [update_game_over fl inp g hgo]
      unfold game_over_tick
      dsimp only
      rw [if_neg hk']
      exact ⟨_, rfl⟩
    obtain ⟨g', h⟩ := hsome
    refine ⟨g', h, ?_⟩
    rw [update_game_over fl inp g hgo] at h
    obtain ⟨-, -, -, hno, -⟩ := game_over_tick_spec inp _ g' h
    obtain ⟨hb, hp, hs, hpp, hsa, hg⟩ := hno hk
    exact ⟨hg, hb, hp, hpp, hs, hsa⟩
  · rw [update_game_over fl inp g hgo] at h
    obtain ⟨-, -, -, -, hre⟩ := game_over_tick_spec inp _ g' h
    obtain ⟨⟨G, g1, hGx, hGy, hG, hp⟩, hb, hs, hpp, hsa, hg, -⟩ := hre hk
    have hout := game_over_tick_out inp _ g' h
    rw [if_pos hk, display_game_over_out] at hout
    refine ⟨hg, hs, fun i => ?_, ?_, ?_, ?_, hsa, ⟨_, initialize_pipes_congr inp.rand G g g1
      hGx hGy hG, hp⟩, ?_⟩
    · rw [hpp]
      fin_cases i <;> rfl
    · rw [hb]; rfl
    · rw [hb]; rfl
    · rw [hb]; rfl
    · refine ⟨[Event.video Cmd.clear, Event.video Cmd.sync] ++
          [Event.video (Cmd.text GAME_OVER_X GAME_OVER_Y "GAME OVER"),
           Event.video (Cmd.text RESTART_X RESTART_Y "PRESS KEY1 to restart"),
           Event.video (Cmd.text (RESTART_X - 12) (RESTART_Y + 5)
             ("Highscore: " ++ toString (if g.score > g.high_score then g.score
               else g.high_score)))] ++
          (if g.game_over_sound_played = 0 then [Event.game_over_sound] else []),
        [Event.hex 0, Event.video Cmd.sync, Event.video Cmd.swap], ?_⟩
      rw [hout]
      show ((g.out ++ [Event.video Cmd.clear]) ++ [Event.video Cmd.sync]) ++ _ ++ _ ++ _ ++ _ = _
      simp only [List.append_assoc, List.cons_append, List.nil_append]
      rfl
  · obtain ⟨m, hm, -, -, -, -, -, -, g_go, -⟩ := playing_step fl inp g g' hgo h
    refine ⟨m, hm, ?_⟩
    rw [g_go] at hne
    have hc : check_collision (update_score m) ≠ 0 := by
      intro hc
      rw [if_neg (fun hn => hn hc)] at hne
      exact hne rfl
    rcases check_collision_loop_cases (update_score m) (List.finRange MAX_PIPES) with h0 | h1
    · exact absurd h0 hc
    · exact h1

theorem crash_tick_collides :
    (update_and_draw_pipes id idle_input crash_game).map (fun g' => decide (g'.game_over ≠ 0))
      = some true := by decide!

theorem restart_transition_witness :
    (∃ g', update_and_draw_pipes id idle_input lost_game = some g' ∧ g'.game_over = 1 ∧
      g'.score = 2) ∧
    (∃ g', update_and_draw_pipes id restart_input lost_game = some g' ∧ g'.game_over = 0 ∧
      g'.score = 0 ∧ g'.bird.x = 106 ∧ g'.bird.y = 120) ∧
    (∃ m, playing_mid id idle_input (emit Cmd.sync (emit Cmd.clear crash_game)) = some m ∧
      check_collision (update_score m) = 1) := by
  refine ⟨?_, ?_, ?_⟩
  · obtain ⟨g', h, hg, -, -, -, hs, -⟩ :=
      (restart_transition id idle_input).1 lost_game (by decide) (by decide)
    exact ⟨g', h, hg, hs⟩
  · obtain ⟨hex, hall⟩ :=
      (restart_transition id restart_input).2.1 lost_game (by decide) (by decide)
    obtain ⟨g', h⟩ := hex (by decide)
    obtain ⟨hg, hs, -, hx, hy, -⟩ := hall g' h
    exact ⟨g', h, hg, hs, hx, hy⟩
  · obtain ⟨g', h, hd⟩ := Option.map_eq_some'.mp crash_tick_collides
    exact (restart_transition id idle_input).2.2 crash_game g' rfl h (of_decide_eq_true hd)

/-! ## The video driver -/

theorem mem_int_range (a b k : Int) : k ∈ int_range a b ↔ a ≤ k ∧ k ≤ b := by
  unfold int_range
  simp only [List.mem_map, List.mem_range]
  constructor
  · rintro ⟨n, hn, rfl⟩
    omega
  · rintro ⟨h1, h2⟩
    exact ⟨(k - a).toNat, by omega, by omega⟩

theorem length_int_range (a b : Int) : (int_range a b).length = (b + 1 - a).toNat := by
  unfold int_range
  simp

theorem nodup_int_range (a b : Int) : (int_range a b).Nodup := by
  unfold int_range
  refine List.Nodup.map ?_ (List.nodup_range _)
  intro i j h
  simpa using h

theorem int_range_shift (a n : Int) :
    int_range a (a + n) = (int_range 0 n).map fun i => a + i := by
  unfold int_range
  simp only [List.map_map]
  have : (a + n + 1 - a).toNat = (n + 1 - 0).toNat := by congr 1; ring
  rw [this]
  apply List.map_congr_left
  intro k _
  simp

theorem plot_pixel_eq (x y color : Int) (v : Video) :
    plot_pixel x y color v =
      if in_screen v x y then
        { v with pixels := (v.current_back_buffer, pixel_offset x y, color) :: v.pixels }
      else v := by
  unfold plot_pixel in_screen
  by_cases h : x < 0 ∨ x ≥ v.resolution_x ∨ y < 0 ∨ y ≥ v.resolution_y
  · rw [if_pos h, if_neg (by omega)]
  · rw [if_neg h, if_pos (by omega)]

/-- The stores a list of plotted cells adds, most recent first. -/
theorem plot_cells_eq (cells : List (Int × Int)) (color : Int) (v : Video) :
    plot_cells cells color v =
      { v with pixels :=
          ((cells.filter fun p => in_screen v p.1 p.2).map fun p =>
            (v.current_back_buffer, pixel_offset p.1 p.2, color)).reverse ++ v.pixels } := by
  unfold plot_cells
  induction cells generalizing v with
  | nil => rfl
  | cons p cells ih =>
    rw [List.foldl_cons, ih, plot_pixel_eq]
    by_cases h : in_screen v p.1 p.2
    · rw [if_pos h]
      simp only [List.filter_cons, h, decide_True, if_true, List.map_cons, List.reverse_cons,
        List.append_assoc, List.singleton_append]
      rfl
    · rw [if_neg h]
      simp only [List.filter_cons, h, decide_False, Bool.false_eq_true, if_false]

theorem plot_cells_append (l1 l2 : List (Int × Int)) (color : Int) (v : Video) :
    plot_cells (l1 ++ l2) color v = plot_cells l2 color (plot_cells l1 color v) := by
  unfold plot_cells
  rw [List.foldl_append]

theorem draw_box_eq (x1 y1 x2 y2 color : Int) (v : Video) :
    draw_box x1 y1 x2 y2 color v = plot_cells (box_cells x1 y1 x2 y2) color v := by
  unfold draw_box box_cells
  generalize int_range y1 y2 = ys
  induction ys generalizing v with
  | nil => rfl
  | cons y ys ih =>
    rw [List.foldl_cons, ih, List.flatMap_cons, plot_cells_append]
    congr 1
    unfold plot_cells
    rw [List.foldl_map]

theorem read_pixel_cons (e : BufId × Int × Int) (m : List (BufId × Int × Int)) (b : BufId)
    (a : Int) :
    read_pixel (e :: m) b a = if e.1 = b ∧ e.2.1 = a then e.2.2 else read_pixel m b a := rfl

theorem read_pixel_append (l : List (Int × Int)) (back : BufId) (color : Int)
    (m : List (BufId × Int × Int)) (b : BufId) (a : Int) :
    read_pixel ((l.map fun p => (back, pixel_offset p.1 p.2, color)) ++ m) b a =
      if b = back ∧ ∃ p ∈ l, pixel_offset p.1 p.2 = a then color else read_pixel m b a := by
  induction l with
  | nil => simp
  | cons p l ih =>
    rw [List.map_cons, List.cons_append, read_pixel_cons, ih]
    dsimp only
    by_cases h1 : back = b ∧ pixel_offset p.1 p.2 = a
    · rw [if_pos h1, if_pos]
      exact ⟨h1.1.symm, p, List.mem_cons_self _ _, h1.2⟩
    · rw [if_neg h1]
      apply if_congr _ rfl rfl
      constructor
      · rintro ⟨hb, q, hq, ha⟩
        exact ⟨hb, q, List.mem_cons_of_mem _ hq, ha⟩
      · rintro ⟨hb, q, hq, ha⟩
        rcases List.mem_cons.mp hq with rfl | hq
        · exact absurd ⟨hb.symm, ha⟩ h1
        · exact ⟨hb, q, hq, ha⟩

/-- What a buffer holds after a list of cells has been plotted. -/
theorem read_plot_cells (cells : List (Int × Int)) (color : Int) (v : Video) (b : BufId)
    (a : Int) :
    read_pixel (plot_cells cells color v).pixels b a =
      if b = v.current_back_buffer ∧
          ∃ p ∈ cells, in_screen v p.1 p.2 ∧ pixel_offset p.1 p.2 = a then color
      else read_pixel v.pixels b a := by
  rw [plot_cells_eq]
  show read_pixel (_ ++ v.pixels) b a = _
  rw [← List.map_reverse, read_pixel_append]
  apply if_congr _ rfl rfl
  simp only [List.mem_reverse, List.mem_filter, decide_eq_true_eq]
  constructor
  · rintro ⟨hb, p, ⟨hp, hs⟩, ha⟩
    exact ⟨hb, p, hp, hs, ha⟩
  · rintro ⟨hb, p, hp, hs, ha⟩
    exact ⟨hb, p, ⟨hp, hs⟩, ha⟩

theorem mem_box_cells (x1 y1 x2 y2 : Int) (p : Int × Int) :
    p ∈ box_cells x1 y1 x2 y2 ↔ (x1 ≤ p.1 ∧ p.1 ≤ x2) ∧ (y1 ≤ p.2 ∧ p.2 ≤ y2) := by
  unfold box_cells
  simp only [List.mem_flatMap, List.mem_map, mem_int_range]
  constructor
  · rintro ⟨y, hy, x, hx, rfl⟩
    exact ⟨hx, hy⟩
  · rintro ⟨hx, hy⟩
    exact ⟨p.2, hy, p.1, hx, rfl⟩

theorem length_box_cells (x1 y1 x2 y2 : Int) :
    (box_cells x1 y1 x2 y2).length = (y2 + 1 - y1).toNat * (x2 + 1 - x1).toNat := by
  unfold box_cells
  rw [← length_int_range, ← length_int_range]
  generalize int_range y1 y2 = ys
  induction ys with
  | nil => simp
  | cons y ys ih =>
    rw [List.flatMap_cons, List.length_append, ih, List.length_map, List.length_cons]
    ring

theorem pixel_offset_inj (x y x' y' : Int) (hx : 0 ≤ x) (hx2 : x < 512) (hx' : 0 ≤ x')
    (hx2' : x' < 512) (h : pixel_offset x y = pixel_offset x' y') : x = x' ∧ y = y' := by
  unfold pixel_offset at h
  omega

theorem plot_cells_frame (cells : List (Int × Int)) (color : Int) (v : Video) :
    (plot_cells cells color v).resolution_x = v.resolution_x ∧
    (plot_cells cells color v).resolution_y = v.resolution_y ∧
    (plot_cells cells color v).pixel_buffer = v.pixel_buffer ∧
    (plot_cells cells color v).current_back_buffer = v.current_back_buffer ∧
    (plot_cells cells color v).chars = v.chars ∧
    (plot_cells cells color v).displayed = v.displayed ∧
    (plot_cells cells color v).hidden = v.hidden := by
  rw [plot_cells_eq]
  exact ⟨rfl, rfl, rfl, rfl, rfl, rfl, rfl⟩

theorem plot_pixel_cells (x y color : Int) (v : Video) :
    plot_pixel x y color v = plot_cells [(x, y)] color v := rfl

theorem nodup_box_cells (x1 y1 x2 y2 : Int) : (box_cells x1 y1 x2 y2).Nodup := by
  unfold box_cells
  have hys := nodup_int_range y1 y2
  generalize int_range y1 y2 = ys at hys
  induction ys with
  | nil => simp
  | cons y ys ih =>
    rw [List.flatMap_cons, List.nodup_append]
    rw [List.nodup_cons] at hys
    refine ⟨?_, ih hys.2, ?_⟩
    · refine List.Nodup.map ?_ (nodup_int_range x1 x2)
      intro a b h
      exact congrArg Prod.fst h
    · intro p hp hq
      simp only [List.mem_map] at hp
      simp only [List.mem_flatMap, List.mem_map] at hq
      obtain ⟨x, -, rfl⟩ := hp
      obtain ⟨y', hy', x', -, he⟩ := hq
      have : y' = y := congrArg Prod.snd he
      exact hys.1 (this ▸ hy')

theorem nodup_box_offsets (x1 y1 x2 y2 : Int) (hx1 : 0 ≤ x1) (hx2 : x2 < 512) :
    ((box_cells x1 y1 x2 y2).map fun p => pixel_offset p.1 p.2).Nodup := by
  refine List.Nodup.map_on ?_ (nodup_box_cells x1 y1 x2 y2)
  intro p hp q hq h
  rw [mem_box_cells] at hp hq
  obtain ⟨e1, e2⟩ := pixel_offset_inj p.1 p.2 q.1 q.2 (by omega) (by omega) (by omega)
    (by omega) h
  exact Prod.ext e1 e2

theorem read_plot_pixel (x y color : Int) (v : Video) (hs : in_screen v x y) (b : BufId)
    (a : Int) :
    read_pixel (plot_pixel x y color v).pixels b a =
      if b = v.current_back_buffer ∧ pixel_offset x y = a then color
      else read_pixel v.pixels b a := by
  rw [plot_pixel_eq, if_pos hs]
  show read_pixel (_ :: v.pixels) b a = _
  rw [read_pixel_cons]
  apply if_congr _ rfl rfl
  exact ⟨fun hh => ⟨hh.1.symm, hh.2⟩, fun hh => ⟨hh.1.symm, hh.2⟩⟩

/-- C12: for 0 <= x1 <= x2 < resolution_x <= 512 and 0 <= y1 <= y2 < resolution_y,
draw_box leaves the colour in every cell (x, y) of the back buffer with x1 <= x <= x2 and
y1 <= y <= y2; these are the (x2 - x1 + 1) * (y2 - y1 + 1) cells the loops visit, each
once and at pairwise distinct addresses; every other cell of the back buffer, every other
halfword of it and every other buffer are unchanged. -/
theorem draw_box_fill (x1 y1 x2 y2 color : Int) (v : Video)
    (hx1 : 0 ≤ x1) (hx : x1 ≤ x2) (hx2 : x2 < v.resolution_x)
    (hy1 : 0 ≤ y1) (hy : y1 ≤ y2) (hy2 : y2 < v.resolution_y)
    (hres : v.resolution_x ≤ 512) :
    (∀ x y, x1 ≤ x → x ≤ x2 → y1 ≤ y → y ≤ y2 →
      cell (draw_box x1 y1 x2 y2 color v) v.current_back_buffer x y = color) ∧
    (∀ x y, 0 ≤ x → x < v.resolution_x → ¬ (x1 ≤ x ∧ x ≤ x2 ∧ y1 ≤ y ∧ y ≤ y2) →
      cell (draw_box x1 y1 x2 y2 color v) v.current_back_buffer x y =
        cell v v.current_back_buffer x y) ∧
    (∀ a, (∀ x y, x1 ≤ x → x ≤ x2 → y1 ≤ y → y ≤ y2 → a ≠ pixel_offset x y) →
      read_pixel (draw_box x1 y1 x2 y2 color v).pixels v.current_back_buffer a =
        read_pixel v.pixels v.current_back_buffer a) ∧
    (∀ p, p ∈ box_cells x1 y1 x2 y2 ↔ (x1 ≤ p.1 ∧ p.1 ≤ x2) ∧ (y1 ≤ p.2 ∧ p.2 ≤ y2)) ∧
    ((box_cells x1 y1 x2 y2).length : Int) = (x2 - x1 + 1) * (y2 - y1 + 1) ∧
    ((box_cells x1 y1 x2 y2).map fun p => pixel_offset p.1 p.2).Nodup ∧
    (∀ b a, b ≠ v.current_back_buffer →
      read_pixel (draw_box x1 y1 x2 y2 color v).pixels b a = read_pixel v.pixels b a) := by
  have hr := read_plot_cells (box_cells x1 y1 x2 y2) color v
  rw [← draw_box_eq] at hr
  refine ⟨?_, ?_, ?_, mem_box_cells x1 y1 x2 y2, ?_, nodup_box_offsets x1 y1 x2 y2 hx1 (by omega),
    ?_⟩
  · intro x y h1 h2 h3 h4
    unfold cell
    rw [hr, if_pos]
    refine ⟨rfl, (x, y), (mem_box_cells _ _ _ _ _).mpr ⟨⟨h1, h2⟩, h3, h4⟩, ?_, rfl⟩
    exact ⟨by omega, by omega, by omega, by omega⟩
  · intro x y h0 h1 hn
    unfold cell
    rw [hr, if_neg]
    rintro ⟨-, p, hp, hs, he⟩
    rw [mem_box_cells] at hp
    obtain ⟨e1, e2⟩ := pixel_offset_inj p.1 p.2 x y (by omega) (by omega) h0 (by omega) he
    apply hn
    rw [← e1, ← e2]
    exact ⟨hp.1.1, hp.1.2, hp.2.1, hp.2.2⟩
  · intro a ha
    rw [hr, if_neg]
    rintro ⟨-, p, hp, -, he⟩
    rw [mem_box_cells] at hp
    exact ha p.1 p.2 hp.1.1 hp.1.2 hp.2.1 hp.2.2 he.symm
  · rw [length_box_cells]
    have e1 : (((y2 + 1 - y1).toNat : Nat) : Int) = y2 - y1 + 1 := by omega
    have e2 : (((x2 + 1 - x1).toNat : Nat) : Int) = x2 - x1 + 1 := by omega
    rw [Nat.cast_mul, e1, e2]
    ring
  · intro b a hb
    rw [hr, if_neg (fun hh => hb hh.1)]

theorem draw_box_fill_witness :
    (∀ x y, 0 ≤ x → x ≤ 5 → 0 ≤ y → y ≤ 5 →
      cell (draw_box 0 0 5 5 (to_short 0xFFFF) blank_video) BufId.two x y = to_short 0xFFFF) ∧
    ((box_cells 0 0 5 5).length : Int) = 36 :=
  ⟨(draw_box_fill 0 0 5 5 (to_short 0xFFFF) blank_video (by decide) (by decide) (by decide)
      (by decide) (by decide) (by decide) (by decide)).1,
   (draw_box_fill 0 0 5 5 (to_short 0xFFFF) blank_video (by decide) (by decide) (by decide)
      (by decide) (by decide) (by decide) (by decide)).2.2.2.2.1⟩

theorem draw_box_frame (x1 y1 x2 y2 color : Int) (v : Video) :
    (draw_box x1 y1 x2 y2 color v).resolution_x = v.resolution_x ∧
    (draw_box x1 y1 x2 y2 color v).resolution_y = v.resolution_y ∧
    (draw_box x1 y1 x2 y2 color v).pixel_buffer = v.pixel_buffer ∧
    (draw_box x1 y1 x2 y2 color v).current_back_buffer = v.current_back_buffer ∧
    (draw_box x1 y1 x2 y2 color v).chars = v.chars ∧
    (draw_box x1 y1 x2 y2 color v).displayed = v.displayed ∧
    (draw_box x1 y1 x2 y2 color v).hidden = v.hidden := by
  rw [draw_box_eq]
  exact plot_cells_frame _ _ _

/-- C13: swap_buffers exchanges the front and back pointers and touches no pixel; for a
state with two distinct buffers, after swap_buffers followed by any draw_box the buffer
now tagged front (the back buffer of before) holds what it held, every visited cell
inside the screen of the buffer that was front before holds the colour and the rest of
that buffer is unchanged, and the box leaves the pointers alone; sync_vga leaves both
pointers and all pixels unchanged. -/
theorem swap_then_box (x1 y1 x2 y2 color : Int) (v : Video)
    (h : v.pixel_buffer ≠ v.current_back_buffer) :
    (swap_buffers v).pixel_buffer = v.current_back_buffer ∧
    (swap_buffers v).current_back_buffer = v.pixel_buffer ∧
    (swap_buffers v).pixels = v.pixels ∧
    (draw_box x1 y1 x2 y2 color (swap_buffers v)).pixel_buffer = v.current_back_buffer ∧
    (draw_box x1 y1 x2 y2 color (swap_buffers v)).current_back_buffer = v.pixel_buffer ∧
    (∀ a, read_pixel (draw_box x1 y1 x2 y2 color (swap_buffers v)).pixels
        (swap_buffers v).pixel_buffer a = read_pixel v.pixels v.current_back_buffer a) ∧
    (∀ x y, x1 ≤ x → x ≤ x2 → y1 ≤ y → y ≤ y2 → in_screen v x y →
      cell (draw_box x1 y1 x2 y2 color (swap_buffers v)) v.pixel_buffer x y = color) ∧
    (∀ a, (∀ x y, x1 ≤ x → x ≤ x2 → y1 ≤ y → y ≤ y2 → in_screen v x y →
        a ≠ pixel_offset x y) →
      read_pixel (draw_box x1 y1 x2 y2 color (swap_buffers v)).pixels v.pixel_buffer a =
        read_pixel v.pixels v.pixel_buffer a) ∧
    (sync_vga v).pixel_buffer = v.pixel_buffer ∧
    (sync_vga v).current_back_buffer = v.current_back_buffer ∧
    (sync_vga v).pixels = v.pixels := by
  have hr := read_plot_cells (box_cells x1 y1 x2 y2) color (swap_buffers v)
  rw [← draw_box_eq] at hr
  have hf := draw_box_frame x1 y1 x2 y2 color (swap_buffers v)
  refine ⟨rfl, rfl, rfl, hf.2.2.1, hf.2.2.2.1, ?_, ?_, ?_, rfl, rfl, rfl⟩
  · intro a
    rw [hr, if_neg]
    · rfl
    · rintro ⟨hb, -⟩
      exact h hb.symm
  · intro x y h1 h2 h3 h4 hs
    unfold cell
    rw [hr, if_pos]
    exact ⟨rfl, (x, y), (mem_box_cells _ _ _ _ _).mpr ⟨⟨h1, h2⟩, h3, h4⟩, hs, rfl⟩
  · intro a ha
    rw [hr, if_neg]
    · rfl
    · rintro ⟨-, p, hp, hs, he⟩
      rw [mem_box_cells] at hp
      exact ha p.1 p.2 hp.1.1 hp.1.2 hp.2.1 hp.2.2 hs he.symm

theorem swap_then_box_witness :
    (swap_buffers blank_video).pixel_buffer = BufId.two ∧
    (∀ a, read_pixel (draw_box 0 0 5 5 7 (swap_buffers blank_video)).pixels BufId.two a = 0) ∧
    cell (draw_box 0 0 5 5 7 (swap_buffers blank_video)) BufId.one 5 5 = 7 :=
  ⟨(swap_then_box 0 0 5 5 7 blank_video (by decide)).1,
   (swap_then_box 0 0 5 5 7 blank_video (by decide)).2.2.2.2.2.1,
   (swap_then_box 0 0 5 5 7 blank_video (by decide)).2.2.2.2.2.2.1 5 5 (by decide) (by decide)
     (by decide) (by decide) (by decide)⟩

/-- C14: in a state where the controller displays the front buffer and hides the back
buffer, the first two commands of a tick (clear, sync) leave the controller displaying
the very buffer current_back_buffer points to, because sync_vga triggers the exchange
without exchanging the pointers; every plot_pixel of the draws that follow inside the
screen then stores its colour in the displayed buffer, while swap_buffers on its own keeps
the pointers in step with the controller.  No other start state avoids this: whenever
the controller has two distinct buffers, either clear_screen itself writes the displayed
buffer or the draws after the sync do. -/
theorem draws_hit_displayed_buffer (x y color : Int) (v : Video) (hs : in_screen v x y) :
    (v.displayed = v.pixel_buffer → v.hidden = v.current_back_buffer →
      (sync_vga (clear_screen v)).displayed = (sync_vga (clear_screen v)).current_back_buffer ∧
      cell (plot_pixel x y color (sync_vga (clear_screen v)))
        (sync_vga (clear_screen v)).displayed x y = color ∧
      (swap_buffers v).displayed = (swap_buffers v).pixel_buffer ∧
      (swap_buffers v).hidden = (swap_buffers v).current_back_buffer) ∧
    (v.displayed ≠ v.hidden →
      v.current_back_buffer = v.displayed ∨
      ((sync_vga (clear_screen v)).current_back_buffer = (sync_vga (clear_screen v)).displayed ∧
        cell (plot_pixel x y color (sync_vga (clear_screen v)))
          (sync_vga (clear_screen v)).displayed x y = color)) := by
  have hc : ∀ b, (sync_vga (clear_screen v)).current_back_buffer = b →
      cell (plot_pixel x y color (sync_vga (clear_screen v))) b x y = color := by
    intro b hb
    unfold cell
    rw [read_plot_pixel x y color (sync_vga (clear_screen v)) hs, if_pos ⟨hb.symm, rfl⟩]
  constructor
  · intro hd hh
    have h1 : (sync_vga (clear_screen v)).displayed =
        (sync_vga (clear_screen v)).current_back_buffer := hh
    exact ⟨h1, hc _ h1.symm, hh, hd⟩
  · intro hne
    by_cases hb : v.current_back_buffer = v.displayed
    · exact Or.inl hb
    · right
      have h1 : (sync_vga (clear_screen v)).current_back_buffer =
          (sync_vga (clear_screen v)).displayed := by
        show v.current_back_buffer = v.hidden
        revert hne hb
        cases v.current_back_buffer <;> cases v.displayed <;> cases v.hidden <;> simp
      exact ⟨h1, hc _ h1⟩

theorem draws_hit_displayed_buffer_witness :
    (sync_vga (clear_screen blank_video)).displayed = BufId.two ∧
    cell (plot_pixel 5 5 7 (sync_vga (clear_screen blank_video))) BufId.two 5 5 = 7 :=
  ⟨((draws_hit_displayed_buffer 5 5 7 blank_video (by decide)).1 rfl rfl).1,
   ((draws_hit_displayed_buffer 5 5 7 blank_video (by decide)).1 rfl rfl).2.1⟩

theorem int_range_two (a : Int) : int_range a (a + 1) = [a, a + 1] := by
  rw [int_range_shift]
  have : int_range 0 1 = [0, 1] := by decide
  rw [this]
  simp

theorem draw_line_horizontal (x y color : Int) (v : Video) :
    draw_line x y (x + 1) y color v =
      plot_pixel (x + 1) (y - 1) color (plot_pixel x y color v) := by
  unfold draw_line
  have e1 : (decide (|y - y| > |x + 1 - x|)) = false := by simp
  have e2 : ¬ (x > x + 1) := by omega
  simp only [e1, Bool.false_eq_true, if_false]
  simp only [gt_iff_lt, e2, if_false, int_range_two, List.foldl_cons, List.foldl_nil,
    draw_line_step, Bool.false_eq_true]
  have e4 : x + 1 - x = 1 := by ring
  have e5 : c_div 1 2 = 0 := by decide
  have e6 : ¬ ((0 : Int) - 1 ≥ 0) := by decide
  simp only [e4, sub_self, abs_zero, e5, neg_zero, add_zero, ge_iff_le, le_refl, if_true,
    lt_irrefl, if_false]
  simp only [ge_iff_le] at e6
  simp only [e6, if_false]
  rfl

theorem draw_line_vertical (x y color : Int) (v : Video) :
    draw_line x y x (y + 1) color v =
      plot_pixel (x - 1) (y + 1) color (plot_pixel x y color v) := by
  unfold draw_line
  have e1 : (decide (|y + 1 - y| > |x - x|)) = true := by simp
  have e2 : ¬ (y > y + 1) := by omega
  simp only [e1, if_true]
  simp only [gt_iff_lt, e2, if_false, int_range_two, List.foldl_cons, List.foldl_nil,
    draw_line_step, if_true]
  have e4 : y + 1 - y = 1 := by ring
  have e5 : c_div 1 2 = 0 := by decide
  have e6 : ¬ ((0 : Int) - 1 ≥ 0) := by decide
  simp only [e4, sub_self, abs_zero, e5, neg_zero, add_zero, ge_iff_le, le_refl, if_true,
    lt_irrefl, if_false]
  simp only [ge_iff_le] at e6
  simp only [e6, if_false]
  rfl

theorem read_two_plots (xa ya xb yb color : Int) (v : Video) (b : BufId) (a : Int)
    (h1 : pixel_offset xa ya ≠ a) (h2 : pixel_offset xb yb ≠ a) :
    read_pixel (plot_pixel xb yb color (plot_pixel xa ya color v)).pixels b a =
      read_pixel v.pixels b a := by
  rw [plot_pixel_cells, plot_pixel_cells, read_plot_cells, read_plot_cells, if_neg, if_neg]
  · rintro ⟨-, p, hp, -, he⟩
    rw [List.mem_singleton] at hp
    subst hp
    exact h1 he
  · rintro ⟨-, p, hp, -, he⟩
    rw [List.mem_singleton] at hp
    subst hp
    exact h2 he

/-- C15: the line between the horizontally adjacent cells (x, y) and (x + 1, y) is drawn
as the two cells (x, y) and (x + 1, y - 1), and the line between the vertically adjacent
cells (x, y) and (x, y + 1) as the two cells (x, y) and (x - 1, y + 1): with deltax = 1
and deltay = 0 the error term starts at 0, so the test error >= 0 steps y after the first
cell.  The halfword of the second endpoint is left as it was in every buffer; on a blank
320x240 screen the line from (0, 5) to (1, 5) leaves cell (1, 5) at 0 and colours cell
(1, 4). -/
theorem draw_line_misses_endpoint (x y color : Int) (v : Video) :
    draw_line x y (x + 1) y color v =
      plot_pixel (x + 1) (y - 1) color (plot_pixel x y color v) ∧
    (∀ b, read_pixel (draw_line x y (x + 1) y color v).pixels b (pixel_offset (x + 1) y) =
      read_pixel v.pixels b (pixel_offset (x + 1) y)) ∧
    draw_line x y x (y + 1) color v =
      plot_pixel (x - 1) (y + 1) color (plot_pixel x y color v) ∧
    (∀ b, read_pixel (draw_line x y x (y + 1) color v).pixels b (pixel_offset x (y + 1)) =
      read_pixel v.pixels b (pixel_offset x (y + 1))) ∧
    cell (draw_line 0 5 1 5 7 blank_video) BufId.two 1 5 = 0 ∧
    cell (draw_line 0 5 1 5 7 blank_video) BufId.two 1 4 = 7 := by
  refine ⟨draw_line_horizontal x y color v, fun b => ?_, draw_line_vertical x y color v,
    fun b => ?_, by decide, by decide⟩
  · rw [draw_line_horizontal]
    apply read_two_plots <;> unfold pixel_offset <;> omega
  · rw [draw_line_vertical]
    apply read_two_plots <;> unfold pixel_offset <;> omega

theorem read_char_cons (e : Int × Char) (m : List (Int × Char)) (a : Int) :
    read_char (e :: m) a = if e.1 = a then e.2 else read_char m a := rfl

/-- The loop of `draw_text` on a string without NUL started at a non-negative offset. -/
theorem draw_text_loop_spec (text : List Char) (offset : Int) (v : Video)
    (h0 : 0 ≤ offset) (hn : Char.ofNat 0 ∉ text) :
    ∃ v', draw_text_loop text offset v = some v' ∧
      v' = { v with chars := v'.chars } ∧
      ∀ a, read_char v'.chars a =
        if offset ≤ a ∧ a < offset + text.length ∧ a < CHAR_WIDTH * CHAR_HEIGHT then
          text.getD (a - offset).toNat ' '
        else read_char v.chars a := by
  induction text generalizing offset v with
  | nil =>
    refine ⟨v, rfl, rfl, fun a => ?_⟩
    rw [if_neg]
    simp only [List.length_nil, Nat.cast_zero, add_zero]
    omega
  | cons c text ih =>
    have hc : c ≠ Char.ofNat 0 := fun h => hn (h ▸ List.mem_cons_self _ _)
    have ht : Char.ofNat 0 ∉ text := fun h => hn (List.mem_cons_of_mem _ h)
    unfold draw_text_loop
    by_cases hlt : offset < CHAR_WIDTH * CHAR_HEIGHT
    · rw [if_pos ⟨hc, hlt⟩, if_neg (by omega)]
      obtain ⟨v', hv', hf, hr⟩ := ih (offset + 1)
        { v with chars := (offset, c) :: v.chars } (by omega) ht
      refine ⟨v', hv', ?_, fun a => ?_⟩
      · rw [hf]
      · rw [hr]
        simp only [List.length_cons, Nat.cast_add, Nat.cast_one]
        by_cases ha : a = offset
        · subst ha
          rw [if_neg (by omega), if_pos ⟨le_refl _, by omega, hlt⟩, read_char_cons,
            if_pos rfl]
          simp
        · by_cases hin : offset + 1 ≤ a ∧ a < offset + 1 + text.length ∧
              a < CHAR_WIDTH * CHAR_HEIGHT
          · rw [if_pos hin, if_pos ⟨by omega, by omega, hin.2.2⟩]
            have : (a - offset).toNat = (a - (offset + 1)).toNat + 1 := by omega
            rw [this, List.getD_cons_succ]
          · rw [if_neg hin, if_neg (by omega), read_char_cons, if_neg (fun h => ha h.symm)]
    · rw [if_neg (fun h => hlt h.2)]
      refine ⟨v, rfl, rfl, fun a => ?_⟩
      rw [if_neg]
      omega

/-- C16 as stated fails: the text "AB" drawn at column 79 of row 0 puts its second
character into cell (0, 1), the first cell of the next row, which held a space. -/
theorem draw_text_wraps :
    (draw_text 79 0 ['A', 'B'] blank_video).map (fun v => (char_cell v 79 0, char_cell v 0 1))
      = some ('A', 'B') ∧
    char_cell blank_video 0 1 = ' ' := by
  decide

/-- C16, amended: for 0 <= x < CHAR_WIDTH, 0 <= y < CHAR_HEIGHT and every string s,
draw_text returns and writes s[k] at offset y * CHAR_WIDTH + x + k of the character
buffer, that is into cell ((x + k) mod CHAR_WIDTH, y + (x + k) div CHAR_WIDTH), for each
k < len(s) with y * CHAR_WIDTH + x + k < CHAR_WIDTH * CHAR_HEIGHT; it changes no other
place of the character buffer and nothing else of the state. -/
theorem draw_text_spec (x y : Int) (s : List Char) (v : Video)
    (hx0 : 0 ≤ x) (hx : x < CHAR_WIDTH) (hy0 : 0 ≤ y) (hy : y < CHAR_HEIGHT)
    (hs : Char.ofNat 0 ∉ s) :
    ∃ v', draw_text x y s v = some v' ∧
      (∀ k : Nat, k < s.length → y * CHAR_WIDTH + x + k < CHAR_WIDTH * CHAR_HEIGHT →
        read_char v'.chars (y * CHAR_WIDTH + x + k) = s.getD k ' ' ∧
        char_cell v' ((x + k) % CHAR_WIDTH) (y + (x + k) / CHAR_WIDTH) = s.getD k ' ') ∧
      (∀ a, ¬ (y * CHAR_WIDTH + x ≤ a ∧ a < y * CHAR_WIDTH + x + s.length ∧
          a < CHAR_WIDTH * CHAR_HEIGHT) → read_char v'.chars a = read_char v.chars a) ∧
      v' = { v with chars := v'.chars } := by
  obtain ⟨v', hv', hf, hr⟩ := draw_text_loop_spec s (y * CHAR_WIDTH + x) v
    (by have := mul_nonneg hy0 (show (0 : Int) ≤ CHAR_WIDTH by decide); omega) hs
  refine ⟨v', ?_, fun k hk hlt => ?_, fun a ha => ?_, hf⟩
  · unfold draw_text
    rw [if_neg (by omega)]
    exact hv'
  · have h1 : read_char v'.chars (y * CHAR_WIDTH + x + k) = s.getD k ' ' := by
      rw [hr, if_pos ⟨by omega, by omega, hlt⟩]
      congr 1
      omega
    refine ⟨h1, ?_⟩
    unfold char_cell
    rw [← h1]
    congr 1
    have := Int.emod_add_ediv (x + k) CHAR_WIDTH
    rw [add_mul]
    linarith
  · rw [hr, if_neg ha]

theorem draw_text_spec_witness :
    ∃ v', draw_text 79 0 ['A', 'B'] blank_video = some v' ∧
      char_cell v' 79 0 = 'A' ∧ char_cell v' 0 1 = 'B' := by
  obtain ⟨v', h, hk, -, -⟩ := draw_text_spec 79 0 ['A', 'B'] blank_video (by decide)
    (by decide) (by decide) (by decide) (by decide)
  exact ⟨v', h, (hk 0 (by decide) (by decide)).2, (hk 1 (by decide) (by decide)).2⟩

theorem int_range_append (a b c : Int) (h1 : a ≤ b + 1) (h2 : b ≤ c) :
    int_range a c = int_range a b ++ int_range (b + 1) c := by
  unfold int_range
  have e : (c + 1 - a).toNat = (b + 1 - a).toNat + (c + 1 - (b + 1)).toNat := by omega
  rw [e, List.range_add, List.map_append, List.map_map]
  congr 1
  apply List.map_congr_left
  intro k _
  simp only [Function.comp_apply, Nat.cast_add]
  omega

/-- A row of plots is what `plot_cells` does on the cells of the row. -/
theorem row_eq (xs : List Int) (y color : Int) (v : Video) :
    xs.foldl (fun v x => plot_pixel x y color v) v = plot_cells (xs.map fun x => (x, y)) color v := by
  unfold plot_cells
  rw [List.foldl_map]

theorem row_off_screen (xs : List Int) (y color : Int) (v : Video)
    (h : y < 0 ∨ v.resolution_y ≤ y) :
    xs.foldl (fun v x => plot_pixel x y color v) v = v := by
  induction xs with
  | nil => rfl
  | cons x xs ih =>
    rw [List.foldl_cons]
    have : plot_pixel x y color v = v := by
      unfold plot_pixel
      rw [if_pos (by omega)]
    rw [this, ih]

theorem rows_off_screen (xs ys : List Int) (color : Int) (v : Video)
    (h : ∀ y ∈ ys, y < 0 ∨ v.resolution_y ≤ y) :
    ys.foldl (fun v y => xs.foldl (fun v x => plot_pixel x y color v) v) v = v := by
  induction ys with
  | nil => rfl
  | cons y ys ih =>
    rw [List.foldl_cons, row_off_screen xs y color v (h y (List.mem_cons_self _ _))]
    exact ih fun y' hy' => h y' (List.mem_cons_of_mem _ hy')

/-- Rows below the screen add nothing to a box. -/
theorem draw_box_clip (x1 y1 x2 y2 color : Int) (v : Video) (h : v.resolution_y ≤ y2 + 1) :
    draw_box x1 y1 x2 y2 color v = draw_box x1 y1 x2 (v.resolution_y - 1) color v := by
  unfold draw_box
  by_cases hr : y1 ≤ v.resolution_y
  · rw [int_range_append y1 (v.resolution_y - 1) y2 (by omega) (by omega), List.foldl_append]
    have hf := draw_box_frame x1 y1 x2 (v.resolution_y - 1) color v
    unfold draw_box at hf
    apply rows_off_screen
    intro y hy
    rw [mem_int_range] at hy
    right
    rw [hf.2.1]
    omega
  · have e : int_range y1 (v.resolution_y - 1) = [] := by
      unfold int_range
      have : (v.resolution_y - 1 + 1 - y1).toNat = 0 := by omega
      rw [this]
      rfl
    rw [e]
    apply rows_off_screen
    intro y hy
    rw [mem_int_range] at hy
    right
    omega

theorem draw_pipe_row_eq (x y color : Int) (v : Video)
    (hx : x + (PIPE_WIDTH - 1) < v.resolution_x) :
    draw_pipe_row x y color v =
      (int_range x (x + (PIPE_WIDTH - 1))).foldl (fun v x => plot_pixel x y color v) v := by
  unfold draw_pipe_row
  have ht : ((int_range 0 (PIPE_WIDTH - 1)).takeWhile fun i => x + i < v.resolution_x) =
      int_range 0 (PIPE_WIDTH - 1) := by
    rw [List.takeWhile_eq_self_iff]
    intro i hi
    rw [mem_int_range] at hi
    simp only [decide_eq_true_eq]
    omega
  rw [ht, int_range_shift, List.foldl_map]

theorem draw_pipe_rows_eq (x color : Int) (ys : List Int) (v : Video)
    (hx : x + (PIPE_WIDTH - 1) < v.resolution_x) :
    ys.foldl (fun v y => draw_pipe_row x y color v) v =
      ys.foldl (fun v y =>
        (int_range x (x + (PIPE_WIDTH - 1))).foldl (fun v x => plot_pixel x y color v) v) v := by
  induction ys generalizing v with
  | nil => rfl
  | cons y ys ih =>
    rw [List.foldl_cons, List.foldl_cons, draw_pipe_row_eq x y color v hx]
    apply ih
    rw [row_eq, (plot_cells_frame _ _ _).1]
    exact hx

/-- What `draw_pipe_direct` draws when the pipe is fully on screen. -/
theorem draw_pipe_direct_eq (x top gap color : Int) (v : Video)
    (hx0 : 0 ≤ x) (hx : x + PIPE_WIDTH < v.resolution_x) (ht : 0 ≤ top)
    (hb : top + gap < v.resolution_y) :
    draw_pipe_direct x top gap color v =
      draw_box x (top + gap) (x + PIPE_WIDTH - 1) (v.resolution_y - 1) color
        (draw_box x 0 (x + PIPE_WIDTH - 1) (top - 1) color v) := by
  have hx' : x + (PIPE_WIDTH - 1) < v.resolution_x := by omega
  have e0 : x + PIPE_WIDTH - 1 = x + (PIPE_WIDTH - 1) := by ring
  have htop : (int_range 0 ((if top < v.resolution_y then top else v.resolution_y) - 1)).foldl
      (fun v y => draw_pipe_row x y color v) v =
      draw_box x 0 (x + PIPE_WIDTH - 1) (top - 1) color v := by
    rw [draw_pipe_rows_eq x color _ v hx', e0]
    by_cases h : top < v.resolution_y
    · rw [if_pos h]
      rfl
    · rw [if_neg h, draw_box_clip x 0 (x + (PIPE_WIDTH - 1)) (top - 1) color v (by omega)]
      rfl
  unfold draw_pipe_direct
  rw [if_neg (by omega)]
  dsimp only
  rw [htop]
  have hf := draw_box_frame x 0 (x + PIPE_WIDTH - 1) (top - 1) color v
  rw [hf.2.1, if_pos hb, draw_pipe_rows_eq x color _ _ (by rw [hf.1]; exact hx'), e0]
  rfl

theorem cell_draw_box (x1 y1 x2 y2 color : Int) (v : Video) (b : BufId) (x y : Int) :
    cell (draw_box x1 y1 x2 y2 color v) b x y =
      if b = v.current_back_buffer ∧
          ∃ p ∈ box_cells x1 y1 x2 y2, in_screen v p.1 p.2 ∧
            pixel_offset p.1 p.2 = pixel_offset x y then color
      else cell v b x y := by
  unfold cell
  rw [draw_box_eq, read_plot_cells]

/-- C19 as stated fails: on a blank 320x240 screen the pipe at x = 10 with top 100 and gap
60 leaves cell (30, 0), in column x + PIPE_WIDTH, and cell (10, 100), in row top, at 0,
while the two boxes of the claim colour both. -/
theorem pipe_differs_from_claimed_boxes :
    cell (draw_pipe_direct 10 100 60 2016 blank_video) BufId.two 30 0 = 0 ∧
    cell (draw_pipe_direct 10 100 60 2016 blank_video) BufId.two 10 100 = 0 ∧
    cell (draw_box 10 (100 + 60) (10 + PIPE_WIDTH) (240 - 1) 2016
      (draw_box 10 0 (10 + PIPE_WIDTH) 100 2016 blank_video)) BufId.two 30 0 = 2016 ∧
    cell (draw_box 10 (100 + 60) (10 + PIPE_WIDTH) (240 - 1) 2016
      (draw_box 10 0 (10 + PIPE_WIDTH) 100 2016 blank_video)) BufId.two 10 100 = 2016 := by
  have hp := draw_pipe_direct_eq 10 100 60 2016 blank_video (by decide) (by decide) (by decide)
    (by decide)
  have hn : ∀ (x1 y1 x2 y2 x y : Int) (v : Video),
      (∀ p : Int × Int, x1 ≤ p.1 → p.1 ≤ x2 → y1 ≤ p.2 → p.2 ≤ y2 →
        pixel_offset p.1 p.2 ≠ pixel_offset x y) →
      cell (draw_box x1 y1 x2 y2 2016 v) BufId.two x y = cell v BufId.two x y := by
    intro x1 y1 x2 y2 x y v h
    rw [cell_draw_box, if_neg]
    rintro ⟨-, p, hp, -, he⟩
    rw [mem_box_cells] at hp
    exact h p hp.1.1 hp.1.2 hp.2.1 hp.2.2 he
  have hy : ∀ (x1 y1 x2 y2 x y : Int) (v : Video), v.current_back_buffer = BufId.two →
      x1 ≤ x → x ≤ x2 → y1 ≤ y → y ≤ y2 → in_screen v x y →
      cell (draw_box x1 y1 x2 y2 2016 v) BufId.two x y = 2016 := by
    intro x1 y1 x2 y2 x y v hb h1 h2 h3 h4 hs
    rw [cell_draw_box, if_pos]
    exact ⟨hb.symm, (x, y), (mem_box_cells _ _ _ _ _).mpr ⟨⟨h1, h2⟩, h3, h4⟩, hs, rfl⟩
  have hw : PIPE_WIDTH = 20 := rfl
  refine ⟨?_, ?_, ?_, ?_⟩
  · rw [hp, hn, hn]
    · rfl
    · intro p h1 h2 h3 h4
      unfold pixel_offset
      omega
    · intro p h1 h2 h3 h4
      unfold pixel_offset
      have : blank_video.resolution_y = 240 := rfl
      omega
  · rw [hp, hn, hn]
    · rfl
    · intro p h1 h2 h3 h4
      unfold pixel_offset
      omega
    · intro p h1 h2 h3 h4
      unfold pixel_offset
      have : blank_video.resolution_y = 240 := rfl
      omega
  · rw [hn]
    · exact hy _ _ _ _ _ _ _ rfl (by decide) (by decide) (by decide) (by decide) (by decide)
    · intro p h1 h2 h3 h4
      unfold pixel_offset
      omega
  · rw [hn]
    · exact hy _ _ _ _ _ _ _ rfl (by decide) (by decide) (by decide) (by decide) (by decide)
    · intro p h1 h2 h3 h4
      unfold pixel_offset
      omega

/-- C19, amended: for a pipe fully on screen (0 <= x, x + PIPE_WIDTH < resolution_x,
0 <= top, top + gap < resolution_y) draw_pipe_direct leaves the state, and so the back
buffer, exactly as draw_box(x, 0, x + PIPE_WIDTH - 1, top - 1, color) followed by
draw_box(x, top + gap, x + PIPE_WIDTH - 1, resolution_y - 1, color) does. -/
theorem pipe_equals_two_boxes (x top gap color : Int) (v : Video)
    (hx0 : 0 ≤ x) (hx : x + PIPE_WIDTH < v.resolution_x) (ht : 0 ≤ top)
    (hb : top + gap < v.resolution_y) :
    draw_pipe_direct x top gap color v =
      draw_box x (top + gap) (x + PIPE_WIDTH - 1) (v.resolution_y - 1) color
        (draw_box x 0 (x + PIPE_WIDTH - 1) (top - 1) color v) :=
  draw_pipe_direct_eq x top gap color v hx0 hx ht hb

theorem pipe_equals_two_boxes_witness :
    draw_pipe_direct 10 100 60 2016 blank_video =
      draw_box 10 (100 + 60) (10 + PIPE_WIDTH - 1) (blank_video.resolution_y - 1) 2016
        (draw_box 10 0 (10 + PIPE_WIDTH - 1) (100 - 1) 2016 blank_video) :=
  pipe_equals_two_boxes 10 100 60 2016 blank_video (by decide) (by decide) (by decide)
    (by decide)

theorem device_write_stale_pipe (sc : Scanner) (prior buffer : List Char) (copy_fails : Bool)
    (v : Video) (x top gap : Int) (color : Nat) (h : sc.pipe prior = some (x, top, gap, color)) :
    device_write sc prior buffer copy_fails v =
      some ((buffer.length : Int), draw_pipe_direct x top gap (to_short color) v) := by
  unfold device_write
  rw [h]

theorem device_write_rejects (sc : Scanner) (prior buffer : List Char) (v : Video)
    (hp : sc.pipe prior = none) (hlen : buffer.length < BUF_LEN)
    (h1 : (buffer.takeWhile fun c => c ≠ Char.ofNat 0).take 5 ≠ "erase".toList)
    (h2 : (buffer.takeWhile fun c => c ≠ Char.ofNat 0).take 5 = "text ".toList →
      ¬ text_well_formed sc ((buffer.takeWhile fun c => c ≠ Char.ofNat 0).drop 5))
    (h3 : (buffer.takeWhile fun c => c ≠ Char.ofNat 0).take 10 ≠ "clear_both".toList)
    (h4 : (buffer.takeWhile fun c => c ≠ Char.ofNat 0).take 4 ≠ "sync".toList)
    (h5 : (buffer.takeWhile fun c => c ≠ Char.ofNat 0).take 4 ≠ "swap".toList)
    (h6 : (buffer.takeWhile fun c => c ≠ Char.ofNat 0).take 5 ≠ "clear".toList)
    (h7 : sc.line (buffer.takeWhile fun c => c ≠ Char.ofNat 0) = none)
    (h8 : sc.box (buffer.takeWhile fun c => c ≠ Char.ofNat 0) = none) :
    device_write sc prior buffer false v = some (-EINVAL, v) := by
  unfold device_write
  rw [hp]
  dsimp only
  rw [if_neg (by omega), if_neg (by simp), if_neg (by omega), if_neg h1]
  by_cases ht : (buffer.takeWhile fun c => c ≠ Char.ofNat 0).take 5 = "text ".toList
  · rw [if_pos ht]
    have hw := h2 ht
    unfold text_well_formed at hw
    unfold device_write_text
    by_cases hc : ',' ∈ (buffer.takeWhile fun c => c ≠ Char.ofNat 0).drop 5 ∧
        ' ' ∈ (buffer.takeWhile fun c => c ≠ Char.ofNat 0).drop 5 ∧
        ((buffer.takeWhile fun c => c ≠ Char.ofNat 0).drop 5).indexOf ',' <
          ((buffer.takeWhile fun c => c ≠ Char.ofNat 0).drop 5).indexOf ' '
    · rw [if_pos hc]
      dsimp only
      have hn : sc.position (((buffer.takeWhile fun c => c ≠ Char.ofNat 0).drop 5).take
          (((buffer.takeWhile fun c => c ≠ Char.ofNat 0).drop 5).indexOf ' ')) = none := by
        rw [← Option.not_isSome_iff_eq_none]
        exact fun hs => hw ⟨hc, hs⟩
      rw [hn]
    · rw [if_neg hc]
  · rw [if_neg ht]
    unfold device_write_draw
    rw [if_neg h3, if_neg h4, if_neg h5, if_neg h6, h7, h8]

/-- C18 as stated fails: the written string "swapX" is none of the nine command formats,
yet device_write returns its length 5 and exchanges the front and back pointers, because
the command words are matched as leading characters only. -/
theorem swapx_is_executed :
    device_write c_scanner [] "swapX".toList false blank_video =
      some (5, swap_buffers blank_video) ∧
    (swap_buffers blank_video).pixel_buffer ≠ blank_video.pixel_buffer ∧
    (swap_buffers blank_video).current_back_buffer ≠ blank_video.current_back_buffer := by
  decide

/-- C18, amended: when the command buffer does not hold a stale pipe command on entry, the
copy from user space succeeds and the written string is shorter than BUF_LEN, a string
whose text does not begin with erase, clear_both, sync, swap or clear, is not a text
command with a position, and does not scan as a line, box or pipe command makes
device_write return -EINVAL and leave the whole state unchanged: both pixel buffers, the
character plane and the front/back assignment. -/
theorem unrecognized_rejected (sc : Scanner) (prior buffer : List Char) (v : Video)
    (hp : sc.pipe prior = none) (hlen : buffer.length < BUF_LEN)
    (h : ¬ accepted sc (buffer.takeWhile fun c => c ≠ Char.ofNat 0)) :
    device_write sc prior buffer false v = some (-EINVAL, v) := by
  unfold accepted at h
  simp only [not_or, not_and, Option.not_isSome_iff_eq_none] at h
  obtain ⟨h1, h2, h3, h4, h5, h6, h7, h8, -⟩ := h
  exact device_write_rejects sc prior buffer v hp hlen h1 h2 h3 h4 h5 h6 h7 h8

theorem unrecognized_rejected_witness :
    device_write c_scanner [] "hello".toList false blank_video = some (-EINVAL, blank_video) :=
  unrecognized_rejected c_scanner [] "hello".toList blank_video (by decide) (by decide)
    (by decide)

/-- C20: device_write scans for a pipe command in its local buffer before anything is
copied into it.  When the stale contents scan as a pipe command, that stale pipe is drawn
and the length returned whatever was written; when they do not, a written pipe command
(shorter than BUF_LEN, copied successfully) matches no later branch, so the call returns
-EINVAL and leaves the state unchanged. -/
theorem pipe_command_dispatch (sc : Scanner) (prior buffer : List Char) (v : Video) :
    (∀ x top gap color, sc.pipe prior = some (x, top, gap, color) → ∀ copy_fails,
      device_write sc prior buffer copy_fails v =
        some ((buffer.length : Int), draw_pipe_direct x top gap (to_short color) v)) ∧
    (sc.pipe prior = none → buffer.length < BUF_LEN → Char.ofNat 0 ∉ buffer →
      buffer.take 5 = "pipe ".toList → sc.line buffer = none → sc.box buffer = none →
      device_write sc prior buffer false v = some (-EINVAL, v)) := by
  refine ⟨fun x top gap color h copy_fails =>
    device_write_stale_pipe sc prior buffer copy_fails v x top gap color h, ?_⟩
  intro hp hlen hn h5 hl hb
  have hc : (buffer.takeWhile fun c => c ≠ Char.ofNat 0) = buffer := by
    rw [List.takeWhile_eq_self_iff]
    intro c hc
    simp only [ne_eq, decide_not, Bool.not_eq_true', decide_eq_false_iff_not]
    exact fun h => hn (h ▸ hc)
  have h4 : buffer.take 4 = "pipe".toList := by
    have := congrArg (List.take 4) h5
    rw [List.take_take] at this
    exact this
  have h10 : (buffer.take 10).take 5 = "pipe ".toList := by
    rw [List.take_take]
    exact h5
  apply device_write_rejects sc prior buffer v hp hlen <;> rw [hc]
  · rw [h5]; decide
  · intro ht
    rw [h5] at ht
    exact absurd ht (by decide)
  · intro h
    rw [h] at h10
    exact absurd h10 (by decide)
  · rw [h4]; decide
  · rw [h4]; decide
  · rw [h5]; decide
  · exact hl
  · exact hb

theorem pipe_command_dispatch_witness :
    device_write c_scanner "pipe 200,50,60 0x1F".toList "pipe 10,100,60 0x7E0".toList false
        blank_video =
      some (20, draw_pipe_direct 200 50 60 (to_short 31) blank_video) ∧
    device_write c_scanner [] "pipe 10,100,60 0x7E0".toList false blank_video =
      some (-EINVAL, blank_video) :=
  ⟨(pipe_command_dispatch c_scanner "pipe 200,50,60 0x1F".toList "pipe 10,100,60 0x7E0".toList
      blank_video).1 200 50 60 31 (by decide) false,
   (pipe_command_dispatch c_scanner [] "pipe 10,100,60 0x7E0".toList blank_video).2
      (by decide) (by decide) (by decide) (by decide) (by decide) (by decide)⟩

/-! ## Boxes emitted by the game -/

theorem safe_draw_box_out (x1 y1 x2 y2 color : Int) (g : Game) :
    (safe_draw_box x1 y1 x2 y2 color g).out = g.out ++
      [Event.video (Cmd.box (if x1 < 0 then 0 else x1) (if y1 < 0 then 0 else y1)
        (if x2 ≥ g.screen_x then g.screen_x - 1 else x2)
        (if y2 ≥ g.screen_y then g.screen_y - 1 else y2) (c_hex (c_short color)))] := rfl

/-- The colour of the bird as the command text carries it, and as the driver reads it
back into a `short int`. -/
theorem bird_color_text :
    c_hex (c_short BIRD_COLOR) = 0xFFFFFFE0 ∧
    to_short (c_hex (c_short BIRD_COLOR)).toNat = c_short BIRD_COLOR ∧
    c_hex (c_short 0x07E0) = 0x07E0 := by
  decide

/-- C21: safe_draw_box emits exactly one box command, whose coordinates are x1 raised
to 0, y1 raised to 0, x2 lowered to screen_x - 1 and y2 lowered to screen_y - 1; so
0 <= x1, 0 <= y1, x2 < screen_x and y2 < screen_y always hold, but x1 and y1 are never
lowered and x2 and y2 never raised: an x1 at or beyond screen_x is emitted as it is, and
so is a negative x2.  All four coordinates lie in range only when the emitted box is not
empty.  For the game's own pipe at x = screen_x = 320 draw_pipe emits `box 320,0 319,120`
and `box 320,180 319,239`, with x1 not below screen_x. -/
theorem safe_draw_box_clamps (x1 y1 x2 y2 color : Int) (g : Game) :
    (∃ a b c d,
      (safe_draw_box x1 y1 x2 y2 color g).out =
        g.out ++ [Event.video (Cmd.box a b c d (c_hex (c_short color)))] ∧
      a = max x1 0 ∧ b = max y1 0 ∧ c = min x2 (g.screen_x - 1) ∧ d = min y2 (g.screen_y - 1) ∧
      0 ≤ a ∧ 0 ≤ b ∧ c < g.screen_x ∧ d < g.screen_y ∧
      (a ≤ c → a < g.screen_x ∧ 0 ≤ c) ∧ (b ≤ d → b < g.screen_y ∧ 0 ≤ d) ∧
      (0 ≤ x1 → g.screen_x ≤ x1 → a = x1 ∧ ¬ a < g.screen_x) ∧
      (x2 < 0 → x2 < g.screen_x → c = x2 ∧ ¬ 0 ≤ c)) ∧
    (safe_draw_box 320 0 340 120 2016 crash_game).out =
      [Event.video (Cmd.box 320 0 319 120 2016)] ∧
    (draw_pipe ⟨320, 120⟩ crash_game).out =
      [Event.video (Cmd.box 320 0 319 120 2016),
       Event.video (Cmd.box 320 180 319 239 2016)] ∧
    crash_game.screen_x = 320 ∧ crash_game.screen_y = 240 := by
  refine ⟨⟨_, _, _, _, safe_draw_box_out x1 y1 x2 y2 color g, ?_, ?_, ?_, ?_, ?_, ?_, ?_, ?_,
    ?_, ?_, ?_, ?_⟩, by decide, by decide, rfl, rfl⟩
  all_goals ((try simp only [max_def, min_def]); split_ifs <;> omega)

theorem safe_draw_box_clamps_witness :
    ∃ a b c d,
      (safe_draw_box 320 0 340 120 2016 crash_game).out =
        crash_game.out ++ [Event.video (Cmd.box a b c d 2016)] ∧
      a = 320 ∧ ¬ a < crash_game.screen_x := by
  obtain ⟨a, b, c, d, h, -, -, -, -, -, -, -, -, -, -, hx, -⟩ :=
    (safe_draw_box_clamps 320 0 340 120 2016 crash_game).1
  exact ⟨a, b, c, d, h, hx (by decide) (by decide)⟩

theorem box_cells_empty (a b c d : Int) (h : a > c ∨ b > d) : box_cells a b c d = [] := by
  rw [List.eq_nil_iff_forall_not_mem]
  intro p hp
  rw [mem_box_cells] at hp
  omega

/-- C27: for every x1, y1, x2, y2 passed to safe_draw_box and every video state whose
resolution is screen_x by screen_y, draw_box run on the coordinates of the emitted box
command plots exactly the cells of its loop nest, every one of them inside
[0, resolution_x) x [0, resolution_y), so that each plot_pixel stores its colour (the
out-of-bounds branch is never taken) and the stores made are one per visited cell; when
the emitted x1 > x2 or y1 > y2 the loop nest is empty and draw_box leaves the state as it
was. -/
theorem emitted_box_in_bounds (x1 y1 x2 y2 color : Int) (g : Game) (v : Video)
    (hx : v.resolution_x = g.screen_x) (hy : v.resolution_y = g.screen_y) :
    ∃ a b c d,
      (safe_draw_box x1 y1 x2 y2 color g).out =
        g.out ++ [Event.video (Cmd.box a b c d (c_hex (c_short color)))] ∧
      (∀ col, draw_box a b c d col v = plot_cells (box_cells a b c d) col v) ∧
      (∀ p ∈ box_cells a b c d, in_screen v p.1 p.2) ∧
      (∀ p ∈ box_cells a b c d, ∀ col (w : Video), w.resolution_x = v.resolution_x →
        w.resolution_y = v.resolution_y →
        plot_pixel p.1 p.2 col w =
          { w with pixels := (w.current_back_buffer, pixel_offset p.1 p.2, col) :: w.pixels }) ∧
      (∀ col, (draw_box a b c d col v).pixels.length =
        v.pixels.length + (box_cells a b c d).length) ∧
      (a > c ∨ b > d → ∀ col, draw_box a b c d col v = v) := by
  have hin : ∀ p ∈ box_cells (if x1 < 0 then 0 else x1) (if y1 < 0 then 0 else y1)
      (if x2 ≥ g.screen_x then g.screen_x - 1 else x2)
      (if y2 ≥ g.screen_y then g.screen_y - 1 else y2), in_screen v p.1 p.2 := by
    intro p hp
    rw [mem_box_cells] at hp
    unfold in_screen
    rw [hx, hy]
    revert hp
    split_ifs <;> intro hp <;> omega
  refine ⟨_, _, _, _, safe_draw_box_out x1 y1 x2 y2 color g, fun col => draw_box_eq _ _ _ _ col v,
    hin, ?_, ?_, ?_⟩
  · intro p hp col w hwx hwy
    have hs : in_screen w p.1 p.2 := by
      have := hin p hp
      unfold in_screen at this ⊢
      rw [hwx, hwy]
      exact this
    rw [plot_pixel_eq, if_pos hs]
  · intro col
    rw [draw_box_eq, plot_cells_eq]
    have hf : (List.filter (fun p : Int × Int => decide (in_screen v p.1 p.2))
        (box_cells (if x1 < 0 then 0 else x1) (if y1 < 0 then 0 else y1)
          (if x2 ≥ g.screen_x then g.screen_x - 1 else x2)
          (if y2 ≥ g.screen_y then g.screen_y - 1 else y2))) = _ :=
      List.filter_eq_self.mpr fun p hp => decide_eq_true (hin p hp)
    simp only [List.length_append, List.length_reverse, List.length_map, hf]
    omega
  · intro h col
    rw [draw_box_eq, box_cells_empty _ _ _ _ h]
    rfl

theorem emitted_box_in_bounds_witness :
    ∃ a b c d,
      (safe_draw_box 320 0 340 120 2016 crash_game).out =
        crash_game.out ++ [Event.video (Cmd.box a b c d 2016)] ∧
      (∀ p ∈ box_cells a b c d, in_screen blank_video p.1 p.2) ∧
      (a > c ∨ b > d → ∀ col, draw_box a b c d col blank_video = blank_video) := by
  obtain ⟨a, b, c, d, h, -, hin, -, -, he⟩ :=
    emitted_box_in_bounds 320 0 340 120 2016 crash_game blank_video rfl rfl
  exact ⟨a, b, c, d, h, hin, he⟩

/-- C28: draw_bird passes the body, head and beak rectangles to safe_draw_box, and the
bounding box of these three rectangles before clamping is the rectangle check_collision
uses: left = bird.x, top = bird.y - 17, right = bird.x + 31, bottom = bird.y + 10. -/
theorem collision_box_is_drawn_box (g : Game) :
    draw_bird g =
      safe_draw_rect (bird_beak_box g.bird) BIRD_COLOR
        (safe_draw_rect (bird_head_box g.bird) BIRD_COLOR
          (safe_draw_rect (bird_body_box g.bird) BIRD_COLOR g)) ∧
    bounding_box (bird_body_box g.bird) (bird_head_box g.bird) (bird_beak_box g.bird) =
      (bird_left g.bird, bird_top g.bird, bird_right g.bird, bird_bottom g.bird) ∧
    bird_left g.bird = g.bird.x ∧ bird_right g.bird = g.bird.x + 31 ∧
    bird_top g.bird = g.bird.y - 17 ∧ bird_bottom g.bird = g.bird.y + 10 := by
  have e1 : c_div BIRD_BODY_HEIGHT 2 = 10 := by decide
  have e2 : c_div BIRD_HEAD_SIZE 2 = 7 := by decide
  have e3 : c_div BIRD_BEAK_SIZE 2 = 3 := by decide
  refine ⟨rfl, ?_, rfl, ?_, ?_, ?_⟩
  · unfold bounding_box bird_body_box bird_head_box bird_beak_box bird_left bird_top
      bird_right bird_bottom
    simp only [e1, e2, e3, BIRD_BODY_WIDTH, BIRD_BEAK_SIZE, max_def, min_def]
    split_ifs <;> simp only [Prod.mk.injEq] <;> omega
  · unfold bird_right
    simp only [e2, BIRD_BODY_WIDTH, BIRD_BEAK_SIZE]
    omega
  · unfold bird_top
    simp only [e1, e2]
    omega
  · unfold bird_bottom
    simp only [e1]

/-! ## Commands of one tick -/

theorem update_score_step_out (g : Game) (i : Fin MAX_PIPES) :
    ∃ l, (update_score_step g i).out = g.out ++ l ∧ ∀ e ∈ l, e = Event.coin_sound := by
  unfold update_score_step
  dsimp only
  by_cases h : g.passed_pipes.get i = 0 ∧ g.bird.x > (g.pipes.get i).x + PIPE_WIDTH
  · rw [if_pos h]
    refine ⟨[Event.coin_sound], ?_, fun e he => List.mem_singleton.mp he⟩
    split_ifs <;> rfl
  · rw [if_neg h]
    refine ⟨[], ?_, fun e he => absurd he (List.not_mem_nil e)⟩
    split_ifs <;> simp

theorem update_score_fold_out (l : List (Fin MAX_PIPES)) (g : Game) :
    ∃ coins, (l.foldl update_score_step g).out = g.out ++ coins ∧
      ∀ e ∈ coins, e = Event.coin_sound := by
  induction l generalizing g with
  | nil => exact ⟨[], by simp, fun e he => absurd he (List.not_mem_nil e)⟩
  | cons i l ih =>
    obtain ⟨l1, h1, hc1⟩ := update_score_step_out g i
    obtain ⟨l2, h2, hc2⟩ := ih (update_score_step g i)
    refine ⟨l1 ++ l2, ?_, fun e he => ?_⟩
    · rw [List.foldl_cons, h2, h1, List.append_assoc]
    · rcases List.mem_append.mp he with h | h
      · exact hc1 e h
      · exact hc2 e h

theorem update_score_out (g : Game) :
    ∃ coins, (update_score g).out = g.out ++ coins ∧ ∀ e ∈ coins, e = Event.coin_sound :=
  update_score_fold_out (List.finRange MAX_PIPES) g

theorem safe_draw_box_appends (x1 y1 x2 y2 color : Int) (g : Game) :
    ∃ e, (safe_draw_box x1 y1 x2 y2 color g).out = g.out ++ [e] ∧ is_box e = true :=
  ⟨_, safe_draw_box_out x1 y1 x2 y2 color g, rfl⟩

theorem draw_pipe_out (p : Pipe) (g : Game) :
    ∃ boxes, (draw_pipe p g).out = g.out ++ boxes ∧ ∀ e ∈ boxes, is_box e = true := by
  unfold draw_pipe
  dsimp only
  obtain ⟨e1, h1, hb1⟩ := safe_draw_box_appends p.x 0 (p.x + PIPE_WIDTH) p.top_height 0x07E0 g
  generalize safe_draw_box p.x 0 (p.x + PIPE_WIDTH) p.top_height 0x07E0 g = g1 at h1 ⊢
  split_ifs
  · obtain ⟨e2, h2, hb2⟩ := safe_draw_box_appends p.x (p.top_height + GAP_SIZE)
      (p.x + PIPE_WIDTH) (g1.screen_y - 1) 0x07E0 g1
    refine ⟨[e1, e2], ?_, ?_⟩
    · rw [h2, h1, List.append_assoc]
      rfl
    · intro e he
      simp only [List.mem_cons, List.mem_singleton, List.not_mem_nil, or_false] at he
      rcases he with rfl | rfl
      · exact hb1
      · exact hb2
  · refine ⟨[e1], h1, ?_⟩
    intro e he
    rw [List.mem_singleton] at he
    subst he
    exact hb1

theorem draw_pipes_out (l : List (Fin MAX_PIPES)) (g : Game) :
    ∃ boxes, (l.foldl (fun g i => draw_pipe (g.pipes.get i) g) g).out = g.out ++ boxes ∧
      ∀ e ∈ boxes, is_box e = true := by
  induction l generalizing g with
  | nil => exact ⟨[], by simp, fun e he => absurd he (List.not_mem_nil e)⟩
  | cons i l ih =>
    obtain ⟨l1, h1, hc1⟩ := draw_pipe_out (g.pipes.get i) g
    obtain ⟨l2, h2, hc2⟩ := ih (draw_pipe (g.pipes.get i) g)
    refine ⟨l1 ++ l2, ?_, fun e he => ?_⟩
    · rw [List.foldl_cons, h2, h1, List.append_assoc]
    · rcases List.mem_append.mp he with h | h
      · exact hc1 e h
      · exact hc2 e h

theorem draw_bird_out (g : Game) :
    ∃ boxes, (draw_bird g).out = g.out ++ boxes ∧ ∀ e ∈ boxes, is_box e = true := by
  have e : draw_bird g =
      safe_draw_rect (bird_beak_box g.bird) BIRD_COLOR
        (safe_draw_rect (bird_head_box g.bird) BIRD_COLOR
          (safe_draw_rect (bird_body_box g.bird) BIRD_COLOR g)) := rfl
  rw [e]
  unfold safe_draw_rect
  obtain ⟨e1, h1, hb1⟩ := safe_draw_box_appends (bird_body_box g.bird).1
    (bird_body_box g.bird).2.1 (bird_body_box g.bird).2.2.1 (bird_body_box g.bird).2.2.2
    BIRD_COLOR g
  generalize safe_draw_box (bird_body_box g.bird).1 (bird_body_box g.bird).2.1
    (bird_body_box g.bird).2.2.1 (bird_body_box g.bird).2.2.2 BIRD_COLOR g = g1 at h1 ⊢
  obtain ⟨e2, h2, hb2⟩ := safe_draw_box_appends (bird_head_box g.bird).1
    (bird_head_box g.bird).2.1 (bird_head_box g.bird).2.2.1 (bird_head_box g.bird).2.2.2
    BIRD_COLOR g1
  generalize safe_draw_box (bird_head_box g.bird).1 (bird_head_box g.bird).2.1
    (bird_head_box g.bird).2.2.1 (bird_head_box g.bird).2.2.2 BIRD_COLOR g1 = g2 at h2 ⊢
  obtain ⟨e3, h3, hb3⟩ := safe_draw_box_appends (bird_beak_box g.bird).1
    (bird_beak_box g.bird).2.1 (bird_beak_box g.bird).2.2.1 (bird_beak_box g.bird).2.2.2
    BIRD_COLOR g2
  refine ⟨[e1, e2, e3], ?_, ?_⟩
  · rw [h3, h2, h1, List.append_assoc, List.append_assoc]
    rfl
  · intro e he
    simp only [List.mem_cons, List.mem_singleton, List.not_mem_nil, or_false] at he
    rcases he with rfl | rfl | rfl
    · exact hb1
    · exact hb2
    · exact hb3

theorem playing_mid_out (fl : ℚ → ℚ) (inp : Input) (g m : Game)
    (h : playing_mid fl inp g = some m) : m.out = g.out := by
  unfold playing_mid at h
  simp only [Option.map_eq_some'] at h
  obtain ⟨s, hs, rfl⟩ := h
  have e := (scroll_pipes_spec fl inp.rand g s hs).1
  have e0 := congrArg Game.out e
  exact e0

/-- The output of the PLAYING branch: the coin cues of `update_score`, then either the
game-over texts or the boxes of the pipes and the bird, then `sync` and `swap`. -/
theorem playing_tick_out (fl : ℚ → ℚ) (inp : Input) (g g' : Game)
    (h : playing_tick fl inp g = some g') :
    ∃ m coins, playing_mid fl inp g = some m ∧ (∀ e ∈ coins, e = Event.coin_sound) ∧
      (check_collision (update_score m) ≠ 0 →
        g'.out = g.out ++ coins ++ (game_over_texts g'.high_score).map Event.video ++
          [Event.video Cmd.sync, Event.video Cmd.swap]) ∧
      (¬ check_collision (update_score m) ≠ 0 →
        ∃ boxes, (∀ e ∈ boxes, is_box e = true) ∧
          g'.out = g.out ++ coins ++ boxes ++
            [Event.video Cmd.sync, Event.video Cmd.swap]) := by
  unfold playing_tick at h
  simp only [Option.map_eq_some'] at h
  obtain ⟨m, hm, hg⟩ := h
  obtain ⟨coins, hco, hcoins⟩ := update_score_out m
  rw [playing_mid_out fl inp g m hm] at hco
  refine ⟨m, coins, hm, hcoins, fun hc => ?_, fun hc => ?_⟩
  · generalize update_score m = s at hg hco hc
    rw [if_pos hc] at hg
    have ho := display_game_over_out { s with game_over := 1 }
    have hf := display_game_over_frame { s with game_over := 1 }
    generalize display_game_over { s with game_over := 1 } = d at hg ho hf
    subst hg
    have hh : (emit Cmd.swap (emit Cmd.sync d)).high_score =
        if s.score > s.high_score then s.score else s.high_score := by
      have e0 := congrArg Game.high_score hf
      exact e0
    rw [hh]
    show (d.out ++ [Event.video Cmd.sync]) ++ [Event.video Cmd.swap] = _
    rw [ho]
    show (s.out ++ _ ++ _) ++ _ = _
    rw [hco]
    simp only [game_over_texts, List.map_cons, List.map_nil, List.append_assoc,
      List.cons_append, List.nil_append]
  · generalize update_score m = s at hg hco hc
    rw [if_neg hc] at hg
    obtain ⟨b1, h1, hb1⟩ := draw_pipes_out (List.finRange MAX_PIPES) s
    generalize (List.finRange MAX_PIPES).foldl (fun g i => draw_pipe (g.pipes.get i) g) s = d
      at hg h1
    obtain ⟨b2, h2, hb2⟩ := draw_bird_out d
    generalize draw_bird d = d2 at hg h2
    subst hg
    refine ⟨b1 ++ b2, fun e he => ?_, ?_⟩
    · rcases List.mem_append.mp he with h | h
      · exact hb1 e h
      · exact hb2 e h
    · show (d2.out ++ [Event.video Cmd.sync]) ++ [Event.video Cmd.swap] = _
      rw [h2, h1, hco]
      simp only [List.append_assoc, List.cons_append, List.nil_append]

theorem video_commands_append (a b : List Event) :
    video_commands (a ++ b) = video_commands a ++ video_commands b := by
  unfold video_commands
  rw [List.filterMap_append]

theorem video_commands_map (l : List Cmd) : video_commands (l.map Event.video) = l := by
  unfold video_commands
  induction l with
  | nil => rfl
  | cons c l ih =>
    rw [List.map_cons, List.filterMap_cons]
    exact congrArg (List.cons c) ih

theorem video_commands_coins (l : List Event) (h : ∀ e ∈ l, e = Event.coin_sound) :
    video_commands l = [] := by
  unfold video_commands
  induction l with
  | nil => rfl
  | cons e l ih =>
    have he := h e (List.mem_cons_self _ _)
    subst he
    rw [List.filterMap_cons]
    exact ih fun e he => h e (List.mem_cons_of_mem _ he)

theorem bracket_assoc (a e t u w x : List Event) :
    ∃ mid, (((a ++ e ++ t) ++ u) ++ w) ++ x = a ++ e ++ mid ++ x :=
  ⟨t ++ u ++ w, by simp only [List.append_assoc]⟩

/-- The events of one tick: the entry commands, a middle part, the exit commands. -/
theorem tick_out (fl : ℚ → ℚ) (inp : Input) (g g' : Game)
    (h : update_and_draw_pipes fl inp g = some g') :
    ∃ mid, g'.out = g.out ++ [Event.video Cmd.clear, Event.video Cmd.sync] ++ mid ++
      [Event.video Cmd.sync, Event.video Cmd.swap] := by
  have hentry : (emit Cmd.sync (emit Cmd.clear g)).out =
      g.out ++ [Event.video Cmd.clear, Event.video Cmd.sync] := by
    show (g.out ++ [Event.video Cmd.clear]) ++ [Event.video Cmd.sync] = _
    rw [List.append_assoc]
    rfl
  by_cases hgo : g.game_over = 0
  · rw [update_playing fl inp g hgo] at h
    obtain ⟨m, coins, -, -, hc, hn⟩ := playing_tick_out fl inp _ g' h
    by_cases hcol : check_collision (update_score m) ≠ 0
    · refine ⟨coins ++ (game_over_texts g'.high_score).map Event.video, ?_⟩
      rw [hc hcol, hentry]
      simp only [List.append_assoc]
    · obtain ⟨boxes, -, hb⟩ := hn hcol
      refine ⟨coins ++ boxes, ?_⟩
      rw [hb, hentry]
      simp only [List.append_assoc]
  · rw [update_game_over fl inp g hgo] at h
    have ho := game_over_tick_out inp _ g' h
    rw [display_game_over_out, hentry] at ho
    rw [ho]
    exact bracket_assoc _ _ _ _ _ _

/-- C22: in every state (PLAYING, the tick that detects a collision, GAME_OVER with or
without restart) and for every input, a tick that returns has appended to the output the
commands clear and sync first and the commands sync and swap last, so the sequence of
video commands it wrote begins with clear, sync and ends with sync, swap; and the tick
returns whenever screen_y - GAP_SIZE - MIN_PIPE_HEIGHT is positive. -/
theorem frame_bracketing (fl : ℚ → ℚ) (inp : Input) (g : Game) :
    (g.screen_y - GAP_SIZE - MIN_PIPE_HEIGHT > 0 →
      ∃ g', update_and_draw_pipes fl inp g = some g') ∧
    ∀ g', update_and_draw_pipes fl inp g = some g' →
      (∃ mid, g'.out = g.out ++ [Event.video Cmd.clear, Event.video Cmd.sync] ++ mid ++
        [Event.video Cmd.sync, Event.video Cmd.swap]) ∧
      (∃ cmds, video_commands g'.out = video_commands g.out ++ [Cmd.clear, Cmd.sync] ++ cmds ++
        [Cmd.sync, Cmd.swap]) := by
  refine ⟨fun hm => update_total fl inp g hm, fun g' h => ?_⟩
  obtain ⟨mid, hmid⟩ := tick_out fl inp g g' h
  refine ⟨⟨mid, hmid⟩, video_commands mid, ?_⟩
  rw [hmid, video_commands_append, video_commands_append, video_commands_append]
  rfl

theorem frame_bracketing_witness :
    (∃ g' cmds, update_and_draw_pipes id restart_input lost_game = some g' ∧
      video_commands g'.out = video_commands lost_game.out ++ [Cmd.clear, Cmd.sync] ++ cmds ++
        [Cmd.sync, Cmd.swap]) ∧
    (∃ g' cmds, update_and_draw_pipes id idle_input crash_game = some g' ∧
      video_commands g'.out = video_commands crash_game.out ++ [Cmd.clear, Cmd.sync] ++ cmds ++
        [Cmd.sync, Cmd.swap]) := by
  constructor
  · obtain ⟨g', h⟩ := (frame_bracketing id restart_input lost_game).1 (by decide)
    obtain ⟨cmds, hc⟩ := ((frame_bracketing id restart_input lost_game).2 g' h).2
    exact ⟨g', cmds, h, hc⟩
  · obtain ⟨g', h⟩ := (frame_bracketing id idle_input crash_game).1 (by decide)
    obtain ⟨cmds, hc⟩ := ((frame_bracketing id idle_input crash_game).2 g' h).2
    exact ⟨g', cmds, h, hc⟩

theorem check_collision_loop_congr (g1 g2 : Game) (hb : g1.bird = g2.bird)
    (hp : g1.pipes = g2.pipes) (l : List (Fin MAX_PIPES)) :
    check_collision_loop g1 l = check_collision_loop g2 l := by
  induction l with
  | nil => rfl
  | cons i l ih =>
    unfold check_collision_loop
    rw [hb, hp, ih]

theorem check_collision_update_score (m : Game) :
    check_collision (update_score m) = check_collision m := by
  have e := (update_score_spec m).1
  unfold check_collision
  apply check_collision_loop_congr
  · have e0 := congrArg Game.bird e
    exact e0
  · have e0 := congrArg Game.pipes e
    exact e0

/-- C26: in a PLAYING tick that returns, the state m on which the collision is decided
is the one reached after the pipe shift and respawn (scroll_pipes) and after update_bird
of that same tick; the tick ends in GAME_OVER exactly when check_collision on m is not 0;
and in that case the events of the tick contain no box command, its video commands being
clear, sync, the three game-over texts, sync, swap. -/
theorem collision_between_update_and_draw (fl : ℚ → ℚ) (inp : Input) (g g' : Game)
    (hgo : g.game_over = 0) (h : update_and_draw_pipes fl inp g = some g') :
    ∃ s m, scroll_pipes fl inp.rand (emit Cmd.sync (emit Cmd.clear g)) = some s ∧
      m = update_bird fl inp.key_input s ∧
      g'.bird = m.bird ∧ g'.pipes = m.pipes ∧
      g'.game_over = (if check_collision m ≠ 0 then 1 else 0) ∧
      (check_collision m ≠ 0 →
        g'.game_over = 1 ∧
        ∃ events, g'.out = g.out ++ events ∧ (∀ e ∈ events, is_box e = false) ∧
          video_commands events =
            [Cmd.clear, Cmd.sync] ++ game_over_texts g'.high_score ++ [Cmd.sync, Cmd.swap]) := by
  have hentry : (emit Cmd.sync (emit Cmd.clear g)).out =
      g.out ++ [Event.video Cmd.clear, Event.video Cmd.sync] := by
    show (g.out ++ [Event.video Cmd.clear]) ++ [Event.video Cmd.sync] = _
    rw [List.append_assoc]
    rfl
  obtain ⟨m, hm, -, -, -, ⟨-, -, hbird, hpipes⟩, -, -, hover, -⟩ := playing_step fl inp g g' hgo h
  rw [check_collision_update_score] at hover
  rw [update_playing fl inp g hgo] at h
  obtain ⟨m', coins, hm', hcoins, hc, -⟩ := playing_tick_out fl inp _ g' h
  rw [hm] at hm'
  have hmm : m' = m := (Option.some.inj hm').symm
  subst hmm
  rw [check_collision_update_score] at hc
  have hmid := hm
  unfold playing_mid at hmid
  simp only [Option.map_eq_some'] at hmid
  obtain ⟨s, hs, hsm⟩ := hmid
  refine ⟨s, m', hs, hsm.symm, hbird, hpipes, hover, fun hcol => ?_⟩
  refine ⟨by rw [hover, if_pos hcol], ?_⟩
  refine ⟨[Event.video Cmd.clear, Event.video Cmd.sync] ++ coins ++
    (game_over_texts g'.high_score).map Event.video ++
    [Event.video Cmd.sync, Event.video Cmd.swap], ?_, ?_, ?_⟩
  · rw [hc hcol, hentry]
    simp only [List.append_assoc]
  · intro e he
    rcases List.mem_append.mp he with he | he
    · rcases List.mem_append.mp he with he | he
      · rcases List.mem_append.mp he with he | he
        · simp only [List.mem_cons, List.mem_singleton, List.not_mem_nil, or_false] at he
          rcases he with rfl | rfl <;> rfl
        · rw [hcoins e he]
          rfl
      · simp only [game_over_texts, List.map_cons, List.map_nil, List.mem_cons,
          List.mem_singleton, List.not_mem_nil, or_false] at he
        rcases he with rfl | rfl | rfl <;> rfl
    · simp only [List.mem_cons, List.mem_singleton, List.not_mem_nil, or_false] at he
      rcases he with rfl | rfl <;> rfl
  · rw [video_commands_append, video_commands_append, video_commands_append,
      video_commands_coins coins hcoins, video_commands_map]
    rfl

theorem collision_between_update_and_draw_witness :
    ∃ g', update_and_draw_pipes id idle_input crash_game = some g' ∧ g'.game_over = 1 ∧
      ∃ events, g'.out = crash_game.out ++ events ∧ (∀ e ∈ events, is_box e = false) := by
  obtain ⟨g', h, hd⟩ := Option.map_eq_some'.mp crash_tick_collides
  obtain ⟨s, m, -, -, -, -, hover, hcol⟩ :=
    collision_between_update_and_draw id idle_input crash_game g' rfl h
  have hne : check_collision m ≠ 0 := by
    intro h0
    rw [if_neg (fun hn => hn h0)] at hover
    exact (of_decide_eq_true hd) hover
  obtain ⟨hg, events, he, hb, -⟩ := hcol hne
  exact ⟨g', h, hg, events, he, hb⟩

/-! ## Gravity and the floor -/

/-- What `update_bird` computes, in terms of the values after the jump test and the
gravity increment. -/
theorem update_bird_eq (fl : ℚ → ℚ) (k : Nat) (g : Game) :
    (update_bird fl k g).bird.y =
      top_clamp
        (if fall_accumulated fl k g ≥ 1 then
          (if jumped_y k g + c_div BIRD_BODY_HEIGHT 2 + c_trunc (fall_accumulated fl k g)
              < g.screen_y - BOTTOM_MARGIN then
            jumped_y k g + c_trunc (fall_accumulated fl k g)
          else jumped_y k g)
        else jumped_y k g) ∧
    (update_bird fl k g).bird.fall_accumulator =
      (if fall_accumulated fl k g ≥ 1 then
        fl (fall_accumulated fl k g - c_trunc (fall_accumulated fl k g))
      else fall_accumulated fl k g) := by
  unfold update_bird top_clamp fall_accumulated jumped_y
  dsimp only
  constructor <;> split_ifs <;> rfl

/-- C25 as stated fails: on a 240-line screen a bird at y = 228 with half a pixel
accumulated gets one whole pixel; its lower bound would become 228 + 10 + 1 = 239, which
is not past screen_y - BOTTOM_MARGIN = 239, yet the fall is not applied: bird.y stays
228. -/
theorem floor_rule_boundary :
    fall_accumulated id 0 floor_game ≥ 1 ∧ c_trunc (fall_accumulated id 0 floor_game) = 1 ∧
    floor_game.bird.y + c_div BIRD_BODY_HEIGHT 2 + 1 ≤ floor_game.screen_y - BOTTOM_MARGIN ∧
    floor_game.bird.y = 228 ∧ (update_bird id 0 floor_game).bird.y = 228 ∧
    (update_bird id 0 floor_game).bird.fall_accumulator = 0 := by
  decide!

/-- C25, amended: in update_bird, when the fall accumulator after the gravity increment is
at least 1, its integer part p is at least 1 and is removed from the accumulator in every
case; the fall is applied (bird.y becomes the value after the jump test plus p, before the
final top-of-screen adjustment) when bird.y + BIRD_BODY_HEIGHT/2 + p is strictly below
screen_y - BOTTOM_MARGIN and is discarded otherwise; for a bird whose top is on the
screen, bird.y increases by p if and only if that strict inequality holds. -/
theorem floor_rule (fl : ℚ → ℚ) (k : Nat) (g : Game) (h : fall_accumulated fl k g ≥ 1) :
    1 ≤ c_trunc (fall_accumulated fl k g) ∧
    (update_bird fl k g).bird.fall_accumulator =
      fl (fall_accumulated fl k g - c_trunc (fall_accumulated fl k g)) ∧
    (jumped_y k g + c_div BIRD_BODY_HEIGHT 2 + c_trunc (fall_accumulated fl k g)
        < g.screen_y - BOTTOM_MARGIN →
      (update_bird fl k g).bird.y =
        top_clamp (jumped_y k g + c_trunc (fall_accumulated fl k g))) ∧
    (¬ jumped_y k g + c_div BIRD_BODY_HEIGHT 2 + c_trunc (fall_accumulated fl k g)
        < g.screen_y - BOTTOM_MARGIN →
      (update_bird fl k g).bird.y = top_clamp (jumped_y k g)) ∧
    (c_div BIRD_BODY_HEIGHT 2 ≤ jumped_y k g →
      ((update_bird fl k g).bird.y = jumped_y k g + c_trunc (fall_accumulated fl k g) ↔
        jumped_y k g + c_div BIRD_BODY_HEIGHT 2 + c_trunc (fall_accumulated fl k g)
          < g.screen_y - BOTTOM_MARGIN)) := by
  have hp := c_trunc_pos _ h
  obtain ⟨hy, ha⟩ := update_bird_eq fl k g
  rw [if_pos h] at hy ha
  have e1 : c_div BIRD_BODY_HEIGHT 2 = 10 := by decide
  refine ⟨hp, ha, fun hlt => ?_, fun hge => ?_, fun htop => ?_⟩
  · rw [hy, if_pos hlt]
  · rw [hy, if_neg hge]
  · rw [hy]
    unfold top_clamp
    rw [e1] at htop ⊢
    constructor
    · intro heq
      by_contra hge
      rw [if_neg hge, if_neg (by omega)] at heq
      omega
    · intro hlt
      rw [if_pos hlt, if_neg (by omega)]

theorem floor_rule_witness :
    (update_bird id 0 floor_game).bird.fall_accumulator = 0 ∧
    (update_bird id 0 floor_game).bird.y = top_clamp (jumped_y 0 floor_game) :=
  ⟨((floor_rule id 0 floor_game (by decide!)).2.1).trans (by decide!),
   (floor_rule id 0 floor_game (by decide!)).2.2.2.1 (by decide!)⟩

theorem iterate_screen_y (fl : ℚ → ℚ) (k : Nat) (g : Game) (n : Nat) :
    ((update_bird fl k)^[n] g).screen_y = g.screen_y := by
  induction n with
  | zero => rfl
  | succ n ih => rw [Function.iterate_succ_apply', update_bird_screen_y, ih]

/-- One gravity-only step of `update_bird` when the rounding is exact on 0, 1/2, 1
and 5. -/
theorem gravity_step (fl : ℚ → ℚ) (h5 : fl GRAVITY_SPEED = GRAVITY_SPEED)
    (hh : fl (1 / 2) = 1 / 2) (h1 : fl 1 = 1) (h0 : fl 0 = 0) (k : Nat) (hk : k &&& 1 = 0)
    (g : Game) (hy : 10 ≤ g.bird.y) :
    (g.bird.fall_accumulator = 0 →
      (update_bird fl k g).bird.y = g.bird.y ∧
      (update_bird fl k g).bird.fall_accumulator = 1 / 2) ∧
    (g.bird.fall_accumulator = 1 / 2 → g.bird.y + 10 + 1 < g.screen_y - 1 →
      (update_bird fl k g).bird.y = g.bird.y + 1 ∧
      (update_bird fl k g).bird.fall_accumulator = 0) := by
  obtain ⟨ey, ea⟩ := update_bird_eq fl k g
  have hk' : ¬ k &&& 1 ≠ 0 := fun hn => hn hk
  have ej : jumped_y k g = g.bird.y := by
    unfold jumped_y
    rw [if_neg hk']
  have einc : fl (fl GRAVITY_SPEED / GRAVITY_MULTIPLIER) = 1 / 2 := by
    rw [h5]
    have : (GRAVITY_SPEED / GRAVITY_MULTIPLIER : ℚ) = 1 / 2 := by norm_num
    rw [this, hh]
  have e1 : c_div BIRD_BODY_HEIGHT 2 = 10 := by decide
  have etop : ∀ y : Int, 10 ≤ y → top_clamp y = y := by
    intro y hy'
    unfold top_clamp
    rw [e1, if_neg (by omega)]
  constructor
  · intro hacc
    have ef : fall_accumulated fl k g = 1 / 2 := by
      unfold fall_accumulated
      rw [if_neg hk', hacc, einc, zero_add, hh]
    have hlt : ¬ ((1 / 2 : ℚ) ≥ 1) := by norm_num
    rw [ef, if_neg hlt] at ey ea
    rw [ej, etop _ hy] at ey
    exact ⟨ey, ea⟩
  · intro hacc hfl
    have ef : fall_accumulated fl k g = 1 := by
      unfold fall_accumulated
      rw [if_neg hk', hacc, einc]
      have : (1 / 2 + 1 / 2 : ℚ) = 1 := by norm_num
      rw [this, h1]
    have hge : ((1 : ℚ) ≥ 1) := le_refl _
    have et : c_trunc 1 = 1 := by decide!
    rw [ef, if_pos hge, et] at ey ea
    rw [ej, e1, if_pos (by exact hfl), etop _ (by omega)] at ey
    refine ⟨ey, ?_⟩
    rw [ea]
    have : ((1 : ℚ) - ((1 : Int) : ℚ)) = 0 := by norm_num
    rw [this, h0]

theorem gravity_run (fl : ℚ → ℚ) (h5 : fl GRAVITY_SPEED = GRAVITY_SPEED)
    (hh : fl (1 / 2) = 1 / 2) (h1 : fl 1 = 1) (h0 : fl 0 = 0) (k : Nat) (hk : k &&& 1 = 0)
    (g : Game) (hacc : g.bird.fall_accumulator = 0) (hy : 10 ≤ g.bird.y) (n : Nat)
    (hfloor : g.bird.y + 10 + ((n / 2 : Nat) : Int) < g.screen_y - 1) :
    ((update_bird fl k)^[n] g).bird.y = g.bird.y + ((n / 2 : Nat) : Int) ∧
    ((update_bird fl k)^[n] g).bird.fall_accumulator = (if n % 2 = 0 then 0 else 1 / 2) := by
  induction n with
  | zero => exact ⟨by simp, by simpa using hacc⟩
  | succ n ih =>
    obtain ⟨iy, ia⟩ := ih (by omega)
    have hs := iterate_screen_y fl k g n
    rw [Function.iterate_succ_apply']
    generalize (update_bird fl k)^[n] g = s at iy ia hs
    obtain ⟨heven, hodd⟩ := gravity_step fl h5 hh h1 h0 k hk s (by omega)
    by_cases hpar : n % 2 = 0
    · rw [if_pos hpar] at ia
      obtain ⟨ey, ea⟩ := heven ia
      have e2 : (n + 1) / 2 = n / 2 := by omega
      rw [ey, ea, iy, e2, if_neg (by omega)]
      exact ⟨rfl, rfl⟩
    · rw [if_neg hpar] at ia
      have e2 : (n + 1) / 2 = n / 2 + 1 := by omega
      rw [e2] at hfloor
      obtain ⟨ey, ea⟩ := hodd ia (by rw [hs, iy]; push_cast at hfloor; omega)
      rw [ey, ea, iy, e2, if_pos (by omega)]
      exact ⟨by push_cast; ring, rfl⟩

/-- C24: with a rounding that is exact on 0, 1/2, 1 and 5 (as that of float is), no jump
input, fall accumulator 0 and a bird whose top is on the screen and which stays clear of
the floor for n ticks, after j <= n calls of update_bird bird.y has increased by
floor(j/2) and the accumulator is 0 for even j and 1/2 for odd j; in particular the first
call leaves bird.y unchanged with accumulator 1/2 and the second increases bird.y by
exactly 1 with accumulator 0. -/
theorem gravity_timing (fl : ℚ → ℚ) (h5 : fl GRAVITY_SPEED = GRAVITY_SPEED)
    (hh : fl (1 / 2) = 1 / 2) (h1 : fl 1 = 1) (h0 : fl 0 = 0) (k : Nat) (hk : k &&& 1 = 0)
    (g : Game) (hacc : g.bird.fall_accumulator = 0) (hy : 10 ≤ g.bird.y) (n : Nat)
    (hfloor : g.bird.y + 10 + ((n / 2 : Nat) : Int) < g.screen_y - 1) :
    (∀ j, j ≤ n →
      ((update_bird fl k)^[j] g).bird.y = g.bird.y + ((j / 2 : Nat) : Int) ∧
      ((update_bird fl k)^[j] g).bird.fall_accumulator = (if j % 2 = 0 then 0 else 1 / 2)) ∧
    (1 ≤ n → (update_bird fl k g).bird.y = g.bird.y ∧
      (update_bird fl k g).bird.fall_accumulator = 1 / 2) ∧
    (2 ≤ n → (update_bird fl k (update_bird fl k g)).bird.y = g.bird.y + 1 ∧
      (update_bird fl k (update_bird fl k g)).bird.fall_accumulator = 0) := by
  have hall : ∀ j, j ≤ n →
      ((update_bird fl k)^[j] g).bird.y = g.bird.y + ((j / 2 : Nat) : Int) ∧
      ((update_bird fl k)^[j] g).bird.fall_accumulator = (if j % 2 = 0 then 0 else 1 / 2) := by
    intro j hj
    have : j / 2 ≤ n / 2 := Nat.div_le_div_right hj
    exact gravity_run fl h5 hh h1 h0 k hk g hacc hy j (by omega)
  refine ⟨hall, fun hn => ?_, fun hn => ?_⟩
  · have := hall 1 hn
    simpa using this
  · have := hall 2 hn
    simpa using this

theorem gravity_timing_witness :
    ((update_bird id 0)^[10] middle_game).bird.y = 125 ∧
    (update_bird id 0 middle_game).bird.y = 120 ∧
    (update_bird id 0 (update_bird id 0 middle_game)).bird.y = 121 :=
  ⟨((gravity_timing id rfl rfl rfl rfl 0 rfl middle_game rfl (by decide) 10 (by decide)).1 10
      (le_refl _)).1,
   ((gravity_timing id rfl rfl rfl rfl 0 rfl middle_game rfl (by decide) 10 (by decide)).2.1
      (by decide)).1,
   ((gravity_timing id rfl rfl rfl rfl 0 rfl middle_game rfl (by decide) 10 (by decide)).2.2
      (by decide)).1⟩

/-! ## Clearing and the command buffer of the driver -/

theorem memset_io_cons (b : BufId) (e : BufId × Int × Int) (m : List (BufId × Int × Int)) :
    memset_io b (e :: m) =
      if e.1 = b then
        if 0 ≤ e.2.1 ∧ e.2.1 + 1 < BUFFER_SIZE then memset_io b m
        else (e.1, e.2.1, memset_zero e.2.1 e.2.2) :: memset_io b m
      else e :: memset_io b m := by
  unfold memset_io
  rw [List.filterMap_cons]
  split_ifs <;> rfl

/-- What a buffer holds after `memset_io`. -/
theorem read_memset_io (b : BufId) (m : List (BufId × Int × Int)) (b' : BufId) (a : Int) :
    read_pixel (memset_io b m) b' a =
      if b' = b then memset_zero a (read_pixel m b' a) else read_pixel m b' a := by
  induction m with
  | nil =>
    have : memset_io b [] = [] := rfl
    rw [this]
    have e0 : read_pixel [] b' a = 0 := rfl
    rw [e0]
    unfold memset_zero
    split_ifs <;> rfl
  | cons e m ih =>
    rw [memset_io_cons, read_pixel_cons]
    by_cases he : e.1 = b
    · rw [if_pos he]
      by_cases hr : 0 ≤ e.2.1 ∧ e.2.1 + 1 < BUFFER_SIZE
      · rw [if_pos hr, ih]
        by_cases hm : e.1 = b' ∧ e.2.1 = a
        · rw [if_pos hm, if_pos (hm.1 ▸ he), if_pos (hm.1 ▸ he)]
          unfold memset_zero
          rw [if_pos (hm.2 ▸ hr), if_pos (hm.2 ▸ hr)]
        · rw [if_neg hm]
      · rw [if_neg hr, read_pixel_cons, ih]
        dsimp only
        by_cases hm : e.1 = b' ∧ e.2.1 = a
        · rw [if_pos hm, if_pos hm, if_pos (hm.1 ▸ he), hm.2]
        · rw [if_neg hm, if_neg hm]
    · rw [if_neg he, read_pixel_cons, ih]
      by_cases hm : e.1 = b' ∧ e.2.1 = a
      · rw [if_pos hm, if_pos hm, if_neg (fun h => he (hm.1.trans h))]
      · rw [if_neg hm, if_neg hm]

theorem take_of_take (l s : List Char) (n k : Nat) (hk : k ≤ n) (h : l.take n = s) :
    l.take k = s.take k := by
  rw [← h, List.take_take, Nat.min_eq_left hk]

/-- The dispatch of a command text that begins with `clear`. -/
theorem device_write_clear (sc : Scanner) (prior buffer : List Char) (v : Video)
    (hp : sc.pipe prior = none) (hlen : buffer.length < BUF_LEN)
    (h5 : (buffer.takeWhile fun c => c ≠ Char.ofNat 0).take 5 = "clear".toList) :
    device_write sc prior buffer false v =
      if (buffer.takeWhile fun c => c ≠ Char.ofNat 0).take 10 = "clear_both".toList then
        some ((buffer.length : Int), clear_both_buffers v)
      else some ((buffer.length : Int), clear_screen v) := by
  have h4 := take_of_take _ _ 5 4 (by decide) h5
  unfold device_write
  rw [hp]
  dsimp only
  rw [if_neg (by omega), if_neg (by simp), if_neg (by omega), h5, if_neg (by decide),
    if_neg (by decide)]
  unfold device_write_draw
  by_cases hb : (buffer.takeWhile fun c => c ≠ Char.ofNat 0).take 10 = "clear_both".toList
  · rw [if_pos hb, if_pos hb]
  · rw [if_neg hb, if_neg hb, h4, if_neg (by decide), if_neg (by decide), h5, if_pos rfl]

theorem cell_clear_screen (v : Video) (b : BufId) (x y : Int) :
    cell (clear_screen v) b x y =
      if b = v.current_back_buffer then memset_zero (pixel_offset x y) (cell v b x y)
      else cell v b x y := by
  unfold cell clear_screen
  exact read_memset_io _ _ _ _

theorem cell_clear_both (v : Video) (b : BufId) (x y : Int)
    (h0 : 0 ≤ pixel_offset x y) (h1 : pixel_offset x y + 1 < BUFFER_SIZE)
    (hb : b = v.pixel_buffer ∨ b = v.current_back_buffer) :
    cell (clear_both_buffers v) b x y = 0 := by
  have hz : ∀ c, memset_zero (pixel_offset x y) c = 0 := by
    intro c
    unfold memset_zero
    rw [if_pos ⟨h0, h1⟩]
  unfold cell clear_both_buffers
  dsimp only
  rw [read_memset_io, read_memset_io]
  by_cases hback : b = v.current_back_buffer
  · rw [if_pos hback, hz]
  · rw [if_neg hback]
    rcases hb with hf | hk
    · rw [if_pos hf, hz]
    · exact absurd hk hback

/-- C23: when the command buffer holds no stale pipe command, the written text `clear`
runs clear_screen and the written text `clear_both` runs clear_both_buffers (it is not
handled as `clear`).  clear_screen zeroes every cell of the back buffer whose halfword
lies within the first BUFFER_SIZE bytes (on a screen of at most 512x256 every in-range
cell other than (511, 255)) and leaves every other buffer unchanged; clear_both_buffers
zeroes those cells in both buffers; neither changes the character plane or the
pointers.  The halfword of cell (511, 255) only loses its low byte, BUFFER_SIZE being
one byte short of the buffer; and when the command buffer holds a stale pipe command
that pipe is drawn in place of the clear. -/
theorem clear_versus_clear_both (sc : Scanner) (prior : List Char) (v : Video) :
    (sc.pipe prior = none →
      device_write sc prior "clear".toList false v = some (5, clear_screen v) ∧
      device_write sc prior "clear_both".toList false v = some (10, clear_both_buffers v)) ∧
    (∀ x top gap color, sc.pipe prior = some (x, top, gap, color) →
      device_write sc prior "clear".toList false v =
        some (5, draw_pipe_direct x top gap (to_short color) v)) ∧
    (∀ x y, 0 ≤ pixel_offset x y → pixel_offset x y + 1 < BUFFER_SIZE →
      cell (clear_screen v) v.current_back_buffer x y = 0) ∧
    (∀ x y, in_screen v x y → v.resolution_x ≤ 512 → v.resolution_y ≤ 256 →
      (x, y) ≠ (511, 255) → cell (clear_screen v) v.current_back_buffer x y = 0) ∧
    (∀ b a, b ≠ v.current_back_buffer →
      read_pixel (clear_screen v).pixels b a = read_pixel v.pixels b a) ∧
    (∀ b x y, b = v.pixel_buffer ∨ b = v.current_back_buffer → 0 ≤ pixel_offset x y →
      pixel_offset x y + 1 < BUFFER_SIZE → cell (clear_both_buffers v) b x y = 0) ∧
    ((clear_screen v).chars = v.chars ∧ (clear_screen v).pixel_buffer = v.pixel_buffer ∧
      (clear_screen v).current_back_buffer = v.current_back_buffer) ∧
    ((clear_both_buffers v).chars = v.chars ∧
      (clear_both_buffers v).pixel_buffer = v.pixel_buffer ∧
      (clear_both_buffers v).current_back_buffer = v.current_back_buffer) ∧
    cell (clear_screen v) v.current_back_buffer 511 255 =
      cell v v.current_back_buffer 511 255 - cell v v.current_back_buffer 511 255 % 256 := by
  have hzero : ∀ x y, 0 ≤ pixel_offset x y → pixel_offset x y + 1 < BUFFER_SIZE →
      cell (clear_screen v) v.current_back_buffer x y = 0 := by
    intro x y h0 h1
    rw [cell_clear_screen, if_pos rfl]
    unfold memset_zero
    rw [if_pos ⟨h0, h1⟩]
  refine ⟨fun hp => ⟨?_, ?_⟩, fun x top gap color h => ?_, hzero, ?_, ?_, ?_,
    ⟨rfl, rfl, rfl⟩, ⟨rfl, rfl, rfl⟩, ?_⟩
  · have h := device_write_clear sc prior "clear".toList v hp (by decide) (by decide)
    rw [if_neg (by decide)] at h
    exact h
  · have h := device_write_clear sc prior "clear_both".toList v hp (by decide) (by decide)
    rw [if_pos (by decide)] at h
    exact h
  · exact device_write_stale_pipe sc prior "clear".toList false v x top gap color h
  · intro x y hs hx hy hne
    unfold in_screen at hs
    have hxy : ¬ (x = 511 ∧ y = 255) := fun h => hne (Prod.ext h.1 h.2)
    have hsz : BUFFER_SIZE = 0x3FFFF := rfl
    apply hzero <;> unfold pixel_offset <;> omega
  · intro b a hb
    unfold clear_screen
    show read_pixel (memset_io _ _) b a = _
    rw [read_memset_io, if_neg hb]
  · intro b x y hb h0 h1
    exact cell_clear_both v b x y h0 h1 hb
  · rw [cell_clear_screen, if_pos rfl]
    unfold memset_zero
    rw [if_neg (by decide), if_pos (by decide)]

theorem clear_versus_clear_both_witness :
    device_write c_scanner [] "clear".toList false wide_video =
      some (5, clear_screen wide_video) ∧
    in_screen wide_video 511 255 ∧
    cell wide_video BufId.two 511 255 = 256 ∧
    cell (clear_screen wide_video) BufId.two 511 255 = 256 :=
  ⟨((clear_versus_clear_both c_scanner [] wide_video).1 (by decide)).1, by decide, by decide,
   by decide⟩

/-- C29: a write of exactly BUF_LEN bytes passes the length test of device_write, which
rejects only lengths above BUF_LEN, and, once copied, reaches the store of the string
terminator at index BUF_LEN, one past the last index BUF_LEN - 1 of the command buffer;
the model reports this out-of-bounds store as `none`. -/
theorem terminator_out_of_bounds (sc : Scanner) (prior buffer : List Char) (v : Video)
    (hp : sc.pipe prior = none) :
    (buffer.length > BUF_LEN → device_write sc prior buffer false v = some (-EINVAL, v)) ∧
    (buffer.length = BUF_LEN →
      ¬ buffer.length > BUF_LEN ∧ ¬ buffer.length < BUF_LEN ∧
      device_write sc prior buffer false v = none) := by
  constructor
  · intro h
    unfold device_write
    rw [hp]
    dsimp only
    rw [if_pos h]
  · intro h
    refine ⟨by omega, by omega, ?_⟩
    unfold device_write
    rw [hp]
    dsimp only
    rw [if_neg (by omega), if_neg (by simp), if_pos h]

theorem terminator_out_of_bounds_witness :
    (List.replicate 80 'a').length = BUF_LEN ∧
    device_write c_scanner [] (List.replicate 80 'a') false blank_video = none :=
  ⟨by decide,
   ((terminator_out_of_bounds c_scanner [] (List.replicate 80 'a') blank_video (by decide)).2
      (by decide)).2.2⟩

end FlappyBird
